import Mathlib

/-!
# CasparCG core: stage transforms and the image kernel

A shallow embedding of `core/producer/stage.cpp` and
`core/mixer/image/image_kernel.cpp`.

Conventions of the embedding:

* a C++ `int` is an `Int` kept in the 32-bit range; an `int` addition is
  followed by `wrap_int`, the two's-complement reduction;
* a C++ `double` is a rational number (finite values, exact arithmetic);
* a `std::map<int, V>` that is iterated is an association list in ascending
  key order; one that is only indexed, erased and cleared is a function
  `Int → Option V`.
-/

namespace caspar.core

/-! ## Machine integers -/

/-- Largest value of a 32-bit `int`. -/
def INT_MAX : Int := 2147483647

/-- Smallest value of a 32-bit `int`. -/
def INT_MIN : Int := -2147483648

/-- Two's-complement reduction of an integer to the 32-bit `int` range. -/
def wrap_int (x : Int) : Int := (x + 2147483648) % 4294967296 - 2147483648

/-- The value is representable as a 32-bit `int`. -/
def is_int (x : Int) : Prop := INT_MIN ≤ x ∧ x ≤ INT_MAX

instance (x : Int) : Decidable (is_int x) := by
  unfold is_int; infer_instance

/-! ## `tweened_transform<T>` (stage.cpp, lines 48-78)

`tween` and `tweener_t` come from `frame_transform.h`, which is not part of the
sources at hand: the interpolation function is a parameter of the embedding,
`Tw` is the type of tweeners. -/

/-- The class `tweened_transform<T>`: its five data members. -/
structure tweened_transform (T Tw : Type) where
  source_ : T
  dest_ : T
  duration_ : Int
  time_ : Int
  tweener_ : Tw

namespace tweened_transform

variable {T Tw : Type}

/-- The default constructor: duration 0, time 0, the linear tweener;
`source_` and `dest_` are default-constructed. -/
def default (get_tweener : String → Tw) (dflt : T) : tweened_transform T Tw :=
  { source_ := dflt, dest_ := dflt, duration_ := 0, time_ := 0,
    tweener_ := get_tweener "linear" }

/-- The four-argument constructor: time starts at 0. -/
def mk4 (get_tweener : String → Tw) (source dest : T) (duration : Int)
    (tween_name : String) : tweened_transform T Tw :=
  { source_ := source, dest_ := dest, duration_ := duration, time_ := 0,
    tweener_ := get_tweener tween_name }

/-- The member `fetch()`: `dest_` when `time_ == duration_`, the tween of the
two endpoints at `time_` otherwise. -/
def fetch (tween : ℚ → T → T → ℚ → Tw → T) (x : tweened_transform T Tw) : T :=
  if x.time_ = x.duration_ then x.dest_
  else tween (x.time_ : ℚ) x.source_ x.dest_ (x.duration_ : ℚ) x.tweener_

/-- The member `fetch_and_tick(num)`: `time_ = std::min(time_+num, duration_)`
and then `fetch()`. The result is the returned value and the object after the call. -/
def fetch_and_tick (tween : ℚ → T → T → ℚ → Tw → T) (x : tweened_transform T Tw)
    (num : Int) : T × tweened_transform T Tw :=
  let x1 := { x with time_ := min (wrap_int (x.time_ + num)) x.duration_ }
  (x1.fetch tween, x1)

/-- A sequence of calls `fetch_and_tick(n_1)`, ..., `fetch_and_tick(n_k)` on one
object: the value returned by the last call (none when there was no call) and the
object after the calls. -/
def fetch_and_tick_seq (tween : ℚ → T → T → ℚ → Tw → T) (x : tweened_transform T Tw)
    (nums : List Int) : Option T × tweened_transform T Tw :=
  nums.foldl (fun acc n => ((acc.2.fetch_and_tick tween n).1 |> some,
                            (acc.2.fetch_and_tick tween n).2)) (none, x)

end tweened_transform

/-- Modelled from the spec: the interpolation `interp(time/duration, source, dest,
tweener)` of `frame_transform.h` (not among the sources) on one `double`, the
tweener being a map of the unit interval. -/
def tween_double (time : ℚ) (source dest : ℚ) (duration : ℚ) (tweener : ℚ → ℚ) : ℚ :=
  source + (dest - source) * tweener (time / duration)

/-- Modelled from the spec: the tweener named `linear`, the identity on the unit
interval; every other name is given the same function here. -/
def get_tweener_double (_name : String) : ℚ → ℚ := fun t => t

/-! ## Frames and transforms

`frame_transform.h`, `basic_frame.h`, `video_format.h` and `frame_producer.h` are
not among the sources; the data they declare is written down here from the uses in
`stage.cpp` and `image_kernel.cpp` and from the data model of the specification. -/

/-- Modelled from the spec: the enumeration `field_mode` of `video_format.h`
(progressive, upper, lower). -/
inductive field_mode where
  | progressive
  | upper
  | lower
  deriving DecidableEq, Repr

/-- Modelled from the spec: the `levels` member of a frame transform. -/
structure levels where
  min_input : ℚ
  max_input : ℚ
  min_output : ℚ
  max_output : ℚ
  gamma : ℚ
  deriving DecidableEq

/-- Modelled from the spec: the struct `frame_transform` of `frame_transform.h`,
with the members that `stage.cpp` and `image_kernel.cpp` read. -/
structure frame_transform where
  opacity : ℚ
  brightness : ℚ
  contrast : ℚ
  saturation : ℚ
  fill_translation : ℚ × ℚ
  fill_scale : ℚ × ℚ
  clip_translation : ℚ × ℚ
  clip_scale : ℚ × ℚ
  levels : levels
  field_mode : field_mode
  is_key : Bool
  deriving DecidableEq

/-- Modelled from the spec: the default-constructed (identity) frame transform,
"all defaults". -/
def frame_transform.identity : frame_transform :=
  { opacity := 1, brightness := 1, contrast := 1, saturation := 1,
    fill_translation := (0, 0), fill_scale := (1, 1),
    clip_translation := (0, 0), clip_scale := (1, 1),
    levels := { min_input := 0, max_input := 1, min_output := 0, max_output := 1, gamma := 1 },
    field_mode := field_mode.progressive, is_key := false }

/-- Modelled from the spec: the struct `video_format_desc` of `video_format.h`. -/
structure video_format_desc where
  width : Nat
  height : Nat
  field_mode : field_mode
  time_scale : Nat
  duration : Nat
  deriving DecidableEq

/-- The frames a stage handles. `P` is the type of the frames that producers
make. `wrap frame t` is `make_safe<basic_frame>(frame)` with its
`get_frame_transform()` assigned `t`; `interlace` is the call
`basic_frame::interlace(frame1, frame2, mode)`, whose body is not among the
sources and is kept as a node. -/
inductive basic_frame (P : Type) where
  | produced (p : P)
  | empty
  | eof
  | wrap (frame : basic_frame P) (transform : frame_transform)
  | interlace (frame1 frame2 : basic_frame P) (mode : field_mode)
  deriving DecidableEq

/-- Modelled from the spec: `frame_producer::NO_FLAG` (the empty flag set). -/
def NO_FLAG : Nat := 0

/-- Modelled from the spec: `frame_producer::ALPHA_ONLY_FLAG`, one bit of the
flag set. -/
def ALPHA_ONLY_FLAG : Nat := 1

/-- Modelled from the spec: `frame_producer::DEINTERLACE_FLAG`, another bit of
the flag set. -/
def DEINTERLACE_FLAG : Nat := 2

/-! ## `std::map` -/

/-- The lookup `m.find(k)` in a map kept as an association list. -/
def map_find {V : Type} : List (Int × V) → Int → Option V
  | [], _ => none
  | (k0, v0) :: rest, k => if k = k0 then some v0 else map_find rest k

/-- The assignment `m[k] = v` in a map kept as an association list in ascending
key order. -/
def map_assign {V : Type} : List (Int × V) → Int → V → List (Int × V)
  | [], k, v => [(k, v)]
  | (k0, v0) :: rest, k, v =>
    if k < k0 then (k, v) :: (k0, v0) :: rest
    else if k = k0 then (k, v) :: rest
    else (k0, v0) :: map_assign rest k v

/-- The keys of a map, in iteration order. -/
def map_keys {V : Type} (m : List (Int × V)) : List Int := m.map Prod.fst

/-! ## `stage::impl` (stage.cpp, lines 80-348) -/

/-- The member `transforms_`, a `std::map` that is never iterated. -/
abbrev transform_map (Tw : Type) := Int → Option (tweened_transform frame_transform Tw)

/-- The element `transforms_[index]`: a missing entry is default-constructed. -/
def transform_map.get {Tw : Type} (get_tweener : String → Tw) (m : transform_map Tw)
    (index : Int) : tweened_transform frame_transform Tw :=
  (m index).getD (tweened_transform.default get_tweener frame_transform.identity)

/-- The map after `transforms_[index]` has been given the value `x`. -/
def transform_map.set {Tw : Type} (m : transform_map Tw) (index : Int)
    (x : tweened_transform frame_transform Tw) : transform_map Tw :=
  fun j => if j = index then some x else m j

/-- The state of a stage: the members `format_desc_`, `layers_` and
`transforms_`. `L` is the type of a layer (layer.cpp is not among the sources). -/
structure stage_impl (L Tw : Type) where
  format_desc_ : video_format_desc
  layers_ : List (Int × L)
  transforms_ : transform_map Tw

/-- The flags of lines 127-135 of `tick`, from the format and the transform
fetched for the first field. -/
def derive_flags (format_desc : video_format_desc) (transform : frame_transform) : Nat :=
  let flags := NO_FLAG
  let flags :=
    if format_desc.field_mode ≠ field_mode.progressive then
      let flags := flags |||
        (if |transform.fill_scale.2 - 1| > (1 : ℚ) / 10000 then DEINTERLACE_FLAG else NO_FLAG)
      flags |||
        (if |transform.fill_translation.2| > (1 : ℚ) / 10000 then DEINTERLACE_FLAG else NO_FLAG)
    else flags
  if transform.is_key then flags ||| ALPHA_ONLY_FLAG else flags

/-- What the body of the `parallel_for_each` of `tick` does for one layer. -/
structure layer_tick (L P Tw : Type) where
  /-- the flags passed to `layer.receive` -/
  flags : Nat
  /-- `transforms_` after the body -/
  transforms : transform_map Tw
  /-- the frame stored in `frames[index]` and the layer after `receive`;
  none when `receive` raised -/
  outcome : Option (basic_frame P × L)

section stage

variable {L P Tw : Type}
variable (tween : ℚ → frame_transform → frame_transform → ℚ → Tw → frame_transform)
variable (get_tweener : String → Tw)
variable (receive : L → Nat → Option (basic_frame P × L))

/-- The body of the `parallel_for_each` of `tick` (lines 124-150) for the layer
`entry`. `receive` is the member `layer::receive`: the frame and the layer after
the call, none when it raises. -/
def tick_layer (format_desc : video_format_desc) (transforms : transform_map Tw)
    (entry : Int × L) : layer_tick L P Tw :=
  let r1 := (transforms.get get_tweener entry.1).fetch_and_tick tween 1
  let transform := r1.1
  let transforms1 := transforms.set entry.1 r1.2
  let flags := derive_flags format_desc transform
  match receive entry.2 flags with
  | none => { flags := flags, transforms := transforms1, outcome := none }
  | some (frame, layer1) =>
    let frame1 := basic_frame.wrap frame transform
    if format_desc.field_mode ≠ field_mode.progressive then
      let r2 := (transforms1.get get_tweener entry.1).fetch_and_tick tween 1
      let frame2 := basic_frame.wrap frame r2.1
      { flags := flags, transforms := transforms1.set entry.1 r2.2,
        outcome := some (basic_frame.interlace frame1 frame2 format_desc.field_mode, layer1) }
    else
      { flags := flags, transforms := transforms1, outcome := some (frame1, layer1) }

/-- The state of the `parallel_for_each` of `tick`, run one layer after the other
in key order. -/
structure tick_loop_state (L P Tw : Type) where
  /-- the calls of `layer.receive` made: layer index and flags -/
  calls : List (Int × Nat)
  /-- the map `frames`; none when a `receive` raised -/
  frames : Option (List (Int × basic_frame P))
  /-- the layers gone through, after their `receive` -/
  layers : List (Int × L)
  /-- `transforms_` after the loop -/
  transforms : transform_map Tw

/-- The `parallel_for_each` of `tick` over the layers. The loop ends at the first
`receive` that raises. -/
def tick_loop (format_desc : video_format_desc) :
    transform_map Tw → List (Int × basic_frame P) → List (Int × L) → tick_loop_state L P Tw
  | transforms, frames, [] =>
    { calls := [], frames := some frames, layers := [], transforms := transforms }
  | transforms, frames, entry :: rest =>
    let r := tick_layer tween get_tweener receive format_desc transforms entry
    match r.outcome with
    | none =>
      { calls := [(entry.1, r.flags)], frames := none, layers := [],
        transforms := r.transforms }
    | some (frame, layer1) =>
      let t := tick_loop format_desc r.transforms (map_assign frames entry.1 frame) rest
      { calls := (entry.1, r.flags) :: t.calls, frames := t.frames,
        layers := (entry.1, layer1) :: t.layers, transforms := t.transforms }

/-- What one `tick` does. -/
structure tick_result (L P Tw : Type) where
  /-- the calls of `layer.receive` made: layer index and flags -/
  calls : List (Int × Nat)
  /-- the map of frames sent to the target; none when the tick raised and sent
  nothing -/
  bundle : Option (List (Int × basic_frame P))
  /-- the stage after the tick -/
  stage : stage_impl L Tw

/-- The member `tick` (lines 112-171): the frames start as `empty` for every
layer, the layers are pulled, the bundle is sent; when something raises the
layers are cleared. -/
def tick (s : stage_impl L Tw) : tick_result L P Tw :=
  let frames0 : List (Int × basic_frame P) :=
    s.layers_.foldl (fun m entry => map_assign m entry.1 basic_frame.empty) []
  let t := tick_loop tween get_tweener receive s.format_desc_ s.transforms_ frames0 s.layers_
  match t.frames with
  | some frames =>
    { calls := t.calls, bundle := some frames,
      stage := { s with layers_ := t.layers, transforms_ := t.transforms } }
  | none =>
    { calls := t.calls, bundle := none,
      stage := { s with layers_ := [], transforms_ := t.transforms } }

/-- The stage after `n` ticks in a row. -/
def tick_n (s : stage_impl L Tw) : Nat → stage_impl L Tw
  | 0 => s
  | n + 1 => (tick tween get_tweener receive (tick_n s n)).stage

/-- The command that `set_transform` puts on the executor (lines 177-179). The
`unsigned int mix_duration` is converted to the `int` parameter of the
constructor. -/
def set_transform (s : stage_impl L Tw) (index : Int) (transform : frame_transform)
    (mix_duration : Nat) (tween_name : String) : stage_impl L Tw :=
  let src := (s.transforms_.get get_tweener index).fetch tween
  let dst := transform
  let x := tweened_transform.mk4 get_tweener src dst (wrap_int (mix_duration : Int)) tween_name
  { s with transforms_ := s.transforms_.set index x }

end stage

/-! ## `image_kernel` (image_kernel.cpp)

The calls made on the GPU device, the shader and the buffers are recorded, in
order, as a list of commands. The headers that declare `render_item`,
`device_buffer`, `pixel_format_desc`, `blend_mode`, `texture_id` and the shader
are not among the sources. -/

/-- The array `upper_pattern` (lines 47-51). -/
def upper_pattern : List Nat :=
  [
   0xff, 0xff, 0xff, 0xff, 0x00, 0x00, 0x00, 0x00, 0xff, 0xff, 0xff, 0xff, 0x00, 0x00, 0x00, 0x00, 0xff, 0xff, 0xff, 0xff, 0x00, 0x00, 0x00, 0x00, 0xff, 0xff, 0xff, 0xff, 0x00, 0x00, 0x00, 0x00,
   0xff, 0xff, 0xff, 0xff, 0x00, 0x00, 0x00, 0x00, 0xff, 0xff, 0xff, 0xff, 0x00, 0x00, 0x00, 0x00, 0xff, 0xff, 0xff, 0xff, 0x00, 0x00, 0x00, 0x00, 0xff, 0xff, 0xff, 0xff, 0x00, 0x00, 0x00, 0x00,
   0xff, 0xff, 0xff, 0xff, 0x00, 0x00, 0x00, 0x00, 0xff, 0xff, 0xff, 0xff, 0x00, 0x00, 0x00, 0x00, 0xff, 0xff, 0xff, 0xff, 0x00, 0x00, 0x00, 0x00, 0xff, 0xff, 0xff, 0xff, 0x00, 0x00, 0x00, 0x00,
   0xff, 0xff, 0xff, 0xff, 0x00, 0x00, 0x00, 0x00, 0xff, 0xff, 0xff, 0xff, 0x00, 0x00, 0x00, 0x00, 0xff, 0xff, 0xff, 0xff, 0x00, 0x00, 0x00, 0x00, 0xff, 0xff, 0xff, 0xff, 0x00, 0x00, 0x00, 0x00]

/-- The array `lower_pattern` (lines 53-57). -/
def lower_pattern : List Nat :=
  [
   0x00, 0x00, 0x00, 0x00, 0xff, 0xff, 0xff, 0xff, 0x00, 0x00, 0x00, 0x00, 0xff, 0xff, 0xff, 0xff, 0x00, 0x00, 0x00, 0x00, 0xff, 0xff, 0xff, 0xff, 0x00, 0x00, 0x00, 0x00, 0xff, 0xff, 0xff, 0xff,
   0x00, 0x00, 0x00, 0x00, 0xff, 0xff, 0xff, 0xff, 0x00, 0x00, 0x00, 0x00, 0xff, 0xff, 0xff, 0xff, 0x00, 0x00, 0x00, 0x00, 0xff, 0xff, 0xff, 0xff, 0x00, 0x00, 0x00, 0x00, 0xff, 0xff, 0xff, 0xff,
   0x00, 0x00, 0x00, 0x00, 0xff, 0xff, 0xff, 0xff, 0x00, 0x00, 0x00, 0x00, 0xff, 0xff, 0xff, 0xff, 0x00, 0x00, 0x00, 0x00, 0xff, 0xff, 0xff, 0xff, 0x00, 0x00, 0x00, 0x00, 0xff, 0xff, 0xff, 0xff,
   0x00, 0x00, 0x00, 0x00, 0xff, 0xff, 0xff, 0xff, 0x00, 0x00, 0x00, 0x00, 0xff, 0xff, 0xff, 0xff, 0x00, 0x00, 0x00, 0x00, 0xff, 0xff, 0xff, 0xff, 0x00, 0x00, 0x00, 0x00, 0xff, 0xff, 0xff, 0xff]

/-- Modelled from the spec: a `device_buffer` (a texture or a render target):
its size and whether its upload is complete. -/
structure device_buffer where
  width : Nat
  height : Nat
  ready : Bool
  deriving DecidableEq

/-- Modelled from the spec: one plane of a pixel format description. -/
structure plane where
  width : Nat
  height : Nat
  deriving DecidableEq

/-- Modelled from the spec: the struct `pixel_format_desc`: the pixel format tag
and the planes. -/
structure pixel_format_desc where
  pix_fmt : Nat
  planes : List plane
  deriving DecidableEq

/-- Modelled from the spec: the enumeration `blend_mode`. -/
inductive blend_mode where
  | normal
  | replace
  | add
  | screen
  | multiply
  | overlay
  deriving DecidableEq, Repr

/-- Modelled from the spec: the struct `render_item`
(textures, pix_desc, transform, blend_mode). -/
structure render_item where
  pix_desc : pixel_format_desc
  textures : List device_buffer
  transform : frame_transform
  blend_mode : blend_mode
  deriving DecidableEq

/-- The texture units named in `draw`. -/
inductive texture_id where
  | plane0
  | plane1
  | plane2
  | plane3
  | local_key
  | layer_key
  | background
  deriving DecidableEq, Repr

/-- The values given to `shader::set`. -/
inductive uniform_value where
  | texture (id : texture_id)
  | int (n : Int)
  | bool (b : Bool)
  | real (x : ℚ)
  | pixel_format (n : Nat)
  | blend (m : blend_mode)
  deriving DecidableEq

/-- The blend factors named in `draw`. -/
inductive gl_factor where
  | GL_ONE
  | GL_ZERO
  | GL_ONE_MINUS_SRC_ALPHA
  deriving DecidableEq, Repr

/-- The capabilities that `draw` enables and disables. -/
inductive gl_cap where
  | GL_POLYGON_STIPPLE
  | GL_SCISSOR_TEST
  deriving DecidableEq, Repr

/-- One vertex of the quad: the coordinates on texture units 0 and 1 and the
position. -/
structure quad_vertex where
  tex0 : ℚ × ℚ
  tex1 : ℚ × ℚ
  position : ℚ × ℚ
  deriving DecidableEq

/-- The calls that `draw` makes, one constructor a callee. -/
inductive gl_command where
  /-- the performance warning written to the log -/
  | log_warning
  /-- `ogl.yield()` -/
  | yield
  /-- `item.textures[n]->bind(n)` -/
  | bind_texture (n : Nat)
  /-- `local_key->bind(texture_id::local_key)` -/
  | bind_local_key
  /-- `layer_key->bind(texture_id::layer_key)` -/
  | bind_layer_key
  /-- `get_image_shader(ogl, blend_modes_)` -/
  | get_image_shader
  /-- `ogl.use(*shader_)` -/
  | use
  /-- `shader_->set(name, value)` -/
  | set (name : String) (value : uniform_value)
  /-- `background.bind(unit)` -/
  | bind_background (unit : Nat)
  /-- `ogl.blend_func_separate(c1, c2, a1, a2)` -/
  | blend_func_separate (c1 c2 a1 a2 : gl_factor)
  /-- `ogl.enable(cap)` -/
  | enable (cap : gl_cap)
  /-- `ogl.disable(cap)` -/
  | disable (cap : gl_cap)
  /-- `ogl.stipple_pattern(pattern)` -/
  | stipple_pattern (pattern : List Nat)
  /-- `ogl.viewport(x, y, w, h)` -/
  | viewport (x y w h : Nat)
  /-- `ogl.scissor(x, y, w, h)` -/
  | scissor (x y w h : Int)
  /-- `ogl.attach(background)` -/
  | attach_background
  /-- `glBegin(GL_QUADS)` ... `glEnd()` with the four vertices -/
  | quad (vertices : List quad_vertex)
  /-- `glTextureBarrierNV()` -/
  | texture_barrier
  deriving DecidableEq

/-- The constant `epsilon` of `draw` (line 70). -/
def epsilon : ℚ := 1 / 1000

/-- The constant `std::numeric_limits<double>::epsilon()`. -/
def DBL_EPSILON : ℚ := 1 / 4503599627370496

/-- The conversion `static_cast<size_t>(x)` of a `double`: the fractional part is
discarded (truncation toward zero). C++ leaves the conversion undefined when the
truncated value is negative or does not fit `size_t`; the truncated value is kept
as it is here. -/
def to_size_t (x : ℚ) : Int := if 0 ≤ x then ⌊x⌋ else ⌈x⌉

/-- The members of `image_kernel::implementation`. `S` is the type of a shader. -/
structure image_kernel (S : Type) where
  shader_ : Option S
  blend_modes_ : Bool

/-- What a call of `draw` does. -/
structure draw_result (S : Type) where
  /-- the calls made, in order -/
  commands : List gl_command
  /-- the kernel after the call -/
  kernel : image_kernel S
  /-- the render item after the call -/
  item : render_item
  /-- whether the call ended with an exception (`planes.at(0)` out of range) -/
  raised : Bool

/-- Lines 80-95 of `draw`: the yield for textures not ready, the binding of the
textures and of the keys. -/
def draw_bind (item : render_item) (local_key layer_key : Option device_buffer) :
    List gl_command :=
  (if item.textures.all (fun t => t.ready) then []
   else [gl_command.log_warning, gl_command.yield])
  ++ (List.range item.textures.length).map gl_command.bind_texture
  ++ (if local_key.isSome then [gl_command.bind_local_key] else [])
  ++ (if layer_key.isSome then [gl_command.bind_layer_key] else [])

/-- Lines 102-109 of `draw`: the shader is put to use and told the texture units. -/
def draw_units : List gl_command :=
  [gl_command.use,
   gl_command.set "plane[0]" (uniform_value.texture texture_id.plane0),
   gl_command.set "plane[1]" (uniform_value.texture texture_id.plane1),
   gl_command.set "plane[2]" (uniform_value.texture texture_id.plane2),
   gl_command.set "plane[3]" (uniform_value.texture texture_id.plane3),
   gl_command.set "local_key" (uniform_value.texture texture_id.local_key),
   gl_command.set "layer_key" (uniform_value.texture texture_id.layer_key)]

/-- Lines 110-114 of `draw`, `plane0` being `item.pix_desc.planes.at(0)`. -/
def draw_uniforms (item : render_item) (plane0 : plane)
    (local_key layer_key : Option device_buffer) : List gl_command :=
  [gl_command.set "is_hd" (uniform_value.int (if plane0.height > 700 then 1 else 0)),
   gl_command.set "has_local_key" (uniform_value.bool local_key.isSome),
   gl_command.set "has_layer_key" (uniform_value.bool layer_key.isSome),
   gl_command.set "pixel_format" (uniform_value.pixel_format item.pix_desc.pix_fmt),
   gl_command.set "opacity"
     (uniform_value.real (if item.transform.is_key then 1 else item.transform.opacity))]

/-- Lines 118-119 of `draw`: a key item is given the normal blend mode. -/
def draw_key_blend (item : render_item) : render_item :=
  if item.transform.is_key then { item with blend_mode := blend_mode.normal } else item

/-- Lines 121-140 of `draw`: blending in the shader or by the blend function. -/
def draw_blend (blend_modes : Bool) (item : render_item) : List gl_command :=
  if blend_modes then
    [gl_command.bind_background 6,
     gl_command.set "background" (uniform_value.texture texture_id.background),
     gl_command.set "blend_mode" (uniform_value.blend item.blend_mode)]
  else
    match item.blend_mode with
    | blend_mode.replace =>
      [gl_command.blend_func_separate gl_factor.GL_ONE gl_factor.GL_ZERO
         gl_factor.GL_ONE gl_factor.GL_ONE]
    | _ =>
      [gl_command.blend_func_separate gl_factor.GL_ONE gl_factor.GL_ONE_MINUS_SRC_ALPHA
         gl_factor.GL_ONE gl_factor.GL_ONE_MINUS_SRC_ALPHA]

/-- Lines 144-158 of `draw`: the levels. -/
def draw_levels (t : frame_transform) : List gl_command :=
  if t.levels.min_input > epsilon ∨ t.levels.max_input < 1 - epsilon ∨
     t.levels.min_output > epsilon ∨ t.levels.max_output < 1 - epsilon ∨
     |t.levels.gamma - 1| > epsilon then
    [gl_command.set "levels" (uniform_value.bool true),
     gl_command.set "min_input" (uniform_value.real t.levels.min_input),
     gl_command.set "max_input" (uniform_value.real t.levels.max_input),
     gl_command.set "min_output" (uniform_value.real t.levels.min_output),
     gl_command.set "max_output" (uniform_value.real t.levels.max_output),
     gl_command.set "gamma" (uniform_value.real t.levels.gamma)]
  else [gl_command.set "levels" (uniform_value.bool false)]

/-- Lines 160-171 of `draw`: contrast, saturation, brightness. -/
def draw_csb (t : frame_transform) : List gl_command :=
  if |t.brightness - 1| > epsilon ∨ |t.saturation - 1| > epsilon ∨
     |t.contrast - 1| > epsilon then
    [gl_command.set "csb" (uniform_value.bool true),
     gl_command.set "brt" (uniform_value.real t.brightness),
     gl_command.set "sat" (uniform_value.real t.saturation),
     gl_command.set "con" (uniform_value.real t.contrast)]
  else [gl_command.set "csb" (uniform_value.bool false)]

/-- Lines 175-185 of `draw`: the polygon stipple of the field mode. -/
def draw_interlacing (t : frame_transform) : List gl_command :=
  if t.field_mode = field_mode.progressive then
    [gl_command.disable gl_cap.GL_POLYGON_STIPPLE]
  else
    gl_command.enable gl_cap.GL_POLYGON_STIPPLE ::
      (if t.field_mode = field_mode.upper then [gl_command.stipple_pattern upper_pattern]
       else if t.field_mode = field_mode.lower then [gl_command.stipple_pattern lower_pattern]
       else [])

/-- The variable `scissor` of `draw` (lines 194-195). -/
def draw_scissor (t : frame_transform) : Bool :=
  decide (t.clip_translation.1 > DBL_EPSILON ∨ t.clip_translation.2 > DBL_EPSILON ∨
    t.clip_scale.1 < 1 - DBL_EPSILON ∨ t.clip_scale.2 < 1 - DBL_EPSILON)

/-- Lines 189-204 of `draw`: the viewport and the scissor rectangle. -/
def draw_area (t : frame_transform) (background : device_buffer) : List gl_command :=
  let m_p := t.clip_translation
  let m_s := t.clip_scale
  gl_command.viewport 0 0 background.width background.height ::
    (if draw_scissor t then
      let w : ℚ := (background.width : ℚ)
      let h : ℚ := (background.height : ℚ)
      [gl_command.enable gl_cap.GL_SCISSOR_TEST,
       gl_command.scissor (to_size_t (m_p.1 * w)) (to_size_t (m_p.2 * h))
         (to_size_t (m_s.1 * w)) (to_size_t (m_s.2 * h))]
     else [])

/-- Lines 206-220 of `draw`: the render target and the quad. -/
def draw_quad (t : frame_transform) : List gl_command :=
  let f_p := t.fill_translation
  let f_s := t.fill_scale
  [gl_command.attach_background,
   gl_command.quad
     [{ tex0 := (0, 0), tex1 := (f_p.1, f_p.2),
        position := (f_p.1 * 2 - 1, f_p.2 * 2 - 1) },
      { tex0 := (1, 0), tex1 := (f_p.1 + f_s.1, f_p.2),
        position := ((f_p.1 + f_s.1) * 2 - 1, f_p.2 * 2 - 1) },
      { tex0 := (1, 1), tex1 := (f_p.1 + f_s.1, f_p.2 + f_s.2),
        position := ((f_p.1 + f_s.1) * 2 - 1, (f_p.2 + f_s.2) * 2 - 1) },
      { tex0 := (0, 1), tex1 := (f_p.1, f_p.2 + f_s.2),
        position := (f_p.1 * 2 - 1, (f_p.2 + f_s.2) * 2 - 1) }]]

/-- Lines 224-234 of `draw`: the cleanup. -/
def draw_cleanup (blend_modes : Bool) : List gl_command :=
  [gl_command.disable gl_cap.GL_SCISSOR_TEST, gl_command.yield]
  ++ (if blend_modes then [gl_command.texture_barrier] else [])

/-- The member `image_kernel::implementation::draw` (lines 64-235).
`get_image_shader b` is the call `get_image_shader(ogl, blend_modes_)` with `b`
the value of `blend_modes_` before it: the shader made and the value of
`blend_modes_` after it (image_shader.cpp is not among the sources). -/
def draw {S : Type} (get_image_shader : Bool → S × Bool) (k : image_kernel S)
    (item : render_item) (background : device_buffer)
    (local_key layer_key : Option device_buffer) : draw_result S :=
  if item.textures = [] then
    { commands := [], kernel := k, item := item, raised := false }
  else if item.transform.opacity < epsilon then
    { commands := [], kernel := k, item := item, raised := false }
  else
    let c_bind := draw_bind item local_key layer_key
    let k1 : image_kernel S :=
      match k.shader_ with
      | some _ => k
      | none =>
        { shader_ := some (get_image_shader k.blend_modes_).1,
          blend_modes_ := (get_image_shader k.blend_modes_).2 }
    let c_shader := if k.shader_.isSome then [] else [gl_command.get_image_shader]
    match item.pix_desc.planes with
    | [] =>
      { commands := c_bind ++ c_shader ++ draw_units, kernel := k1, item := item,
        raised := true }
    | plane0 :: _ =>
      let item1 := draw_key_blend item
      { commands := c_bind ++ c_shader ++ draw_units
          ++ draw_uniforms item plane0 local_key layer_key
          ++ draw_blend k1.blend_modes_ item1
          ++ draw_levels item.transform
          ++ draw_csb item.transform
          ++ draw_interlacing item.transform
          ++ draw_area item.transform background
          ++ draw_quad item.transform
          ++ draw_cleanup k1.blend_modes_,
        kernel := k1,
        item := { item1 with textures := [] },
        raised := false }

/-! ## The stage on its executor (stage.cpp, lines 106-171)

`spawn_token` puts one `tick` on the executor. A `tick` that sends its bundle
hands the target a ticket; the deleter of the ticket, run when the last reference
to it is dropped, puts the next `tick` on the executor. -/

/-- A stage together with what is pending around it. -/
structure stage_run (L Tw : Type) where
  /-- the members of the stage -/
  stage : stage_impl L Tw
  /-- the number of `tick` tasks waiting on `executor_` -/
  queued_ticks : Nat
  /-- the number of bundles sent to the target so far -/
  emitted : Nat
  /-- the number of tickets released so far -/
  released : Nat

/-- The two things that can happen to a running stage. -/
inductive stage_event where
  /-- the executor runs a queued `tick` -/
  | run_tick
  /-- the last reference to the ticket of a sent bundle is dropped -/
  | release_ticket
  deriving DecidableEq, Repr

section stage_executor

variable {L P Tw : Type}
variable (tween : ℚ → frame_transform → frame_transform → ℚ → Tw → frame_transform)
variable (get_tweener : String → Tw)
variable (receive : L → Nat → Option (basic_frame P × L))

/-- A stage on which nothing is pending yet. -/
def stage_idle (s : stage_impl L Tw) : stage_run L Tw :=
  { stage := s, queued_ticks := 0, emitted := 0, released := 0 }

/-- The member `spawn_token` (lines 106-110): one `tick` is put on the executor. -/
def spawn_token (r : stage_run L Tw) : stage_run L Tw :=
  { r with queued_ticks := r.queued_ticks + 1 }

/-- The executor runs a queued `tick` (lines 112-171); none when no `tick` is
queued. A tick that sends its bundle has made a ticket, which the target now
holds; a tick that raised has made none. -/
def run_tick (r : stage_run L Tw) : Option (stage_run L Tw) :=
  if r.queued_ticks = 0 then none
  else
    let t : tick_result L P Tw := tick tween get_tweener receive r.stage
    some { stage := t.stage,
           queued_ticks := r.queued_ticks - 1,
           emitted := if t.bundle.isSome then r.emitted + 1 else r.emitted,
           released := r.released }

/-- The deleter of a ticket (lines 154-159) runs; none when no ticket is held. It
puts a `tick` on the executor. -/
def release_ticket (r : stage_run L Tw) : Option (stage_run L Tw) :=
  if r.released < r.emitted then
    some { r with queued_ticks := r.queued_ticks + 1, released := r.released + 1 }
  else none

/-- One event on a running stage; none when the event cannot happen. -/
def stage_step (e : stage_event) (r : stage_run L Tw) : Option (stage_run L Tw) :=
  match e with
  | stage_event.run_tick => run_tick tween get_tweener receive r
  | stage_event.release_ticket => release_ticket r

/-- A sequence of events on a running stage. -/
def stage_steps : List stage_event → stage_run L Tw → Option (stage_run L Tw)
  | [], r => some r
  | e :: es, r =>
    match stage_step tween get_tweener receive e r with
    | none => none
    | some r1 => stage_steps es r1

end stage_executor

/-- The command that `swap_layers` leaves to the executors, and its effect. The
stages of the server are named by numbers; `self` is the stage the member is
called on, `other` its argument. -/
structure swap_layers_result (L Tw : Type) where
  /-- the number of commands put on the executor of `self` -/
  commands : Nat
  /-- the stages after these commands have run -/
  stages : Nat → stage_impl L Tw

/-- The member `swap_layers` (lines 265-278): nothing when `other` is the stage
itself, else a command that swaps the two members `layers_`. -/
def swap_layers {L Tw : Type} (stages : Nat → stage_impl L Tw) (self other : Nat) :
    swap_layers_result L Tw :=
  if other = self then { commands := 0, stages := stages }
  else
    { commands := 1,
      stages := fun i =>
        if i = self then { stages self with layers_ := (stages other).layers_ }
        else if i = other then { stages other with layers_ := (stages self).layers_ }
        else stages i }

/-! ## `channel::implementation::draw` (channel.cpp, lines 53-67) -/

/-- Modelled from the spec: the frames handed on by producers and layers, with
the sentinels `draw_frame::empty()`, `draw_frame::eof()` and `draw_frame::late()`
(draw_frame.h is not among the sources). `P` is the type of the frames that carry
a picture. -/
inductive draw_frame (P : Type) where
  | produced (p : P)
  | empty
  | eof
  | late
  deriving DecidableEq

/-- What a call of `channel::implementation::draw` does. -/
structure channel_draw_result (L P : Type) where
  /-- the frames of the composite `draw_frame(frames)` returned -/
  frames : List (draw_frame P)
  /-- the member `layers_` after the call -/
  layers : List (Int × L)

/-- The member `draw` of the channel. Every slot of the vector `frames`, `empty`
at first, is assigned the frame received from the layer at that position; then
the `eof` frames and the `empty` frames are removed. `receive` is the member
`layer::receive` of layer.h: the frame and the layer after the call. -/
def channel_draw {L P : Type} [DecidableEq P] (receive : L → draw_frame P × L)
    (layers_ : List (Int × L)) : channel_draw_result L P :=
  let frames := layers_.map (fun entry => (receive entry.2).1)
  let frames := frames.filter (fun f => f ≠ draw_frame.eof)
  let frames := frames.filter (fun f => f ≠ draw_frame.empty)
  { frames := frames, layers := layers_.map (fun entry => (entry.1, (receive entry.2).2)) }

/-! ## `ffmpeg_producer` (ffmpeg_producer2.cpp) -/

/-- Largest value of `int64_t`. -/
def INT64_MAX : Int := 9223372036854775807

/-- Smallest value of `int64_t`. -/
def INT64_MIN : Int := -9223372036854775808

/-- Largest value of `uint32_t`. -/
def UINT32_MAX : Nat := 4294967295

/-- The constant `AV_TIME_BASE` of libavutil: time stamps count microseconds. -/
def AV_TIME_BASE : Int := 1000000

/-- The struct `AVRational` of libavutil. -/
structure AVRational where
  num : Int
  den : Int
  deriving DecidableEq

/-- Modelled from the spec: `av_rescale_rnd(a, b, c, AV_ROUND_NEAR_INF)` of
libavutil (not among the sources), the exact rational rescaling a·b/c to the
nearest integer, halves away from zero; INT64_MIN when `c` is not positive, `b`
is negative or the result is not representable. -/
def av_rescale_rnd_near_inf (a b c : Int) : Int :=
  if c ≤ 0 ∨ b < 0 then INT64_MIN
  else if 0 ≤ a then
    let r := (a * b + c / 2) / c
    if r ≤ INT64_MAX then r else INT64_MIN
  else
    let r := ((-(max a (-INT64_MAX))) * b + c / 2) / c
    if r ≤ INT64_MAX then -r else INT64_MIN

/-- Modelled from the spec: `av_rescale_q(a, bq, cq)` of libavutil (not among the
sources): `a` rescaled from the time base `bq` to the time base `cq`. -/
def av_rescale_q (a : Int) (bq cq : AVRational) : Int :=
  av_rescale_rnd_near_inf a (bq.num * cq.den) (cq.num * bq.den)

/-- The struct `Info` (lines 83-91). -/
structure Info (P : Type) where
  frame : draw_frame P
  number : Int
  count : Int
  loop : Bool
  width : Int
  height : Int
  deriving DecidableEq

/-- A default-initialised `Info`: the frame is `draw_frame::late()`. -/
def Info.default (P : Type) : Info P :=
  { frame := draw_frame.late, number := 0, count := 0, loop := false, width := 0,
    height := 0 }

/-- The members of `ffmpeg_producer` that `receive_impl`, `nb_frames`, `to_frames`
and `from_frames` use. `buffer_` is the queue filled by the thread of the
producer, its front first. -/
structure ffmpeg_producer (P : Type) where
  format_desc_ : video_format_desc
  info_ : Info P
  buffer_ : List (Info P)

/-- The member `to_frames` (lines 204-207). -/
def to_frames (format_desc : video_format_desc) (pts : Int) : Int :=
  av_rescale_q pts { num := 1, den := AV_TIME_BASE }
    { num := (format_desc.duration : Int), den := (format_desc.time_scale : Int) }

/-- The member `from_frames` (lines 209-212). -/
def from_frames (format_desc : video_format_desc) (frames : Int) : Int :=
  av_rescale_q frames
    { num := (format_desc.duration : Int), den := (format_desc.time_scale : Int) }
    { num := 1, den := AV_TIME_BASE }

/-- The member `nb_frames` (lines 329-334); `static_cast<uint32_t>` keeps the low
32 bits. -/
def nb_frames {P : Type} (p : ffmpeg_producer P) : Nat :=
  if p.info_.loop then UINT32_MAX else (p.info_.number % 4294967296).toNat

/-- The calls made on the diagnostics graph. -/
inductive graph_call where
  /-- `graph_->set_value(name, ...)` -/
  | set_value (name : String)
  /-- `graph_->set_tag(diagnostics::tag_severity::WARNING, name)` -/
  | set_tag_warning (name : String)
  /-- `graph_->set_text(print())` -/
  | set_text
  deriving DecidableEq

/-- What a call of `receive_impl` does. -/
structure receive_impl_result (P : Type) where
  /-- the frame returned -/
  frame : draw_frame P
  /-- the producer after the call -/
  producer : ffmpeg_producer P
  /-- the calls made on the diagnostics graph, in order -/
  graph : List graph_call
  /-- the paths of the messages sent to the monitor subject, in order -/
  monitor : List String

/-- The member `receive_impl` (lines 298-322). -/
def receive_impl {P : Type} (p : ffmpeg_producer P) : receive_impl_result P :=
  let info : Info P := Info.default P
  match p.buffer_ with
  | popped :: rest =>
    { frame := popped.frame,
      producer := { p with info_ := popped, buffer_ := rest },
      graph := [graph_call.set_value "buffer-count", graph_call.set_text],
      monitor := ["/file/time", "/file/frame", "/file/fps", "/file/path", "/loop"] }
  | [] =>
    { frame := info.frame,
      producer := p,
      graph := [graph_call.set_tag_warning "underflow", graph_call.set_text],
      monitor := [] }

/-! ## The commands of the stage on its layers (stage.cpp, lines 209-347)

Every command reaches its layer with `layers_[index]`, the `operator[]` of
`std::map`, which default-constructs a missing element. layer.cpp is not among
the sources: the members of a layer are parameters. -/

/-- The call `m.erase(k)`. -/
def map_erase {V : Type} (m : List (Int × V)) (k : Int) : List (Int × V) :=
  m.filter (fun entry => entry.1 ≠ k)

/-- The value of the element `m[k]`; `dflt` is the default-constructed value that
a missing element is given. -/
def map_at {V : Type} (m : List (Int × V)) (k : Int) (dflt : V) : V :=
  (map_find m k).getD dflt

/-- The map after `m[k]` has been evaluated: a missing element has been inserted,
default-constructed. -/
def map_touch {V : Type} (m : List (Int × V)) (k : Int) (dflt : V) : List (Int × V) :=
  match map_find m k with
  | some _ => m
  | none => map_assign m k dflt

/-- The members of `layer` that the stage calls. `PR` is the type of producers. -/
structure layer_members (L PR : Type) where
  /-- the default constructor `layer()` -/
  new_layer : L
  /-- `layer::load(producer, preview, auto_play_delta)` -/
  load : L → PR → Bool → Int → L
  /-- `layer::play()` -/
  play : L → L
  /-- `layer::pause()` -/
  pause : L → L
  /-- `layer::stop()` -/
  stop : L → L
  /-- `layer::call(foreground, param)`: the layer after the call -/
  call : L → Bool → String → L

namespace stage_impl

variable {L PR Tw : Type}

/-- The command of `load` (line 213): `layers_[index].load(...)`. -/
def load (m : layer_members L PR) (s : stage_impl L Tw) (index : Int) (producer : PR)
    (preview : Bool) (auto_play_delta : Int) : stage_impl L Tw :=
  let layer1 := m.load (map_at s.layers_ index m.new_layer) producer preview auto_play_delta
  { s with layers_ := map_assign (map_touch s.layers_ index m.new_layer) index layer1 }

/-- The command of `pause` (line 221): `layers_[index].pause()`. -/
def pause (m : layer_members L PR) (s : stage_impl L Tw) (index : Int) : stage_impl L Tw :=
  let layer1 := m.pause (map_at s.layers_ index m.new_layer)
  { s with layers_ := map_assign (map_touch s.layers_ index m.new_layer) index layer1 }

/-- The command of `play` (line 229): `layers_[index].play()`. -/
def play (m : layer_members L PR) (s : stage_impl L Tw) (index : Int) : stage_impl L Tw :=
  let layer1 := m.play (map_at s.layers_ index m.new_layer)
  { s with layers_ := map_assign (map_touch s.layers_ index m.new_layer) index layer1 }

/-- The command of `stop` (line 237): `layers_[index].stop()`. -/
def stop (m : layer_members L PR) (s : stage_impl L Tw) (index : Int) : stage_impl L Tw :=
  let layer1 := m.stop (map_at s.layers_ index m.new_layer)
  { s with layers_ := map_assign (map_touch s.layers_ index m.new_layer) index layer1 }

/-- The command of `clear(index)` (line 245): `layers_.erase(index)`. -/
def clear (s : stage_impl L Tw) (index : Int) : stage_impl L Tw :=
  { s with layers_ := map_erase s.layers_ index }

/-- The command of `clear()` (line 253): `layers_.clear()`. -/
def clear_all (s : stage_impl L Tw) : stage_impl L Tw :=
  { s with layers_ := [] }

/-- The command of `call` (line 261): `layers_[index].call(foreground, param)`. -/
def call (m : layer_members L PR) (s : stage_impl L Tw) (index : Int) (foreground : Bool)
    (param : String) : stage_impl L Tw :=
  let layer1 := m.call (map_at s.layers_ index m.new_layer) foreground param
  { s with layers_ := map_assign (map_touch s.layers_ index m.new_layer) index layer1 }

/-- The command of `swap_layer(index, other_index)` (line 284):
`std::swap(layers_[index], layers_[other_index])`. -/
def swap_layer (m : layer_members L PR) (s : stage_impl L Tw) (index other_index : Int) :
    stage_impl L Tw :=
  let layers1 := map_touch s.layers_ index m.new_layer
  let layers2 := map_touch layers1 other_index m.new_layer
  let a := map_at layers2 index m.new_layer
  let b := map_at layers2 other_index m.new_layer
  { s with layers_ := map_assign (map_assign layers2 index b) other_index a }

/-- The stage after the command of `foreground` (line 309), which reads
`layers_[index].foreground()`. -/
def foreground (m : layer_members L PR) (s : stage_impl L Tw) (index : Int) :
    stage_impl L Tw :=
  { s with layers_ := map_touch s.layers_ index m.new_layer }

/-- The stage after the command of `background` (line 317), which reads
`layers_[index].background()`. -/
def background (m : layer_members L PR) (s : stage_impl L Tw) (index : Int) :
    stage_impl L Tw :=
  { s with layers_ := map_touch s.layers_ index m.new_layer }

/-- The stage after the command of `info(index)` (line 345), which reads
`layers_[index].info()`. -/
def info (m : layer_members L PR) (s : stage_impl L Tw) (index : Int) : stage_impl L Tw :=
  { s with layers_ := map_touch s.layers_ index m.new_layer }

end stage_impl

/-- The command of `begin_invoke_layer` of the channel (channel.cpp, lines
155-160): the layer is looked up with `find`, and `func` is called on it when it
is there. -/
def begin_invoke_layer {L : Type} (layers_ : List (Int × L)) (index : Int) (func : L → L) :
    List (Int × L) :=
  match map_find layers_ index with
  | some layer => map_assign layers_ index (func layer)
  | none => layers_

/-! ## `create_producer` (ffmpeg_producer2.cpp, lines 397-443) -/

/-- What `create_producer` passes to the constructor of the producer as `start`
and `duration`; none is an empty `boost::optional`. -/
structure producer_range where
  start : Option Int
  duration : Option Int
  deriving DecidableEq

/-- Lines 399-407 and 431-443 of `create_producer`. The parameters SEEK, IN,
LENGTH and OUT are `uint32_t` values, none when the parameter is not given;
`out += in` and `out - in` are taken modulo 2^32. -/
def create_producer (format_desc : video_format_desc) (SEEK IN LENGTH OUT : Option Nat) :
    producer_range :=
  let in0 := SEEK.getD 0
  let in1 := IN.getD in0
  let out0 := LENGTH.getD UINT32_MAX
  let out1 := if out0 < UINT32_MAX - in1 then (out0 + in1) % 4294967296 else UINT32_MAX
  let out2 := OUT.getD out1
  let in_tb : AVRational :=
    { num := (format_desc.duration : Int), den := (format_desc.time_scale : Int) }
  let out_tb : AVRational := { num := 1, den := AV_TIME_BASE }
  { start := if in1 ≠ 0 then some (av_rescale_q (in1 : Int) in_tb out_tb) else none,
    duration :=
      if out2 ≠ UINT32_MAX then
        some (av_rescale_q (((out2 + 4294967296 - in1) % 4294967296 : Nat) : Int) in_tb out_tb)
      else none }

/-! ## `video_decoder` (video_decoder.cpp) -/

/-- The members of `AVPacket` that the decoder reads. -/
structure AVPacket where
  stream_index : Int
  size : Int
  deriving DecidableEq

/-- The members of `video_decoder::implementation` that `poll` uses. `D` is the
state of the codec context, none when `codec_context_` is null; a null packet in
the buffer is none. `F` is the type of the filter. -/
structure video_decoder (D F : Type) where
  codec_context_ : Option D
  /-- `codec_context_->codec->capabilities & CODEC_CAP_DELAY` -/
  cap_delay : Bool
  packet_buffer_ : List (Option AVPacket)
  filter_ : Option F

section video_decoder_poll

variable {D F AVF : Type}
variable (avcodec_decode_video2 : D → AVPacket → Int × Int × AVF × D)
variable (avcodec_flush_buffers : D → D)
variable (filter_execute : F → Option AVF → List AVF × F)

/-- The member `decode` (lines 176-206): none when it raises, else the frame
returned (none for `nullptr`), the packet after the call and the codec context
after it. `avcodec_decode_video2 d pkt` is the return value, `frame_finished`,
the decoded frame and the codec context after the library call. -/
def decode (d : D) (pkt : AVPacket) : Option (Option AVF × AVPacket × D) :=
  let r := avcodec_decode_video2 d pkt
  if r.1 < 0 then none
  else
    let pkt1 := { pkt with size := 0 }
    if r.2.1 ≠ 0 then some (some r.2.2.1, pkt1, r.2.2.2)
    else some (none, pkt1, r.2.2.2)

/-- Lines 159-170 of `poll`: the frames out of the filter, or the frame itself,
and the null frame that marks the end when `eof` is set. -/
def poll_result (v : video_decoder D F) (frame : Option AVF) (eof : Bool) :
    List (Option AVF) × Option F :=
  let av : List AVF × Option F :=
    match v.filter_ with
    | some f => ((filter_execute f frame).1, some (filter_execute f frame).2)
    | none =>
      match frame with
      | some fr => ([fr], none)
      | none => ([], none)
  (av.1.map some ++ (if eof then [none] else []), av.2)

/-- The member `poll` (lines 116-174): none when `decode` raises, else the vector
returned (a null frame is none) and the decoder after the call. `blank` is the
frame without data that a decoder without codec context hands out. -/
def poll (blank : AVF) (v : video_decoder D F) :
    Option (List (Option AVF) × video_decoder D F) :=
  match v.codec_context_ with
  | none => some ([some blank], v)
  | some d =>
    match v.packet_buffer_ with
    | [] => some ([], v)
    | some packet :: rest =>
      match decode avcodec_decode_video2 d packet with
      | none => none
      | some (frame, packet1, d1) =>
        let buffer1 := if packet1.size = 0 then rest else some packet1 :: rest
        let r := poll_result filter_execute v frame false
        some (r.1, { v with codec_context_ := some d1, packet_buffer_ := buffer1,
                            filter_ := r.2 })
    | none :: rest =>
      let decoded : Option (Option AVF × D) :=
        if v.cap_delay then
          match decode avcodec_decode_video2 d { stream_index := 0, size := 0 } with
          | none => none
          | some (frame, _, d1) => some (frame, d1)
        else some (none, d)
      match decoded with
      | none => none
      | some (some fr, d1) =>
        let r := poll_result filter_execute v (some fr) false
        some (r.1, { v with codec_context_ := some d1, filter_ := r.2 })
      | some (none, d1) =>
        let r := poll_result filter_execute v none true
        some (r.1, { v with codec_context_ := some (avcodec_flush_buffers d1),
                            packet_buffer_ := rest, filter_ := r.2 })

end video_decoder_poll

/-- Line 94 of the constructor of the decoder, for a time base 1/den:
`static_cast<int>(std::pow(10.0, static_cast<int>(std::log10(den)) - 1))`. The
logarithm is the exact one (for den >= 1 its integer part is `Nat.log 10 den`),
the power is the exact rational, and the conversion to `int` discards the
fractional part. -/
def time_base_num_fixup (den : Nat) : Int :=
  to_size_t ((10 : ℚ) ^ ((Nat.log 10 den : Int) - 1))

/-- Line 100 of the constructor: `fps_` as the quotient den / num, none when the
numerator is 0 and the quotient is not a finite number. -/
def decoder_fps (den : Nat) (num : Int) : Option ℚ :=
  if num = 0 then none else some ((den : ℚ) / (num : ℚ))

/-! ## Concrete inputs used by the examples below -/

/-- A tweened `double` half way to an overflow: time 1, duration 2. -/
def overflow_example : tweened_transform ℚ (ℚ → ℚ) :=
  { source_ := 0, dest_ := 1, duration_ := 2, time_ := 1,
    tweener_ := get_tweener_double "linear" }

/-- A tweened `double` whose two endpoints are equal, two frames long. -/
def constant_example : tweened_transform ℚ (ℚ → ℚ) :=
  tweened_transform.mk4 get_tweener_double 5 5 2 "linear"

/-- Modelled from the spec: the interpolation of `frame_transform.h` (not among
the sources) on a frame transform: `interp(time/duration, source, dest, tweener)`
on every member that is a number; the members `field_mode` and `is_key`, on which
the spec is silent, are those of `dest`. -/
def tween_frame_transform (time : ℚ) (source dest : frame_transform) (duration : ℚ)
    (tweener : ℚ → ℚ) : frame_transform :=
  let f := fun (a b : ℚ) => tween_double time a b duration tweener
  { opacity := f source.opacity dest.opacity,
    brightness := f source.brightness dest.brightness,
    contrast := f source.contrast dest.contrast,
    saturation := f source.saturation dest.saturation,
    fill_translation := (f source.fill_translation.1 dest.fill_translation.1,
                         f source.fill_translation.2 dest.fill_translation.2),
    fill_scale := (f source.fill_scale.1 dest.fill_scale.1,
                   f source.fill_scale.2 dest.fill_scale.2),
    clip_translation := (f source.clip_translation.1 dest.clip_translation.1,
                         f source.clip_translation.2 dest.clip_translation.2),
    clip_scale := (f source.clip_scale.1 dest.clip_scale.1,
                   f source.clip_scale.2 dest.clip_scale.2),
    levels := { min_input := f source.levels.min_input dest.levels.min_input,
                max_input := f source.levels.max_input dest.levels.max_input,
                min_output := f source.levels.min_output dest.levels.min_output,
                max_output := f source.levels.max_output dest.levels.max_output,
                gamma := f source.levels.gamma dest.levels.gamma },
    field_mode := dest.field_mode,
    is_key := dest.is_key }

/-- A layer that counts its `receive` calls and hands out its count as frame. -/
def counting_receive (l : Nat) (_flags : Nat) : Option (basic_frame Nat × Nat) :=
  some (basic_frame.produced l, l + 1)

/-- The frame transform that differs from the identity by an opacity of 0. -/
def transparent : frame_transform := { frame_transform.identity with opacity := 0 }

/-- A progressive format, 1920x1080 at 25 frames a second. -/
def format_1080p25 : video_format_desc :=
  { width := 1920, height := 1080, field_mode := field_mode.progressive,
    time_scale := 25, duration := 1 }

/-- An interlaced format, 1920x1080 at 25 frames a second, upper field first. -/
def format_1080i50 : video_format_desc :=
  { width := 1920, height := 1080, field_mode := field_mode.upper,
    time_scale := 25, duration := 1 }

/-- A progressive stage with one layer, at index 10, and no transform set. -/
def stage_1080p25 : stage_impl Nat (ℚ → ℚ) :=
  { format_desc_ := format_1080p25, layers_ := [(10, 0)], transforms_ := fun _ => none }

/-- An interlaced stage with one layer, at index 10, and no transform set. -/
def stage_1080i50 : stage_impl Nat (ℚ → ℚ) :=
  { format_desc_ := format_1080i50, layers_ := [(10, 0)], transforms_ := fun _ => none }

/-- The interlaced stage with one layer, after a tween of 5 frames to the
transparent transform has been set on the layer. -/
def stage_1080i50_tween : stage_impl Nat (ℚ → ℚ) :=
  set_transform tween_frame_transform get_tweener_double stage_1080i50 10 transparent 5
    "linear"

/-- A texture and render target of 1920x1080, its upload complete. -/
def buffer_1080 : device_buffer := { width := 1920, height := 1080, ready := true }

/-- A pixel format description with one plane of 1920x1080. -/
def pix_desc_1080 : pixel_format_desc :=
  { pix_fmt := 0, planes := [{ width := 1920, height := 1080 }] }

/-- A render item with one texture of 1920x1080. -/
def item_1080 (t : frame_transform) (m : blend_mode) : render_item :=
  { pix_desc := pix_desc_1080, textures := [buffer_1080], transform := t, blend_mode := m }

/-- A kernel that has not made its shader yet. -/
def kernel_new : image_kernel Unit := { shader_ := none, blend_modes_ := false }

/-- A `get_image_shader` for a device without blend modes in the shader. -/
def shader_without_blend_modes (_b : Bool) : Unit × Bool := ((), false)

/-- A key transform of opacity 0. -/
def key_transparent : frame_transform :=
  { frame_transform.identity with opacity := 0, is_key := true }

/-- A key transform of opacity 1/2. -/
def key_half : frame_transform :=
  { frame_transform.identity with opacity := 1 / 2, is_key := true }

/-- The clip rectangle of the centre quarter: translation (0.25, 0.25), scale
(0.5, 0.5). -/
def clip_quarter : frame_transform :=
  { frame_transform.identity with clip_translation := (1 / 4, 1 / 4),
                                  clip_scale := (1 / 2, 1 / 2) }

/-- A clip rectangle that starts 0.0005 from the left edge. -/
def clip_small : frame_transform :=
  { frame_transform.identity with clip_translation := (1 / 2000, 0) }

/-- A clip rectangle twice as wide as the frame. -/
def clip_wide : frame_transform :=
  { frame_transform.identity with clip_scale := (2, 1) }

/-- An upper-field transform. -/
def field_upper : frame_transform :=
  { frame_transform.identity with field_mode := field_mode.upper }

/-- A `receive` that raises at every call. -/
def raising_receive (_l : Nat) (_flags : Nat) : Option (basic_frame Nat × Nat) := none

/-- A server with two stages: stage 0 is the progressive one, every other the
interlaced one. -/
def two_stages (i : Nat) : stage_impl Nat (ℚ → ℚ) :=
  if i = 0 then stage_1080p25 else { stage_1080i50 with layers_ := [(20, 7)] }

/-- A layer of a channel that hands out, in turn, a picture, `eof` and then
`empty` for ever; its state counts the calls. -/
def ending_receive (l : Nat) : draw_frame Nat × Nat :=
  (if l = 0 then draw_frame.produced 0 else if l = 1 then draw_frame.eof
   else draw_frame.empty, l + 1)

/-- A producer that is not looping, at frame 10 of 100. -/
def producer_10_of_100 : ffmpeg_producer Nat :=
  { format_desc_ := format_1080p25,
    info_ := { frame := draw_frame.produced 10, number := 10, count := 100, loop := false,
               width := 1920, height := 1080 },
    buffer_ := [] }

/-- Members for layers that are plain counters: a new layer is 0, `load` sets the
layer to 1, the other members leave it as it is. -/
def counter_members : layer_members Nat Unit :=
  { new_layer := 0,
    load := fun _ _ _ _ => 1,
    play := fun l => l,
    pause := fun l => l,
    stop := fun l => l,
    call := fun l _ _ => l }

/-- A codec that finishes a frame, the size of the packet, for every packet that
has data and none for a packet without; its state counts the calls. -/
def sized_decode (d : Nat) (pkt : AVPacket) : Int × Int × Nat × Nat :=
  (0, if pkt.size = 0 then 0 else 1, pkt.size.toNat, d + 1)

/-- A filter that hands on the frame it is given. -/
def passing_filter (f : Unit) (frame : Option Nat) : List Nat × Unit :=
  (frame.toList, f)

/-- A decoder with a packet of 100 bytes and the flush packet in its buffer. -/
def decoder_two_packets : video_decoder Nat Unit :=
  { codec_context_ := some 0, cap_delay := true,
    packet_buffer_ := [some { stream_index := 0, size := 100 }, none],
    filter_ := none }

/-- A tweened `double` one frame long. -/
def short_example : tweened_transform ℚ (ℚ → ℚ) :=
  tweened_transform.mk4 get_tweener_double 0 1 1 "linear"

/-! ## Theorems: `tweened_transform` -/

theorem wrap_int_of_is_int (x : Int) (h : is_int x) : wrap_int x = x := by
  unfold is_int INT_MIN INT_MAX at h
  unfold wrap_int
  omega

theorem wrap_int_of_bounds (x : Int) (h0 : 0 ≤ x) (h1 : x ≤ INT_MAX) : wrap_int x = x :=
  wrap_int_of_is_int x ⟨by unfold INT_MIN; omega, h1⟩

/-- A call of `fetch_and_tick(n)` whose addition does not overflow. -/
theorem fetch_and_tick_no_overflow {T Tw : Type} (tween : ℚ → T → T → ℚ → Tw → T)
    (x : tweened_transform T Tw) (n : Int)
    (h0 : 0 ≤ x.time_) (_h1 : x.time_ ≤ x.duration_) (hn : 0 ≤ n)
    (hov : x.time_ + n ≤ INT_MAX) :
    (x.fetch_and_tick tween n).2.time_ = min (x.time_ + n) x.duration_ ∧
    (x.fetch_and_tick tween n).2.source_ = x.source_ ∧
    (x.fetch_and_tick tween n).2.dest_ = x.dest_ ∧
    (x.fetch_and_tick tween n).2.duration_ = x.duration_ ∧
    (x.fetch_and_tick tween n).2.tweener_ = x.tweener_ ∧
    (x.fetch_and_tick tween n).1 =
      (if min (x.time_ + n) x.duration_ = x.duration_ then x.dest_
       else tween ((min (x.time_ + n) x.duration_ : Int) : ℚ) x.source_ x.dest_
              (x.duration_ : ℚ) x.tweener_) := by
  have hw : wrap_int (x.time_ + n) = x.time_ + n :=
    wrap_int_of_bounds _ (by omega) hov
  simp [tweened_transform.fetch_and_tick, tweened_transform.fetch, hw]

/-- C1 (as amended): for a tweened transform with 0 <= time <= duration and n >= 0
such that time + n does not exceed INT_MAX, `fetch_and_tick(n)` sets time to
min(time + n, duration), leaves source, dest, duration and tweener unchanged, and
returns dest when the new time equals duration and otherwise the tween evaluated
at the new time. -/
theorem fetch_and_tick_saturates {T Tw : Type} (tween : ℚ → T → T → ℚ → Tw → T)
    (x : tweened_transform T Tw) (n : Int)
    (h0 : 0 ≤ x.time_) (h1 : x.time_ ≤ x.duration_) (hn : 0 ≤ n)
    (hov : x.time_ + n ≤ INT_MAX) :
    (x.fetch_and_tick tween n).2.time_ = min (x.time_ + n) x.duration_ ∧
    (x.fetch_and_tick tween n).2.source_ = x.source_ ∧
    (x.fetch_and_tick tween n).2.dest_ = x.dest_ ∧
    (x.fetch_and_tick tween n).2.duration_ = x.duration_ ∧
    (x.fetch_and_tick tween n).2.tweener_ = x.tweener_ ∧
    (x.fetch_and_tick tween n).1 =
      (if min (x.time_ + n) x.duration_ = x.duration_ then x.dest_
       else tween ((min (x.time_ + n) x.duration_ : Int) : ℚ) x.source_ x.dest_
              (x.duration_ : ℚ) x.tweener_) :=
  fetch_and_tick_no_overflow tween x n h0 h1 hn hov

/-- The theorem `fetch_and_tick_saturates` at time 1, duration 3, n = 1. -/
theorem fetch_and_tick_saturates_witness :
    (({ source_ := 0, dest_ := 1, duration_ := 3, time_ := 1,
        tweener_ := get_tweener_double "linear" } :
        tweened_transform ℚ (ℚ → ℚ)).fetch_and_tick tween_double 1).2.time_
      = min ((1 : Int) + 1) 3 :=
  (fetch_and_tick_saturates tween_double
    { source_ := 0, dest_ := 1, duration_ := 3, time_ := 1,
      tweener_ := get_tweener_double "linear" } 1
    (by decide) (by decide) (by decide) (by decide)).1

/-- C1 as stated fails when `time_ + num` overflows `int`: at time 1, duration 2
and n = INT_MAX the new time is INT_MIN, not min(time + n, duration) = 2, and the
value returned is not dest. -/
theorem fetch_and_tick_overflow_counterexample :
    (0 ≤ overflow_example.time_ ∧ overflow_example.time_ ≤ overflow_example.duration_ ∧
      (0 : Int) ≤ 2147483647 ∧ is_int 2147483647) ∧
    min (overflow_example.time_ + 2147483647) overflow_example.duration_ = 2 ∧
    (overflow_example.fetch_and_tick tween_double 2147483647).2.time_ = -2147483648 ∧
    (overflow_example.fetch_and_tick tween_double 2147483647).1 ≠ overflow_example.dest_ := by
  refine ⟨⟨by decide, by decide, by decide, by decide⟩, by decide, by decide, ?_⟩
  simp [tweened_transform.fetch_and_tick, tweened_transform.fetch, overflow_example,
    wrap_int, tween_double, get_tweener_double]
  norm_num

/-- A sequence of calls on an object with 0 <= time <= duration, none of which
overflows: the time reached, the members kept, and the value of the last call. -/
theorem fetch_and_tick_seq_state {T Tw : Type} (tween : ℚ → T → T → ℚ → Tw → T)
    (nums : List Int) :
    ∀ (x : tweened_transform T Tw) (o : Option T),
      0 ≤ x.time_ → x.time_ ≤ x.duration_ →
      (∀ n ∈ nums, 0 ≤ n ∧ x.duration_ + n ≤ INT_MAX) →
      (nums.foldl (fun acc n => ((acc.2.fetch_and_tick tween n).1 |> some,
                                 (acc.2.fetch_and_tick tween n).2)) (o, x)).2
          = { x with time_ := min (x.time_ + nums.sum) x.duration_ } ∧
      (nums.foldl (fun acc n => ((acc.2.fetch_and_tick tween n).1 |> some,
                                 (acc.2.fetch_and_tick tween n).2)) (o, x)).1
          = (if nums = [] then o
             else some (({ x with time_ := min (x.time_ + nums.sum) x.duration_ } :
                          tweened_transform T Tw).fetch tween)) := by
  induction nums with
  | nil =>
    intro x o _ h1 _
    simp [min_eq_left h1]
  | cons n rest ih =>
    intro x o h0 h1 hall
    have hn := hall n (List.mem_cons_self n rest)
    have hstep := fetch_and_tick_no_overflow tween x n h0 h1 hn.1 (by omega)
    obtain ⟨ht, hs, hd, hdu, htw, _⟩ := hstep
    have hx1 : (x.fetch_and_tick tween n).2
        = { x with time_ := min (x.time_ + n) x.duration_ } := by
      simp [tweened_transform.fetch_and_tick] at ht ⊢
      exact ht
    have hrest := ih (x.fetch_and_tick tween n).2 (some (x.fetch_and_tick tween n).1)
      (by rw [ht]; exact le_min (by omega) (by omega))
      (by rw [ht, hdu]; exact min_le_right _ _)
      (by
        intro m hm
        rw [hdu]
        exact hall m (List.mem_cons_of_mem n hm))
    have hsum : min (min (x.time_ + n) x.duration_ + rest.sum) x.duration_
        = min (x.time_ + (n + rest.sum)) x.duration_ := by
      have hrs : 0 ≤ rest.sum :=
        List.sum_nonneg (fun m hm => (hall m (List.mem_cons_of_mem n hm)).1)
      rcases le_total (x.time_ + n) x.duration_ with h | h
      · rw [min_eq_left h, add_assoc]
      · rw [min_eq_right h, min_eq_right (by omega), min_eq_right (by omega)]
    rw [List.foldl_cons, List.sum_cons]
    rw [hx1] at hrest
    simp only [hx1]
    obtain ⟨hr2, hr1⟩ := hrest
    simp only [hsum] at hr2 hr1
    refine ⟨hr2, ?_⟩
    rw [hr1]
    by_cases hre : rest = []
    · subst hre
      have hw : wrap_int (x.time_ + n) = x.time_ + n :=
        wrap_int_of_bounds _ (by omega) (by omega)
      simp [tweened_transform.fetch_and_tick, hw]
    · simp [hre]

/-- C2 (as amended): on a tweened transform constructed with duration D >= 0 and
called with n_1, ..., n_k (k >= 1, every n_i >= 0 and D + n_i within `int`), the
time after the calls is min(n_1 + ... + n_k, D), and the last call returns dest
when the accumulated time is >= D and the tween at the accumulated time
otherwise. -/
theorem fetch_and_tick_seq_returns {T Tw : Type} (tween : ℚ → T → T → ℚ → Tw → T)
    (get_tweener : String → Tw) (source dest : T) (D : Int) (tween_name : String)
    (nums : List Int) (hD : 0 ≤ D) (hne : nums ≠ [])
    (hnums : ∀ n ∈ nums, 0 ≤ n ∧ D + n ≤ INT_MAX) :
    ((tweened_transform.mk4 get_tweener source dest D tween_name).fetch_and_tick_seq
        tween nums).2.time_ = min nums.sum D ∧
    ((tweened_transform.mk4 get_tweener source dest D tween_name).fetch_and_tick_seq
        tween nums).1 =
      some (if D ≤ nums.sum then dest
            else tween (nums.sum : ℚ) source dest (D : ℚ) (get_tweener tween_name)) := by
  have h := fetch_and_tick_seq_state tween nums
    (tweened_transform.mk4 get_tweener source dest D tween_name) none
    (by simp [tweened_transform.mk4]) (by simpa [tweened_transform.mk4] using hD)
    (by simpa [tweened_transform.mk4] using hnums)
  unfold tweened_transform.fetch_and_tick_seq
  obtain ⟨h2, h1⟩ := h
  rw [h2, h1]
  simp only [hne, if_false]
  refine ⟨by simp [tweened_transform.mk4], ?_⟩
  simp only [tweened_transform.fetch, tweened_transform.mk4, zero_add]
  by_cases hle : D ≤ nums.sum
  · simp [hle]
  · have hlt : nums.sum < D := lt_of_not_le hle
    have hne2 : nums.sum ≠ D := ne_of_lt hlt
    simp [hle, min_eq_left (le_of_lt hlt), hne2]

/-- The theorem `fetch_and_tick_seq_returns` on a tween of 3 frames ticked by 1
and then 2. -/
theorem fetch_and_tick_seq_returns_witness :
    ((tweened_transform.mk4 get_tweener_double 0 1 3 "linear").fetch_and_tick_seq
        tween_double [1, 2]).1 =
      some (if (3 : Int) ≤ [1, 2].sum then (1 : ℚ)
            else tween_double (([1, 2] : List Int).sum : ℚ) 0 1 ((3 : Int) : ℚ)
              (get_tweener_double "linear")) :=
  (fetch_and_tick_seq_returns tween_double get_tweener_double 0 1 3 "linear" [1, 2]
    (by decide) (by decide) (by decide)).2

/-- C2 as stated fails in both directions. A tween whose endpoints are equal
(source = dest = 5, duration 2) returns dest from `fetch_and_tick(1)` although the
accumulated time 1 is below the duration. A tween of duration 1 called with 1 and
then with INT_MAX has accumulated time above the duration, and the last call,
whose addition overflows, does not return dest. -/
theorem fetch_and_tick_seq_counterexample :
    ((constant_example.fetch_and_tick_seq tween_double [1]).1 = some constant_example.dest_ ∧
      ¬ (constant_example.duration_ ≤ ([1] : List Int).sum)) ∧
    ((short_example.fetch_and_tick_seq tween_double [1, 2147483647]).1
        ≠ some short_example.dest_ ∧
      short_example.duration_ ≤ ([1, 2147483647] : List Int).sum) := by
  refine ⟨⟨?_, by decide⟩, ?_, by decide⟩
  · simp [tweened_transform.fetch_and_tick_seq, tweened_transform.fetch_and_tick,
      tweened_transform.fetch, constant_example, tweened_transform.mk4, wrap_int,
      tween_double]
  · simp [tweened_transform.fetch_and_tick_seq, tweened_transform.fetch_and_tick,
      tweened_transform.fetch, short_example, tweened_transform.mk4, wrap_int,
      tween_double, get_tweener_double]
    norm_num

/-! ## Theorems: the stage -/

theorem map_find_assign {V : Type} (m : List (Int × V)) (k : Int) (v : V) (j : Int) :
    map_find (map_assign m k v) j = if j = k then some v else map_find m j := by
  induction m with
  | nil => simp [map_assign, map_find]
  | cons e rest ih =>
    obtain ⟨k0, v0⟩ := e
    unfold map_assign
    by_cases h1 : k < k0
    · simp only [h1, if_true, map_find]
    · by_cases h2 : k = k0
      · subst h2
        simp only [h1, if_false, if_true, map_find]
        by_cases h3 : j = k <;> simp [h3]
      · simp only [h1, h2, if_false, map_find, ih]
        by_cases h3 : j = k0
        · have h4 : j ≠ k := by rw [h3]; exact fun h => h2 h.symm
          simp [h3, h4, Ne.symm h2]
        · simp [h3]

section stage_theorems

variable {L P Tw : Type}
variable (tween : ℚ → frame_transform → frame_transform → ℚ → Tw → frame_transform)
variable (get_tweener : String → Tw)
variable (receive : L → Nat → Option (basic_frame P × L))

theorem transform_map_get_set (m : transform_map Tw) (i : Int)
    (x : tweened_transform frame_transform Tw) :
    (m.set i x).get get_tweener i = x := by
  simp [transform_map.get, transform_map.set]

theorem transform_map_set_other (m : transform_map Tw) (i j : Int)
    (x : tweened_transform frame_transform Tw) (h : j ≠ i) :
    (m.set i x) j = m j := by
  simp [transform_map.set, h]

/-- The body of the loop for one layer, written out: it depends on `transforms_`
only through the entry of the layer. -/
theorem tick_layer_eq (format_desc : video_format_desc) (transforms : transform_map Tw)
    (entry : Int × L) :
    tick_layer tween get_tweener receive format_desc transforms entry =
      (let r1 := (transforms.get get_tweener entry.1).fetch_and_tick tween 1
       let r2 := r1.2.fetch_and_tick tween 1
       let flags := derive_flags format_desc r1.1
       match receive entry.2 flags with
       | none =>
         { flags := flags, transforms := transforms.set entry.1 r1.2, outcome := none }
       | some (frame, layer1) =>
         if format_desc.field_mode ≠ field_mode.progressive then
           { flags := flags, transforms := (transforms.set entry.1 r1.2).set entry.1 r2.2,
             outcome := some (basic_frame.interlace (basic_frame.wrap frame r1.1)
               (basic_frame.wrap frame r2.1) format_desc.field_mode, layer1) }
         else
           { flags := flags, transforms := transforms.set entry.1 r1.2,
             outcome := some (basic_frame.wrap frame r1.1, layer1) }) := by
  unfold tick_layer
  simp only [transform_map_get_set]

theorem tick_layer_other (format_desc : video_format_desc) (transforms : transform_map Tw)
    (entry : Int × L) (j : Int) (h : j ≠ entry.1) :
    (tick_layer tween get_tweener receive format_desc transforms entry).transforms j
      = transforms j := by
  rw [tick_layer_eq]
  simp only
  split
  · simp [transform_map.set, h]
  · split <;> simp [transform_map.set, h]

theorem tick_layer_congr (format_desc : video_format_desc)
    (transforms transforms1 : transform_map Tw) (entry : Int × L)
    (h : transforms1 entry.1 = transforms entry.1) :
    (tick_layer tween get_tweener receive format_desc transforms1 entry).flags
      = (tick_layer tween get_tweener receive format_desc transforms entry).flags ∧
    (tick_layer tween get_tweener receive format_desc transforms1 entry).outcome
      = (tick_layer tween get_tweener receive format_desc transforms entry).outcome ∧
    (tick_layer tween get_tweener receive format_desc transforms1 entry).transforms entry.1
      = (tick_layer tween get_tweener receive format_desc transforms entry).transforms
          entry.1 := by
  have hg : transforms1.get get_tweener entry.1 = transforms.get get_tweener entry.1 := by
    simp [transform_map.get, h]
  rw [tick_layer_eq, tick_layer_eq]
  simp only [hg]
  split
  · simp [transform_map.set]
  · split <;> simp [transform_map.set]

theorem tick_layer_some (hrecv : ∀ l flags, (receive l flags).isSome = true)
    (format_desc : video_format_desc) (transforms : transform_map Tw) (entry : Int × L) :
    ∃ frame layer1,
      (tick_layer tween get_tweener receive format_desc transforms entry).outcome
        = some (frame, layer1) := by
  rw [tick_layer_eq]
  simp only
  have h := hrecv entry.2
    (derive_flags format_desc
      ((transforms.get get_tweener entry.1).fetch_and_tick tween 1).1)
  obtain ⟨⟨frame, layer1⟩, hr⟩ := Option.isSome_iff_exists.mp h
  rw [hr]
  simp only
  split
  · exact ⟨_, _, rfl⟩
  · exact ⟨_, _, rfl⟩

theorem tick_loop_cons_some (format_desc : video_format_desc) (transforms : transform_map Tw)
    (frames : List (Int × basic_frame P)) (entry : Int × L) (rest : List (Int × L))
    (frame : basic_frame P) (layer1 : L)
    (h : (tick_layer tween get_tweener receive format_desc transforms entry).outcome
      = some (frame, layer1)) :
    tick_loop tween get_tweener receive format_desc transforms frames (entry :: rest) =
      { calls := (entry.1,
            (tick_layer tween get_tweener receive format_desc transforms entry).flags) ::
          (tick_loop tween get_tweener receive format_desc
            (tick_layer tween get_tweener receive format_desc transforms entry).transforms
            (map_assign frames entry.1 frame) rest).calls,
        frames := (tick_loop tween get_tweener receive format_desc
            (tick_layer tween get_tweener receive format_desc transforms entry).transforms
            (map_assign frames entry.1 frame) rest).frames,
        layers := (entry.1, layer1) ::
          (tick_loop tween get_tweener receive format_desc
            (tick_layer tween get_tweener receive format_desc transforms entry).transforms
            (map_assign frames entry.1 frame) rest).layers,
        transforms := (tick_loop tween get_tweener receive format_desc
            (tick_layer tween get_tweener receive format_desc transforms entry).transforms
            (map_assign frames entry.1 frame) rest).transforms } := by
  rw [tick_loop]
  simp only [h]

theorem tick_loop_cons_none (format_desc : video_format_desc) (transforms : transform_map Tw)
    (frames : List (Int × basic_frame P)) (entry : Int × L) (rest : List (Int × L))
    (h : (tick_layer tween get_tweener receive format_desc transforms entry).outcome = none) :
    tick_loop tween get_tweener receive format_desc transforms frames (entry :: rest) =
      { calls := [(entry.1,
            (tick_layer tween get_tweener receive format_desc transforms entry).flags)],
        frames := none, layers := [],
        transforms :=
          (tick_layer tween get_tweener receive format_desc transforms entry).transforms } := by
  rw [tick_loop]
  simp only [h]

/-- The loop over layers with distinct keys, none of whose `receive` raises: every
layer is handled as if it were alone, from the entry of `transforms_` it had when
the loop began. -/
theorem tick_loop_spec (hrecv : ∀ l flags, (receive l flags).isSome = true)
    (format_desc : video_format_desc) (layers : List (Int × L)) :
    ∀ (transforms : transform_map Tw) (frames0 : List (Int × basic_frame P)),
      (map_keys layers).Nodup →
      ∃ frames,
        (tick_loop tween get_tweener receive format_desc transforms frames0 layers).frames
          = some frames ∧
        (∀ j, j ∉ map_keys layers →
          map_find frames j = map_find frames0 j ∧
          (tick_loop tween get_tweener receive format_desc transforms frames0
            layers).transforms j = transforms j) ∧
        (∀ i l, (i, l) ∈ layers → ∃ frame layer1,
          (tick_layer tween get_tweener receive format_desc transforms (i, l)).outcome
            = some (frame, layer1) ∧
          map_find frames i = some frame ∧
          (i, layer1) ∈
            (tick_loop tween get_tweener receive format_desc transforms frames0
              layers).layers ∧
          (tick_loop tween get_tweener receive format_desc transforms frames0
            layers).transforms i
            = (tick_layer tween get_tweener receive format_desc transforms
                (i, l)).transforms i) ∧
        map_keys
          (tick_loop tween get_tweener receive format_desc transforms frames0 layers).layers
          = map_keys layers := by
  induction layers with
  | nil =>
    intro transforms frames0 _
    exact ⟨frames0, by simp [tick_loop], by simp [tick_loop], by simp, by simp [tick_loop]⟩
  | cons entry rest ih =>
    intro transforms frames0 hnd
    have hnd1 : entry.1 ∉ map_keys rest ∧ (map_keys rest).Nodup := by
      simpa [map_keys] using hnd
    obtain ⟨frame, layer1, ho⟩ :=
      tick_layer_some tween get_tweener receive hrecv format_desc transforms entry
    rw [tick_loop_cons_some tween get_tweener receive format_desc transforms frames0 entry
      rest frame layer1 ho]
    obtain ⟨frames, hf, hother, hmem, hkeys⟩ :=
      ih (tick_layer tween get_tweener receive format_desc transforms entry).transforms
        (map_assign frames0 entry.1 frame) hnd1.2
    refine ⟨frames, hf, ?_, ?_, ?_⟩
    · intro j hj
      have hj1 : j ≠ entry.1 ∧ j ∉ map_keys rest := by
        simpa [map_keys, not_or] using hj
      obtain ⟨h1, h2⟩ := hother j hj1.2
      refine ⟨?_, ?_⟩
      · rw [h1, map_find_assign, if_neg hj1.1]
      · simp only
        rw [h2]
        exact tick_layer_other tween get_tweener receive format_desc transforms entry j hj1.1
    · intro i l hil
      rcases List.mem_cons.mp hil with heq | hin
      · subst heq
        obtain ⟨h1, h2⟩ := hother i hnd1.1
        refine ⟨frame, layer1, ho, ?_, ?_, ?_⟩
        · rw [h1, map_find_assign, if_pos rfl]
        · exact List.mem_cons_self _ _
        · exact h2
      · have hne : i ≠ entry.1 := by
          intro h
          apply hnd1.1
          rw [← h]
          exact List.mem_map.mpr ⟨(i, l), hin, rfl⟩
        obtain ⟨frame2, layer2, h1, h2, h3, h4⟩ := hmem i l hin
        have hc := tick_layer_congr tween get_tweener receive format_desc transforms
          (tick_layer tween get_tweener receive format_desc transforms entry).transforms
          (i, l)
          (tick_layer_other tween get_tweener receive format_desc transforms entry i hne)
        refine ⟨frame2, layer2, ?_, h2, ?_, ?_⟩
        · rw [← hc.2.1]; exact h1
        · exact List.mem_cons_of_mem _ h3
        · simp only
          rw [h4]; exact hc.2.2
    · simp only [map_keys, List.map_cons] at hkeys ⊢
      rw [hkeys]

/-- One tick of a stage whose layers have distinct keys and whose `receive` does not
raise: the bundle is sent, and every layer is handled as if it were alone. -/
theorem tick_spec (hrecv : ∀ l flags, (receive l flags).isSome = true)
    (s : stage_impl L Tw) (hnd : (map_keys s.layers_).Nodup) :
    ∃ frames,
      (tick tween get_tweener receive s).bundle = some frames ∧
      (tick tween get_tweener receive s).stage.format_desc_ = s.format_desc_ ∧
      map_keys (tick tween get_tweener receive s).stage.layers_ = map_keys s.layers_ ∧
      (∀ j, j ∉ map_keys s.layers_ →
        (tick tween get_tweener receive s).stage.transforms_ j = s.transforms_ j) ∧
      (∀ i l, (i, l) ∈ s.layers_ → ∃ frame layer1,
        (tick_layer tween get_tweener receive s.format_desc_ s.transforms_ (i, l)).outcome
          = some (frame, layer1) ∧
        map_find frames i = some frame ∧
        (i, layer1) ∈ (tick tween get_tweener receive s).stage.layers_ ∧
        (tick tween get_tweener receive s).stage.transforms_ i
          = (tick_layer tween get_tweener receive s.format_desc_ s.transforms_
              (i, l)).transforms i) := by
  obtain ⟨frames, hf, hother, hmem, hkeys⟩ :=
    tick_loop_spec tween get_tweener receive hrecv s.format_desc_ s.layers_ s.transforms_
      (s.layers_.foldl (fun m entry => map_assign m entry.1 basic_frame.empty) []) hnd
  refine ⟨frames, ?_, ?_, ?_, ?_, ?_⟩
  · simp only [tick, hf]
  · simp only [tick, hf]
  · simp only [tick, hf]; exact hkeys
  · intro j hj
    simp only [tick, hf]
    exact (hother j hj).2
  · intro i l hil
    obtain ⟨frame, layer1, h1, h2, h3, h4⟩ := hmem i l hil
    refine ⟨frame, layer1, h1, h2, ?_, ?_⟩
    · simp only [tick, hf]; exact h3
    · simp only [tick, hf]; exact h4

theorem fetch_and_tick_zero_duration {T : Type} (tween1 : ℚ → T → T → ℚ → Tw → T)
    (x : tweened_transform T Tw) (hd : x.duration_ = 0) (ht : x.time_ = 0) :
    x.fetch_and_tick tween1 1 = (x.dest_, x) := by
  have hw : wrap_int 1 = 1 := by decide
  obtain ⟨a, b, c, d, e⟩ := x
  simp only at hd ht
  subst hd ht
  simp [tweened_transform.fetch_and_tick, tweened_transform.fetch, hw]

/-- C3: on a stage whose layers have distinct keys and whose `receive` does not
raise, after the command `set_transform(index, T, 0, "linear")` the next tick
sends a bundle in which the frame of the layer at `index` is the received frame
wrapped with the transform T; for an interlaced format both fields carry T. -/
theorem set_transform_zero_next_tick (hrecv : ∀ l flags, (receive l flags).isSome = true)
    (s : stage_impl L Tw) (hnd : (map_keys s.layers_).Nodup)
    (index : Int) (T : frame_transform) (l : L) (hmem : (index, l) ∈ s.layers_) :
    ∃ frames frame layer1,
      (tick tween get_tweener receive
        (set_transform tween get_tweener s index T 0 "linear")).bundle = some frames ∧
      receive l (derive_flags s.format_desc_ T) = some (frame, layer1) ∧
      map_find frames index =
        some (if s.format_desc_.field_mode = field_mode.progressive then
                basic_frame.wrap frame T
              else basic_frame.interlace (basic_frame.wrap frame T)
                (basic_frame.wrap frame T) s.format_desc_.field_mode) := by
  obtain ⟨⟨frame, layer1⟩, hr⟩ :=
    Option.isSome_iff_exists.mp (hrecv l (derive_flags s.format_desc_ T))
  obtain ⟨frames, hb, _, _, _, hl⟩ :=
    tick_spec tween get_tweener receive hrecv
      (set_transform tween get_tweener s index T 0 "linear") hnd
  obtain ⟨frame1, layer2, ho, hfind, _, _⟩ := hl index l hmem
  refine ⟨frames, frame, layer1, hb, hr, ?_⟩
  rw [hfind]
  have hw0 : wrap_int ((0 : Nat) : Int) = 0 := by decide
  have hget : (set_transform tween get_tweener s index T 0 "linear").transforms_.get
      get_tweener index
      = tweened_transform.mk4 get_tweener
          ((s.transforms_.get get_tweener index).fetch tween) T 0 "linear" := by
    simp only [set_transform, hw0]
    exact transform_map_get_set get_tweener _ _ _
  rw [tick_layer_eq] at ho
  simp only [hget] at ho
  rw [fetch_and_tick_zero_duration tween _ rfl rfl] at ho
  simp only at ho
  rw [fetch_and_tick_zero_duration tween _ rfl rfl] at ho
  simp only [tweened_transform.mk4, set_transform] at ho
  rw [hr] at ho
  simp only at ho
  by_cases hp : s.format_desc_.field_mode = field_mode.progressive
  · simp only [hp, ne_eq, not_true_eq_false, if_false, if_true] at ho ⊢
    simp only [Option.some.injEq, Prod.mk.injEq] at ho
    rw [ho.1]
  · simp only [hp, ne_eq, not_false_eq_true, if_true, if_false] at ho ⊢
    simp only [Option.some.injEq, Prod.mk.injEq] at ho
    rw [ho.1]

theorem tick_layer_progressive (hrecv : ∀ l flags, (receive l flags).isSome = true)
    (format_desc : video_format_desc)
    (hp : format_desc.field_mode = field_mode.progressive)
    (transforms : transform_map Tw) (entry : Int × L) :
    ∃ frame layer1,
      (tick_layer tween get_tweener receive format_desc transforms entry).outcome
        = some (basic_frame.wrap frame
            ((transforms.get get_tweener entry.1).fetch_and_tick tween 1).1, layer1) ∧
      (tick_layer tween get_tweener receive format_desc transforms entry).transforms entry.1
        = some ((transforms.get get_tweener entry.1).fetch_and_tick tween 1).2 := by
  obtain ⟨⟨frame, layer1⟩, hr⟩ := Option.isSome_iff_exists.mp (hrecv entry.2
    (derive_flags format_desc
      ((transforms.get get_tweener entry.1).fetch_and_tick tween 1).1))
  refine ⟨frame, layer1, ?_⟩
  rw [tick_layer_eq]
  simp only [hr, hp, ne_eq, not_true_eq_false, if_false]
  simp [transform_map.set]

theorem tick_layer_interlaced (hrecv : ∀ l flags, (receive l flags).isSome = true)
    (format_desc : video_format_desc)
    (hp : format_desc.field_mode ≠ field_mode.progressive)
    (transforms : transform_map Tw) (entry : Int × L) :
    ∃ frame layer1,
      (tick_layer tween get_tweener receive format_desc transforms entry).outcome
        = some (basic_frame.interlace
            (basic_frame.wrap frame
              ((transforms.get get_tweener entry.1).fetch_and_tick tween 1).1)
            (basic_frame.wrap frame
              (((transforms.get get_tweener entry.1).fetch_and_tick tween 1).2.fetch_and_tick
                tween 1).1)
            format_desc.field_mode, layer1) ∧
      (tick_layer tween get_tweener receive format_desc transforms entry).transforms entry.1
        = some (((transforms.get get_tweener entry.1).fetch_and_tick tween 1).2.fetch_and_tick
            tween 1).2 := by
  obtain ⟨⟨frame, layer1⟩, hr⟩ := Option.isSome_iff_exists.mp (hrecv entry.2
    (derive_flags format_desc
      ((transforms.get get_tweener entry.1).fetch_and_tick tween 1).1))
  refine ⟨frame, layer1, ?_⟩
  rw [tick_layer_eq]
  simp only [hr, hp, ne_eq, not_false_eq_true, if_true]
  simp [transform_map.set]

theorem fetch_and_tick_one (x : tweened_transform frame_transform Tw)
    (h0 : 0 ≤ x.time_) (hov : x.time_ + 1 ≤ INT_MAX) :
    (x.fetch_and_tick tween 1).2 = { x with time_ := min (x.time_ + 1) x.duration_ } ∧
    (x.fetch_and_tick tween 1).1 =
      (if min (x.time_ + 1) x.duration_ = x.duration_ then x.dest_
       else tween ((min (x.time_ + 1) x.duration_ : Int) : ℚ) x.source_ x.dest_
              (x.duration_ : ℚ) x.tweener_) := by
  have hw : wrap_int (x.time_ + 1) = x.time_ + 1 := wrap_int_of_bounds _ (by omega) hov
  simp [tweened_transform.fetch_and_tick, tweened_transform.fetch, hw]

/-- The state of a progressive stage `j` ticks after `set_transform(index, T, N,
"linear")`: the layer is still there and its transform has reached time
min(j, N). -/
theorem tick_n_tween_state (hrecv : ∀ l flags, (receive l flags).isSome = true)
    (s : stage_impl L Tw) (hnd : (map_keys s.layers_).Nodup)
    (hp : s.format_desc_.field_mode = field_mode.progressive)
    (index : Int) (T : frame_transform) (N : Nat) (hN : (N : Int) ≤ INT_MAX)
    (l : L) (hmem : (index, l) ∈ s.layers_) :
    ∀ j : Nat, (j ≤ N ∨ (N : Int) < INT_MAX) →
      (tick_n tween get_tweener receive
        (set_transform tween get_tweener s index T N "linear") j).format_desc_
        = s.format_desc_ ∧
      map_keys (tick_n tween get_tweener receive
        (set_transform tween get_tweener s index T N "linear") j).layers_
        = map_keys s.layers_ ∧
      (∃ lj, (index, lj) ∈ (tick_n tween get_tweener receive
        (set_transform tween get_tweener s index T N "linear") j).layers_) ∧
      (tick_n tween get_tweener receive
        (set_transform tween get_tweener s index T N "linear") j).transforms_.get
          get_tweener index
        = { source_ := (s.transforms_.get get_tweener index).fetch tween, dest_ := T,
            duration_ := (N : Int), time_ := min (j : Int) (N : Int),
            tweener_ := get_tweener "linear" } := by
  intro j
  induction j with
  | zero =>
    intro _
    have hw : wrap_int (N : Int) = (N : Int) := wrap_int_of_bounds _ (by omega) hN
    refine ⟨rfl, rfl, ⟨l, hmem⟩, ?_⟩
    simp only [tick_n, set_transform, hw]
    rw [transform_map_get_set]
    simp [tweened_transform.mk4]
  | succ j ih =>
    intro hj
    have hj1 : j ≤ N ∨ (N : Int) < INT_MAX := by omega
    obtain ⟨hfmt, hkeys, ⟨lj, hlj⟩, htr⟩ := ih hj1
    have hnd1 : (map_keys (tick_n tween get_tweener receive
        (set_transform tween get_tweener s index T N "linear") j).layers_).Nodup := by
      rw [hkeys]; exact hnd
    obtain ⟨frames, _, hfmt2, hkeys2, _, hl⟩ :=
      tick_spec tween get_tweener receive hrecv _ hnd1
    obtain ⟨frame, layer1, _, _, hin, htr2⟩ := hl index lj hlj
    obtain ⟨_, _, _, htr3⟩ := tick_layer_progressive tween get_tweener receive hrecv
      (tick_n tween get_tweener receive
        (set_transform tween get_tweener s index T N "linear") j).format_desc_
      (by rw [hfmt]; exact hp)
      (tick_n tween get_tweener receive
        (set_transform tween get_tweener s index T N "linear") j).transforms_ (index, lj)
    simp only at htr3
    rw [htr] at htr3
    have hstep := (fetch_and_tick_one tween
      ({ source_ := (s.transforms_.get get_tweener index).fetch tween, dest_ := T,
         duration_ := (N : Int), time_ := min (j : Int) (N : Int),
         tweener_ := get_tweener "linear" } : tweened_transform frame_transform Tw)
      (by simp only; exact le_min (by omega) (by omega))
      (by
        simp only
        rcases hj with h | h
        · have : ((j : Int)) < N := by omega
          rw [min_eq_left (le_of_lt this)]; omega
        · have := min_le_right (j : Int) (N : Int)
          omega)).1
    rw [hstep] at htr3
    refine ⟨?_, ?_, ⟨layer1, hin⟩, ?_⟩
    · simp only [tick_n]; rw [hfmt2, hfmt]
    · simp only [tick_n]; rw [hkeys2, hkeys]
    · simp only [tick_n, transform_map.get]
      rw [htr2, htr3]
      simp only [Option.getD_some]
      congr 1
      push_cast
      omega

/-- C4 (as amended): on a progressive stage whose layers have distinct keys and
whose `receive` does not raise, for 0 < N <= INT_MAX and prev the value `fetch()`
returns when `set_transform(index, T, N, "linear")` runs, the k-th tick after it
sends a bundle in which the frame of the layer at `index` carries the transform
tween(k, prev, T, N, linear) when 1 <= k < N, and T when k >= N (for N = INT_MAX
only k = N). -/
theorem set_transform_tween_ticks (hrecv : ∀ l flags, (receive l flags).isSome = true)
    (s : stage_impl L Tw) (hnd : (map_keys s.layers_).Nodup)
    (hp : s.format_desc_.field_mode = field_mode.progressive)
    (index : Int) (T : frame_transform) (N : Nat) (_hN0 : 0 < N) (hN : (N : Int) ≤ INT_MAX)
    (l : L) (hmem : (index, l) ∈ s.layers_)
    (k : Nat) (hk : 1 ≤ k) (hov : k ≤ N ∨ (N : Int) < INT_MAX) :
    ∃ frames frame,
      (tick tween get_tweener receive
        (tick_n tween get_tweener receive
          (set_transform tween get_tweener s index T N "linear") (k - 1))).bundle
        = some frames ∧
      map_find frames index =
        some (basic_frame.wrap frame
          (if k < N then
             tween (k : ℚ) ((s.transforms_.get get_tweener index).fetch tween) T (N : ℚ)
               (get_tweener "linear")
           else T)) := by
  obtain ⟨j, rfl⟩ : ∃ j, k = j + 1 := ⟨k - 1, by omega⟩
  simp only [Nat.add_sub_cancel]
  have hj1 : j ≤ N ∨ (N : Int) < INT_MAX := by omega
  obtain ⟨hfmt, hkeys, ⟨lj, hlj⟩, htr⟩ :=
    tick_n_tween_state tween get_tweener receive hrecv s hnd hp index T N hN l hmem j hj1
  have hnd1 : (map_keys (tick_n tween get_tweener receive
      (set_transform tween get_tweener s index T N "linear") j).layers_).Nodup := by
    rw [hkeys]; exact hnd
  obtain ⟨frames, hb, _, _, _, hl⟩ := tick_spec tween get_tweener receive hrecv _ hnd1
  obtain ⟨frame1, layer1, ho, hfind, _, _⟩ := hl index lj hlj
  obtain ⟨frame, layer2, ho2, _⟩ := tick_layer_progressive tween get_tweener receive hrecv
    (tick_n tween get_tweener receive
      (set_transform tween get_tweener s index T N "linear") j).format_desc_
    (by rw [hfmt]; exact hp)
    (tick_n tween get_tweener receive
      (set_transform tween get_tweener s index T N "linear") j).transforms_ (index, lj)
  rw [ho] at ho2
  simp only [Option.some.injEq, Prod.mk.injEq] at ho2
  refine ⟨frames, frame, hb, ?_⟩
  rw [hfind, ho2.1, htr]
  have hstep := (fetch_and_tick_one tween
    ({ source_ := (s.transforms_.get get_tweener index).fetch tween, dest_ := T,
       duration_ := (N : Int), time_ := min (j : Int) (N : Int),
       tweener_ := get_tweener "linear" } : tweened_transform frame_transform Tw)
    (by simp only; exact le_min (by omega) (by omega))
    (by
      simp only
      rcases hov with h | h
      · have : ((j : Int)) < N := by omega
        rw [min_eq_left (le_of_lt this)]; omega
      · have := min_le_right (j : Int) (N : Int)
        omega)).2
  rw [hstep]
  simp only
  by_cases hlt : j + 1 < N
  · have h1 : ((j : Int)) ≤ N := by omega
    have h2 : ((j : Int)) + 1 ≤ N := by omega
    have h3 : ((j : Int)) + 1 ≠ N := by omega
    rw [min_eq_left h1, min_eq_left h2]
    simp [hlt, h3]
  · have h2 : (N : Int) ≤ (j : Int) + 1 := by omega
    have h4 : min (min (j : Int) (N : Int) + 1) (N : Int) = N := by
      rcases le_total (j : Int) (N : Int) with h | h
      · rw [min_eq_left h, min_eq_right h2]
      · rw [min_eq_right h, min_eq_right (by omega)]
    simp [hlt, h4]

/-- C6 (as amended): in a tick of a stage with an interlaced format (layers with
distinct keys, `receive` not raising), a layer whose transform has 0 <= time <=
duration and time + 2 within `int` gets two `fetch_and_tick(1)` calls, one for
each field of the interlaced frame, and the time of its transform after the tick
is min(time + 2, duration). -/
theorem tick_interlaced_two_fetches (hrecv : ∀ l flags, (receive l flags).isSome = true)
    (s : stage_impl L Tw) (hnd : (map_keys s.layers_).Nodup)
    (hp : s.format_desc_.field_mode ≠ field_mode.progressive)
    (index : Int) (l : L) (hmem : (index, l) ∈ s.layers_)
    (h0 : 0 ≤ (s.transforms_.get get_tweener index).time_)
    (_h1 : (s.transforms_.get get_tweener index).time_
      ≤ (s.transforms_.get get_tweener index).duration_)
    (hov : (s.transforms_.get get_tweener index).time_ + 2 ≤ INT_MAX) :
    ∃ frames frame,
      (tick tween get_tweener receive s).bundle = some frames ∧
      map_find frames index =
        some (basic_frame.interlace
          (basic_frame.wrap frame
            ((s.transforms_.get get_tweener index).fetch_and_tick tween 1).1)
          (basic_frame.wrap frame
            (((s.transforms_.get get_tweener index).fetch_and_tick tween 1).2.fetch_and_tick
              tween 1).1)
          s.format_desc_.field_mode) ∧
      (tick tween get_tweener receive s).stage.transforms_.get get_tweener index
        = (((s.transforms_.get get_tweener index).fetch_and_tick tween 1).2.fetch_and_tick
            tween 1).2 ∧
      ((tick tween get_tweener receive s).stage.transforms_.get get_tweener index).time_
        = min ((s.transforms_.get get_tweener index).time_ + 2)
            (s.transforms_.get get_tweener index).duration_ := by
  obtain ⟨frames, hb, _, _, _, hl⟩ := tick_spec tween get_tweener receive hrecv s hnd
  obtain ⟨frame1, layer1, ho, hfind, _, htr⟩ := hl index l hmem
  obtain ⟨frame, layer2, ho2, htr2⟩ := tick_layer_interlaced tween get_tweener receive hrecv
    s.format_desc_ hp s.transforms_ (index, l)
  rw [ho] at ho2
  simp only [Option.some.injEq, Prod.mk.injEq] at ho2
  simp only at htr2
  have hget : (tick tween get_tweener receive s).stage.transforms_.get get_tweener index
      = (((s.transforms_.get get_tweener index).fetch_and_tick tween 1).2.fetch_and_tick
          tween 1).2 := by
    simp only [transform_map.get] at htr2 ⊢
    rw [htr, htr2]
    rfl
  refine ⟨frames, frame, hb, ?_, hget, ?_⟩
  · rw [hfind, ho2.1]
  · rw [hget]
    have hs1 := (fetch_and_tick_one tween (s.transforms_.get get_tweener index) h0
      (by omega)).1
    rw [hs1]
    have hs2 := (fetch_and_tick_one tween
      ({ s.transforms_.get get_tweener index with
          time_ := min ((s.transforms_.get get_tweener index).time_ + 1)
            (s.transforms_.get get_tweener index).duration_ } :
        tweened_transform frame_transform Tw)
      (by simp only; omega) (by simp only; omega)).1
    rw [hs2]
    simp only
    omega

end stage_theorems

/-- The theorem `set_transform_zero_next_tick` on the interlaced stage with one
layer. -/
theorem set_transform_zero_next_tick_witness :
    ∃ frames frame layer1,
      (tick tween_frame_transform get_tweener_double counting_receive
        (set_transform tween_frame_transform get_tweener_double stage_1080i50 10
          transparent 0 "linear")).bundle = some frames ∧
      counting_receive 0 (derive_flags stage_1080i50.format_desc_ transparent)
        = some (frame, layer1) ∧
      map_find frames 10 =
        some (if stage_1080i50.format_desc_.field_mode = field_mode.progressive then
                basic_frame.wrap frame transparent
              else basic_frame.interlace (basic_frame.wrap frame transparent)
                (basic_frame.wrap frame transparent)
                stage_1080i50.format_desc_.field_mode) :=
  set_transform_zero_next_tick tween_frame_transform get_tweener_double counting_receive
    (fun _ _ => rfl) stage_1080i50 (by decide) 10 transparent 0
    (by simp [stage_1080i50])

/-- The theorem `set_transform_tween_ticks` on the progressive stage with one
layer: a tween of 2 frames to the transparent transform, first tick. -/
theorem set_transform_tween_ticks_witness :
    ∃ frames frame,
      (tick tween_frame_transform get_tweener_double counting_receive
        (tick_n tween_frame_transform get_tweener_double counting_receive
          (set_transform tween_frame_transform get_tweener_double stage_1080p25 10
            transparent 2 "linear") (1 - 1))).bundle
        = some frames ∧
      map_find frames 10 =
        some (basic_frame.wrap frame
          (if 1 < 2 then
             tween_frame_transform ((1 : Nat) : ℚ)
               ((stage_1080p25.transforms_.get get_tweener_double 10).fetch
                 tween_frame_transform) transparent ((2 : Nat) : ℚ)
               (get_tweener_double "linear")
           else transparent)) :=
  set_transform_tween_ticks tween_frame_transform get_tweener_double counting_receive
    (fun _ _ => rfl) stage_1080p25 (by decide) rfl 10 transparent 2 (by decide) (by decide)
    0 (by simp [stage_1080p25]) 1 (by decide) (by decide)

/-- C4 as stated fails for N = 2^31: the `unsigned int` duration becomes the `int`
INT_MIN, the first tick clamps the time to it and draws with T itself, not with
tween(1, prev, T, N, linear). -/
theorem set_transform_tween_counterexample :
    (stage_1080p25.transforms_.get get_tweener_double 10).fetch tween_frame_transform
      = frame_transform.identity ∧
    ((tick tween_frame_transform get_tweener_double counting_receive
        (set_transform tween_frame_transform get_tweener_double stage_1080p25 10
          transparent 2147483648 "linear")).bundle.bind (fun frames => map_find frames 10))
      = some (basic_frame.wrap (basic_frame.produced 0) transparent) ∧
    (tween_frame_transform 1 frame_transform.identity transparent 2147483648
        (get_tweener_double "linear")).opacity = 2147483647 / 2147483648 ∧
    transparent.opacity = 0 := by
  refine ⟨?_, ?_, ?_, rfl⟩
  · simp [stage_1080p25, transform_map.get, tweened_transform.default,
      tweened_transform.fetch]
  · simp [tick, tick_loop, tick_layer, set_transform, stage_1080p25, transform_map.get,
      transform_map.set, tweened_transform.mk4, tweened_transform.fetch_and_tick,
      tweened_transform.fetch, wrap_int, counting_receive, format_1080p25, map_assign,
      map_find]
  · simp [tween_frame_transform, tween_double, get_tweener_double, transparent,
      frame_transform.identity]
    norm_num

/-- The theorem `tick_interlaced_two_fetches` on the interlaced stage on which a
tween of 5 frames has been set. -/
theorem tick_interlaced_two_fetches_witness :
    ((tick tween_frame_transform get_tweener_double counting_receive
        stage_1080i50_tween).stage.transforms_.get get_tweener_double 10).time_
      = min ((stage_1080i50_tween.transforms_.get get_tweener_double 10).time_ + 2)
          (stage_1080i50_tween.transforms_.get get_tweener_double 10).duration_ := by
  obtain ⟨_, _, _, _, _, h⟩ :=
    tick_interlaced_two_fetches tween_frame_transform get_tweener_double counting_receive
      (fun _ _ => rfl) stage_1080i50_tween (by decide) (by decide) 10 0
      (by simp [stage_1080i50_tween, set_transform, stage_1080i50])
      (by decide) (by decide) (by decide)
  exact h

/-- C6 as stated fails for the identity (default) transform: on the interlaced
stage with one layer and no transform set, the time of the transform of the layer
is 0 before the tick and 0 after it, the two fetches saturating at the duration
0. -/
theorem tick_interlaced_identity_counterexample :
    stage_1080i50.format_desc_.field_mode = field_mode.upper ∧
    (stage_1080i50.transforms_.get get_tweener_double 10).time_ = 0 ∧
    ((tick tween_frame_transform get_tweener_double counting_receive
        stage_1080i50).stage.transforms_.get get_tweener_double 10).time_ = 0 ∧
    ((tick tween_frame_transform get_tweener_double counting_receive
        stage_1080i50).stage.transforms_.get get_tweener_double 10).time_
      ≠ (stage_1080i50.transforms_.get get_tweener_double 10).time_ + 2 := by
  have h : ((tick tween_frame_transform get_tweener_double counting_receive
        stage_1080i50).stage.transforms_.get get_tweener_double 10).time_ = 0 := by
    simp [tick, tick_loop, tick_layer, stage_1080i50, transform_map.get,
      transform_map.set, tweened_transform.default, tweened_transform.fetch_and_tick,
      tweened_transform.fetch, wrap_int, counting_receive, format_1080i50]
  refine ⟨rfl, rfl, h, ?_⟩
  rw [h]
  decide

/-! ## Theorems: the image kernel -/

section kernel_theorems

variable {S : Type}

theorem set_not_mem_interlacing (t : frame_transform) (name : String) (v : uniform_value) :
    gl_command.set name v ∉ draw_interlacing t := by
  unfold draw_interlacing
  split
  · simp
  · simp only [List.mem_cons, not_or]
    refine ⟨by simp, ?_⟩
    split
    · simp
    · split <;> simp

theorem set_not_mem_area (t : frame_transform) (background : device_buffer)
    (name : String) (v : uniform_value) :
    gl_command.set name v ∉ draw_area t background := by
  unfold draw_area
  simp only [List.mem_cons, not_or]
  refine ⟨by simp, ?_⟩
  split <;> simp

theorem set_not_mem_quad (t : frame_transform) (name : String) (v : uniform_value) :
    gl_command.set name v ∉ draw_quad t := by
  simp [draw_quad]

theorem set_not_mem_cleanup (blend_modes : Bool) (name : String) (v : uniform_value) :
    gl_command.set name v ∉ draw_cleanup blend_modes := by
  unfold draw_cleanup
  simp only [List.mem_append, not_or]
  refine ⟨by simp, ?_⟩
  split <;> simp

theorem enable_not_mem_units (cap : gl_cap) :
    gl_command.enable cap ∉ draw_units := by
  simp [draw_units]

theorem enable_not_mem_uniforms (item : render_item) (plane0 : plane)
    (local_key layer_key : Option device_buffer) (cap : gl_cap) :
    gl_command.enable cap ∉ draw_uniforms item plane0 local_key layer_key := by
  simp [draw_uniforms]

theorem enable_not_mem_blend (blend_modes : Bool) (item : render_item)
    (cap : gl_cap) :
    gl_command.enable cap ∉ draw_blend blend_modes item := by
  unfold draw_blend
  split
  · simp
  · split <;> simp

theorem enable_not_mem_levels (t : frame_transform) (cap : gl_cap) :
    gl_command.enable cap ∉ draw_levels t := by
  unfold draw_levels
  split <;> simp

theorem enable_not_mem_csb (t : frame_transform) (cap : gl_cap) :
    gl_command.enable cap ∉ draw_csb t := by
  unfold draw_csb
  split <;> simp

theorem enable_not_mem_quad (t : frame_transform) (cap : gl_cap) :
    gl_command.enable cap ∉ draw_quad t := by
  simp [draw_quad]

theorem enable_not_mem_cleanup (blend_modes : Bool) (cap : gl_cap) :
    gl_command.enable cap ∉ draw_cleanup blend_modes := by
  unfold draw_cleanup
  simp only [List.mem_append, not_or]
  refine ⟨by simp, ?_⟩
  split <;> simp

theorem blend_func_not_mem_units (a b d e : gl_factor) :
    gl_command.blend_func_separate a b d e ∉ draw_units := by
  simp [draw_units]

theorem blend_func_not_mem_uniforms (item : render_item) (plane0 : plane)
    (local_key layer_key : Option device_buffer) (a b d e : gl_factor) :
    gl_command.blend_func_separate a b d e ∉ draw_uniforms item plane0 local_key layer_key := by
  simp [draw_uniforms]

theorem blend_func_not_mem_levels (t : frame_transform) (a b d e : gl_factor) :
    gl_command.blend_func_separate a b d e ∉ draw_levels t := by
  unfold draw_levels
  split <;> simp

theorem blend_func_not_mem_csb (t : frame_transform) (a b d e : gl_factor) :
    gl_command.blend_func_separate a b d e ∉ draw_csb t := by
  unfold draw_csb
  split <;> simp

theorem blend_func_not_mem_interlacing (t : frame_transform) (a b d e : gl_factor) :
    gl_command.blend_func_separate a b d e ∉ draw_interlacing t := by
  unfold draw_interlacing
  split
  · simp
  · simp only [List.mem_cons, not_or]
    refine ⟨by simp, ?_⟩
    split
    · simp
    · split <;> simp

theorem blend_func_not_mem_area (t : frame_transform) (background : device_buffer)
    (a b d e : gl_factor) :
    gl_command.blend_func_separate a b d e ∉ draw_area t background := by
  unfold draw_area
  simp only [List.mem_cons, not_or]
  refine ⟨by simp, ?_⟩
  split <;> simp

theorem blend_func_not_mem_quad (t : frame_transform) (a b d e : gl_factor) :
    gl_command.blend_func_separate a b d e ∉ draw_quad t := by
  simp [draw_quad]

theorem blend_func_not_mem_cleanup (blend_modes : Bool) (a b d e : gl_factor) :
    gl_command.blend_func_separate a b d e ∉ draw_cleanup blend_modes := by
  unfold draw_cleanup
  simp only [List.mem_append, not_or]
  refine ⟨by simp, ?_⟩
  split <;> simp

/-- A drawn item (textures not empty, opacity not below `epsilon`, as many planes
as textures): the calls made, section by section. `pre` holds the calls made
before the shader is put to use. -/
theorem draw_drawn_eq (get_image_shader : Bool → S × Bool) (k : image_kernel S)
    (item : render_item) (background : device_buffer)
    (local_key layer_key : Option device_buffer)
    (ht : item.textures ≠ []) (ho : epsilon ≤ item.transform.opacity)
    (hs : item.pix_desc.planes.length = item.textures.length) :
    ∃ plane0 pre,
      (draw get_image_shader k item background local_key layer_key).commands =
        pre ++ draw_units
          ++ draw_uniforms item plane0 local_key layer_key
          ++ draw_blend (draw get_image_shader k item background local_key
              layer_key).kernel.blend_modes_ (draw_key_blend item)
          ++ draw_levels item.transform
          ++ draw_csb item.transform
          ++ draw_interlacing item.transform
          ++ draw_area item.transform background
          ++ draw_quad item.transform
          ++ draw_cleanup (draw get_image_shader k item background local_key
              layer_key).kernel.blend_modes_ ∧
      (∀ c ∈ pre, c = gl_command.log_warning ∨ c = gl_command.yield ∨
        (∃ n, c = gl_command.bind_texture n) ∨ c = gl_command.bind_local_key ∨
        c = gl_command.bind_layer_key ∨ c = gl_command.get_image_shader) ∧
      (draw get_image_shader k item background local_key layer_key).item
        = { draw_key_blend item with textures := [] } ∧
      (draw get_image_shader k item background local_key layer_key).raised = false := by
  have hp : item.pix_desc.planes ≠ [] := by
    intro h
    apply ht
    rw [h] at hs
    exact List.length_eq_zero.mp hs.symm
  obtain ⟨plane0, rest, hpl⟩ := List.exists_cons_of_ne_nil hp
  refine ⟨plane0, draw_bind item local_key layer_key
    ++ (if k.shader_.isSome then [] else [gl_command.get_image_shader]), ?_, ?_, ?_, ?_⟩
  · simp only [draw, ht, if_false, not_lt.mpr ho, hpl]
  · intro c hc
    simp only [draw_bind, List.mem_append, List.mem_map, List.mem_range] at hc
    rcases hc with ((((hc | hc) | hc) | hc) | hc)
    · split at hc
      · simp at hc
      · simp at hc
        rcases hc with h | h
        · exact Or.inl h
        · exact Or.inr (Or.inl h)
    · obtain ⟨n, _, hn⟩ := hc
      exact Or.inr (Or.inr (Or.inl ⟨n, hn.symm⟩))
    · split at hc
      · simp at hc; exact Or.inr (Or.inr (Or.inr (Or.inl hc)))
      · simp at hc
    · split at hc
      · simp at hc; exact Or.inr (Or.inr (Or.inr (Or.inr (Or.inl hc))))
      · simp at hc
    · split at hc
      · simp at hc
      · simp at hc; exact Or.inr (Or.inr (Or.inr (Or.inr (Or.inr hc))))
  · simp only [draw, ht, if_false, not_lt.mpr ho, hpl]
  · simp only [draw, ht, if_false, not_lt.mpr ho, hpl]

theorem mem_pre_kinds (pre : List gl_command)
    (hpre : ∀ c ∈ pre, c = gl_command.log_warning ∨ c = gl_command.yield ∨
        (∃ n, c = gl_command.bind_texture n) ∨ c = gl_command.bind_local_key ∨
        c = gl_command.bind_layer_key ∨ c = gl_command.get_image_shader) :
    (∀ name v, gl_command.set name v ∉ pre) ∧
    (∀ cap, gl_command.enable cap ∉ pre) ∧
    (∀ x y w h, gl_command.scissor x y w h ∉ pre) ∧
    (∀ a b d e, gl_command.blend_func_separate a b d e ∉ pre) := by
  refine ⟨?_, ?_, ?_, ?_⟩
  · intro name v hc
    rcases hpre _ hc with h | h | ⟨n, h⟩ | h | h | h <;> simp at h
  · intro cap hc
    rcases hpre _ hc with h | h | ⟨n, h⟩ | h | h | h <;> simp at h
  · intro x y w h1 hc
    rcases hpre _ hc with h | h | ⟨n, h⟩ | h | h | h <;> simp at h
  · intro a b d e hc
    rcases hpre _ hc with h | h | ⟨n, h⟩ | h | h | h <;> simp at h

/-- C7: for a render item whose texture list is empty or whose opacity is below
`epsilon` = 0.001, `draw` makes no call at all and leaves the kernel and the item
as they were. -/
theorem draw_skips (get_image_shader : Bool → S × Bool) (k : image_kernel S)
    (item : render_item) (background : device_buffer)
    (local_key layer_key : Option device_buffer)
    (h : item.textures = [] ∨ item.transform.opacity < epsilon) :
    (draw get_image_shader k item background local_key layer_key).commands = [] ∧
    (draw get_image_shader k item background local_key layer_key).kernel = k ∧
    (draw get_image_shader k item background local_key layer_key).item = item ∧
    (draw get_image_shader k item background local_key layer_key).raised = false := by
  unfold draw
  rcases h with h | h
  · simp [h]
  · by_cases ht : item.textures = []
    · simp [ht]
    · simp [ht, h]

end kernel_theorems

/-- The theorem `draw_skips` on an item of opacity 0. -/
theorem draw_skips_witness :
    (draw shader_without_blend_modes kernel_new (item_1080 transparent blend_mode.normal)
      buffer_1080 none none).commands = [] ∧
    (draw shader_without_blend_modes kernel_new (item_1080 transparent blend_mode.normal)
      buffer_1080 none none).kernel = kernel_new ∧
    (draw shader_without_blend_modes kernel_new (item_1080 transparent blend_mode.normal)
      buffer_1080 none none).item = item_1080 transparent blend_mode.normal ∧
    (draw shader_without_blend_modes kernel_new (item_1080 transparent blend_mode.normal)
      buffer_1080 none none).raised = false :=
  draw_skips shader_without_blend_modes kernel_new (item_1080 transparent blend_mode.normal)
    buffer_1080 none none
    (Or.inr (by simp [item_1080, transparent, epsilon]))

/-- C8 (as amended): for a render item with is_key = true, a non-empty texture
list (and as many planes) and an opacity not below `epsilon` = 0.001, whatever its
blend_mode and whatever that opacity, `draw` sets the opacity uniform to 1.0 and
to nothing else, gives the item the blend mode normal, blends with that mode (the
`blend_mode` uniform when the shader blends, the blend function of the normal
mode otherwise), and draws the quad. -/
theorem draw_key_forces {S : Type} (get_image_shader : Bool → S × Bool) (k : image_kernel S)
    (item : render_item) (background : device_buffer)
    (local_key layer_key : Option device_buffer)
    (hkey : item.transform.is_key = true)
    (ht : item.textures ≠ []) (ho : epsilon ≤ item.transform.opacity)
    (hs : item.pix_desc.planes.length = item.textures.length) :
    gl_command.set "opacity" (uniform_value.real 1) ∈
      (draw get_image_shader k item background local_key layer_key).commands ∧
    (∀ v, gl_command.set "opacity" v ∈
      (draw get_image_shader k item background local_key layer_key).commands →
      v = uniform_value.real 1) ∧
    (draw get_image_shader k item background local_key layer_key).item.blend_mode
      = blend_mode.normal ∧
    ((draw get_image_shader k item background local_key layer_key).kernel.blend_modes_ = true →
      gl_command.set "blend_mode" (uniform_value.blend blend_mode.normal) ∈
        (draw get_image_shader k item background local_key layer_key).commands ∧
      ∀ v, gl_command.set "blend_mode" v ∈
        (draw get_image_shader k item background local_key layer_key).commands →
        v = uniform_value.blend blend_mode.normal) ∧
    ((draw get_image_shader k item background local_key layer_key).kernel.blend_modes_ = false →
      gl_command.blend_func_separate gl_factor.GL_ONE gl_factor.GL_ONE_MINUS_SRC_ALPHA
          gl_factor.GL_ONE gl_factor.GL_ONE_MINUS_SRC_ALPHA ∈
        (draw get_image_shader k item background local_key layer_key).commands ∧
      ∀ a b d e, gl_command.blend_func_separate a b d e ∈
        (draw get_image_shader k item background local_key layer_key).commands →
        (a, b, d, e) = (gl_factor.GL_ONE, gl_factor.GL_ONE_MINUS_SRC_ALPHA,
          gl_factor.GL_ONE, gl_factor.GL_ONE_MINUS_SRC_ALPHA)) ∧
    (∃ vertices, gl_command.quad vertices ∈
      (draw get_image_shader k item background local_key layer_key).commands) := by
  obtain ⟨plane0, pre, hc, hpre, hi, _⟩ := draw_drawn_eq get_image_shader k item background
    local_key layer_key ht ho hs
  obtain ⟨hset, _, _, hbf⟩ := mem_pre_kinds pre hpre
  have hkb : (draw_key_blend item).blend_mode = blend_mode.normal := by
    simp [draw_key_blend, hkey]
  rw [hc, hi]
  refine ⟨?_, ?_, ?_, ?_, ?_, ?_⟩
  · simp [draw_uniforms, hkey]
  · intro v hv
    simp only [List.mem_append, set_not_mem_interlacing, set_not_mem_area,
      set_not_mem_quad, set_not_mem_cleanup, hset, or_false, false_or] at hv
    rcases hv with (((hv | hv) | hv) | hv) | hv
    · simp [draw_units] at hv
    · simpa [draw_uniforms, hkey] using hv
    · unfold draw_blend at hv
      split at hv
      · simp at hv
      · split at hv <;> simp at hv
    · unfold draw_levels at hv
      split at hv <;> simp at hv
    · unfold draw_csb at hv
      split at hv <;> simp at hv
  · exact hkb
  · intro hb
    rw [hb]
    refine ⟨by simp [draw_blend, hkb], ?_⟩
    intro v hv
    simp only [List.mem_append, set_not_mem_interlacing, set_not_mem_area,
      set_not_mem_quad, set_not_mem_cleanup, hset, or_false, false_or] at hv
    rcases hv with (((hv | hv) | hv) | hv) | hv
    · simp [draw_units] at hv
    · simp [draw_uniforms] at hv
    · simpa [draw_blend, hkb] using hv
    · unfold draw_levels at hv
      split at hv <;> simp at hv
    · unfold draw_csb at hv
      split at hv <;> simp at hv
  · intro hb
    rw [hb]
    refine ⟨by simp [draw_blend, hkb], ?_⟩
    intro a b d e hv
    simp only [List.mem_append, blend_func_not_mem_units, blend_func_not_mem_uniforms,
      blend_func_not_mem_levels, blend_func_not_mem_csb, blend_func_not_mem_interlacing,
      blend_func_not_mem_area, blend_func_not_mem_quad, blend_func_not_mem_cleanup, hbf,
      or_false, false_or] at hv
    simpa [draw_blend, hkb] using hv
  · have hq : ∃ vertices, gl_command.quad vertices ∈ draw_quad item.transform :=
      ⟨_, List.mem_cons_of_mem _ (List.mem_cons_self _ _)⟩
    obtain ⟨vertices, hv⟩ := hq
    exact ⟨vertices, List.mem_append_left _ (List.mem_append_right _ hv)⟩

/-- The theorem `draw_key_forces` on a key item of opacity 1/2 and blend mode
add. -/
theorem draw_key_forces_witness :
    gl_command.set "opacity" (uniform_value.real 1) ∈
      (draw shader_without_blend_modes kernel_new (item_1080 key_half blend_mode.add)
        buffer_1080 none none).commands ∧
    (draw shader_without_blend_modes kernel_new (item_1080 key_half blend_mode.add)
        buffer_1080 none none).item.blend_mode = blend_mode.normal := by
  obtain ⟨h1, _, h3, _⟩ := draw_key_forces shader_without_blend_modes kernel_new
    (item_1080 key_half blend_mode.add) buffer_1080 none none rfl
    (by simp [item_1080]) (by simp [item_1080, key_half, frame_transform.identity, epsilon]; norm_num)
    rfl
  exact ⟨h1, h3⟩

/-- C8 as stated fails for a key item whose configured opacity is below
`epsilon`: with is_key = true, one texture and opacity 0, `draw` returns at once;
no opacity uniform is set and nothing is drawn. -/
theorem draw_key_counterexample :
    (item_1080 key_transparent blend_mode.add).transform.is_key = true ∧
    (item_1080 key_transparent blend_mode.add).textures ≠ [] ∧
    (draw shader_without_blend_modes kernel_new (item_1080 key_transparent blend_mode.add)
      buffer_1080 none none).commands = [] ∧
    gl_command.set "opacity" (uniform_value.real 1) ∉
      (draw shader_without_blend_modes kernel_new (item_1080 key_transparent blend_mode.add)
        buffer_1080 none none).commands := by
  have h : (draw shader_without_blend_modes kernel_new
      (item_1080 key_transparent blend_mode.add) buffer_1080 none none).commands = [] := by
    simp [draw, item_1080, key_transparent, epsilon]
  refine ⟨rfl, by simp [item_1080], h, ?_⟩
  rw [h]
  simp

theorem enable_scissor_mem_area (t : frame_transform) (background : device_buffer) :
    gl_command.enable gl_cap.GL_SCISSOR_TEST ∈ draw_area t background ↔
      draw_scissor t = true := by
  unfold draw_area
  by_cases h : draw_scissor t = true
  · simp [h]
  · simp [h]

theorem enable_scissor_not_mem_interlacing (t : frame_transform) :
    gl_command.enable gl_cap.GL_SCISSOR_TEST ∉ draw_interlacing t := by
  unfold draw_interlacing
  split
  · simp
  · simp only [List.mem_cons, not_or]
    refine ⟨by simp, ?_⟩
    split
    · simp
    · split <;> simp

/-- A drawn item: the scissor test is enabled exactly when the variable `scissor`
of `draw` is true. -/
theorem enable_scissor_mem_drawn {S : Type} (get_image_shader : Bool → S × Bool)
    (k : image_kernel S) (item : render_item) (background : device_buffer)
    (local_key layer_key : Option device_buffer)
    (ht : item.textures ≠ []) (ho : epsilon ≤ item.transform.opacity)
    (hs : item.pix_desc.planes.length = item.textures.length) :
    gl_command.enable gl_cap.GL_SCISSOR_TEST ∈
        (draw get_image_shader k item background local_key layer_key).commands ↔
      draw_scissor item.transform = true := by
  obtain ⟨plane0, pre, hc, hpre, _, _⟩ := draw_drawn_eq get_image_shader k item background
    local_key layer_key ht ho hs
  obtain ⟨_, hen, _, _⟩ := mem_pre_kinds pre hpre
  rw [hc]
  simp only [List.mem_append, enable_not_mem_units, enable_not_mem_uniforms,
    enable_not_mem_blend, enable_not_mem_levels, enable_not_mem_csb, enable_not_mem_quad,
    enable_not_mem_cleanup, enable_scissor_not_mem_interlacing, hen, or_false, false_or,
    enable_scissor_mem_area]

/-- The items used as examples are drawn. -/
theorem item_1080_drawn (t : frame_transform) (m : blend_mode) (h : epsilon ≤ t.opacity) :
    (item_1080 t m).textures ≠ [] ∧
    epsilon ≤ (item_1080 t m).transform.opacity ∧
    (item_1080 t m).pix_desc.planes.length = (item_1080 t m).textures.length :=
  ⟨by simp [item_1080], h, rfl⟩

theorem epsilon_le_one : epsilon ≤ 1 := by
  unfold epsilon
  norm_num

/-- C9 (as amended): for a drawn render item (textures not empty, opacity not
below `epsilon`, as many planes as textures), `draw` enables the scissor test if
and only if clip_translation[0] or clip_translation[1] is above the machine
epsilon of `double`, or clip_scale[0] or clip_scale[1] is below 1 minus that
epsilon. -/
theorem draw_scissor_enabled_iff {S : Type} (get_image_shader : Bool → S × Bool)
    (k : image_kernel S) (item : render_item) (background : device_buffer)
    (local_key layer_key : Option device_buffer)
    (ht : item.textures ≠ []) (ho : epsilon ≤ item.transform.opacity)
    (hs : item.pix_desc.planes.length = item.textures.length) :
    gl_command.enable gl_cap.GL_SCISSOR_TEST ∈
        (draw get_image_shader k item background local_key layer_key).commands ↔
      (item.transform.clip_translation.1 > DBL_EPSILON ∨
       item.transform.clip_translation.2 > DBL_EPSILON ∨
       item.transform.clip_scale.1 < 1 - DBL_EPSILON ∨
       item.transform.clip_scale.2 < 1 - DBL_EPSILON) := by
  rw [enable_scissor_mem_drawn get_image_shader k item background local_key layer_key
    ht ho hs]
  simp [draw_scissor]

/-- The theorem `draw_scissor_enabled_iff` on the item clipped to the centre
quarter. -/
theorem draw_scissor_enabled_iff_witness :
    gl_command.enable gl_cap.GL_SCISSOR_TEST ∈
        (draw shader_without_blend_modes kernel_new (item_1080 clip_quarter blend_mode.normal)
          buffer_1080 none none).commands ↔
      ((item_1080 clip_quarter blend_mode.normal).transform.clip_translation.1 > DBL_EPSILON ∨
       (item_1080 clip_quarter blend_mode.normal).transform.clip_translation.2 > DBL_EPSILON ∨
       (item_1080 clip_quarter blend_mode.normal).transform.clip_scale.1 < 1 - DBL_EPSILON ∨
       (item_1080 clip_quarter blend_mode.normal).transform.clip_scale.2 < 1 - DBL_EPSILON) :=
  draw_scissor_enabled_iff shader_without_blend_modes kernel_new
    (item_1080 clip_quarter blend_mode.normal) buffer_1080 none none
    (by simp [item_1080])
    (by simp [item_1080, clip_quarter, frame_transform.identity, epsilon]; norm_num)
    rfl

/-- C9 as stated fails in both directions. A clip rectangle that starts 0.0005
from the left edge deviates from [0,0,1,1] by no more than 0.001 in every
component, and the scissor test is enabled; a clip rectangle twice as wide as the
frame deviates by 1, and the scissor test is not enabled. -/
theorem draw_scissor_counterexample :
    ((|clip_small.clip_translation.1 - 0| ≤ epsilon ∧
      |clip_small.clip_translation.2 - 0| ≤ epsilon ∧
      |clip_small.clip_scale.1 - 1| ≤ epsilon ∧
      |clip_small.clip_scale.2 - 1| ≤ epsilon) ∧
     gl_command.enable gl_cap.GL_SCISSOR_TEST ∈
       (draw shader_without_blend_modes kernel_new (item_1080 clip_small blend_mode.normal)
         buffer_1080 none none).commands) ∧
    (|clip_wide.clip_scale.1 - 1| > epsilon ∧
     gl_command.enable gl_cap.GL_SCISSOR_TEST ∉
       (draw shader_without_blend_modes kernel_new (item_1080 clip_wide blend_mode.normal)
         buffer_1080 none none).commands) := by
  obtain ⟨a1, a2, a3⟩ := item_1080_drawn clip_small blend_mode.normal epsilon_le_one
  obtain ⟨b1, b2, b3⟩ := item_1080_drawn clip_wide blend_mode.normal epsilon_le_one
  refine ⟨⟨?_, ?_⟩, ?_, ?_⟩
  · simp only [clip_small, frame_transform.identity, epsilon]
    norm_num [abs_of_nonneg]
  · rw [enable_scissor_mem_drawn _ _ _ _ _ _ a1 a2 a3]
    simp only [draw_scissor, item_1080, clip_small, frame_transform.identity, DBL_EPSILON]
    norm_num
  · simp only [clip_wide, frame_transform.identity, epsilon]
    norm_num
  · rw [enable_scissor_mem_drawn _ _ _ _ _ _ b1 b2 b3]
    simp only [draw_scissor, item_1080, clip_wide, frame_transform.identity, DBL_EPSILON]
    norm_num

theorem to_size_t_of_nonneg (x : ℚ) (h : 0 ≤ x) : to_size_t x = ⌊x⌋ := by
  simp [to_size_t, h]

theorem stipple_not_mem_sections (c : gl_command)
    (h : c = gl_command.enable gl_cap.GL_POLYGON_STIPPLE ∨
      c = gl_command.disable gl_cap.GL_POLYGON_STIPPLE ∨
      ∃ pattern, c = gl_command.stipple_pattern pattern)
    (item : render_item) (plane0 : plane) (local_key layer_key : Option device_buffer)
    (blend_modes : Bool) (item1 : render_item) (background : device_buffer) :
    c ∉ draw_units ∧ c ∉ draw_uniforms item plane0 local_key layer_key ∧
    c ∉ draw_blend blend_modes item1 ∧ c ∉ draw_levels item.transform ∧
    c ∉ draw_csb item.transform ∧ c ∉ draw_area item.transform background ∧
    c ∉ draw_quad item.transform ∧ c ∉ draw_cleanup blend_modes := by
  refine ⟨?_, ?_, ?_, ?_, ?_, ?_, ?_, ?_⟩
  · rcases h with h | h | ⟨q, h⟩ <;> subst h <;> simp [draw_units]
  · rcases h with h | h | ⟨q, h⟩ <;> subst h <;> simp [draw_uniforms]
  · rcases h with h | h | ⟨q, h⟩ <;> subst h <;>
    · unfold draw_blend
      split
      · simp
      · split <;> simp
  · rcases h with h | h | ⟨q, h⟩ <;> subst h <;>
    · unfold draw_levels
      split <;> simp
  · rcases h with h | h | ⟨q, h⟩ <;> subst h <;>
    · unfold draw_csb
      split <;> simp
  · rcases h with h | h | ⟨q, h⟩ <;> subst h <;>
    · unfold draw_area
      simp only [List.mem_cons, not_or]
      refine ⟨by simp, ?_⟩
      split <;> simp
  · rcases h with h | h | ⟨q, h⟩ <;> subst h <;> simp [draw_quad]
  · rcases h with h | h | ⟨q, h⟩ <;> subst h <;>
    · unfold draw_cleanup
      simp only [List.mem_append, not_or]
      refine ⟨by simp, ?_⟩
      split <;> simp

/-- A drawn item: the calls about the polygon stipple are those of lines
175-185. -/
theorem stipple_mem_drawn {S : Type} (get_image_shader : Bool → S × Bool)
    (k : image_kernel S) (item : render_item) (background : device_buffer)
    (local_key layer_key : Option device_buffer)
    (ht : item.textures ≠ []) (ho : epsilon ≤ item.transform.opacity)
    (hs : item.pix_desc.planes.length = item.textures.length)
    (c : gl_command)
    (h : c = gl_command.enable gl_cap.GL_POLYGON_STIPPLE ∨
      c = gl_command.disable gl_cap.GL_POLYGON_STIPPLE ∨
      ∃ pattern, c = gl_command.stipple_pattern pattern) :
    c ∈ (draw get_image_shader k item background local_key layer_key).commands ↔
      c ∈ draw_interlacing item.transform := by
  obtain ⟨plane0, pre, hc, hpre, _, _⟩ := draw_drawn_eq get_image_shader k item background
    local_key layer_key ht ho hs
  have hnp : c ∉ pre := by
    intro hm
    rcases hpre c hm with e | e | ⟨n, e⟩ | e | e | e <;>
      rcases h with h | h | ⟨q, h⟩ <;> rw [h] at e <;> simp at e
  obtain ⟨h1, h2, h3, h4, h5, h6, h7, h8⟩ := stipple_not_mem_sections c h item plane0
    local_key layer_key
    (draw get_image_shader k item background local_key layer_key).kernel.blend_modes_
    (draw_key_blend item) background
  rw [hc]
  simp only [List.mem_append, hnp, h1, h2, h3, h4, h5, h6, h7, h8, or_false, false_or]

/-- C11: for a drawn render item (textures not empty, opacity not below
`epsilon`, as many planes as textures), `draw` disables the polygon stipple, and
neither enables it nor sets a pattern, when the field mode of the item is
progressive; it enables the polygon stipple, does not disable it, and sets the
pattern `upper_pattern` and no other when the field mode is upper, and the
pattern `lower_pattern` and no other when the field mode is lower. -/
theorem draw_stipple {S : Type} (get_image_shader : Bool → S × Bool)
    (k : image_kernel S) (item : render_item) (background : device_buffer)
    (local_key layer_key : Option device_buffer)
    (ht : item.textures ≠ []) (ho : epsilon ≤ item.transform.opacity)
    (hs : item.pix_desc.planes.length = item.textures.length) :
    (item.transform.field_mode = field_mode.progressive →
      gl_command.disable gl_cap.GL_POLYGON_STIPPLE ∈
        (draw get_image_shader k item background local_key layer_key).commands ∧
      gl_command.enable gl_cap.GL_POLYGON_STIPPLE ∉
        (draw get_image_shader k item background local_key layer_key).commands ∧
      ∀ pattern, gl_command.stipple_pattern pattern ∉
        (draw get_image_shader k item background local_key layer_key).commands) ∧
    (item.transform.field_mode = field_mode.upper →
      gl_command.enable gl_cap.GL_POLYGON_STIPPLE ∈
        (draw get_image_shader k item background local_key layer_key).commands ∧
      gl_command.disable gl_cap.GL_POLYGON_STIPPLE ∉
        (draw get_image_shader k item background local_key layer_key).commands ∧
      ∀ pattern, gl_command.stipple_pattern pattern ∈
        (draw get_image_shader k item background local_key layer_key).commands ↔
        pattern = upper_pattern) ∧
    (item.transform.field_mode = field_mode.lower →
      gl_command.enable gl_cap.GL_POLYGON_STIPPLE ∈
        (draw get_image_shader k item background local_key layer_key).commands ∧
      gl_command.disable gl_cap.GL_POLYGON_STIPPLE ∉
        (draw get_image_shader k item background local_key layer_key).commands ∧
      ∀ pattern, gl_command.stipple_pattern pattern ∈
        (draw get_image_shader k item background local_key layer_key).commands ↔
        pattern = lower_pattern) := by
  have hm := stipple_mem_drawn get_image_shader k item background local_key layer_key
    ht ho hs
  refine ⟨?_, ?_, ?_⟩
  · intro hf
    refine ⟨?_, ?_, ?_⟩
    · rw [hm _ (Or.inr (Or.inl rfl))]
      simp [draw_interlacing, hf]
    · rw [hm _ (Or.inl rfl)]
      simp [draw_interlacing, hf]
    · intro pattern
      rw [hm _ (Or.inr (Or.inr ⟨pattern, rfl⟩))]
      simp [draw_interlacing, hf]
  · intro hf
    refine ⟨?_, ?_, ?_⟩
    · rw [hm _ (Or.inl rfl)]
      simp [draw_interlacing, hf]
    · rw [hm _ (Or.inr (Or.inl rfl))]
      simp [draw_interlacing, hf]
    · intro pattern
      rw [hm _ (Or.inr (Or.inr ⟨pattern, rfl⟩))]
      simp [draw_interlacing, hf]
  · intro hf
    refine ⟨?_, ?_, ?_⟩
    · rw [hm _ (Or.inl rfl)]
      simp [draw_interlacing, hf]
    · rw [hm _ (Or.inr (Or.inl rfl))]
      simp [draw_interlacing, hf]
    · intro pattern
      rw [hm _ (Or.inr (Or.inr ⟨pattern, rfl⟩))]
      simp [draw_interlacing, hf]

/-- The theorem `draw_stipple` on an item of the upper field. -/
theorem draw_stipple_witness :
    gl_command.enable gl_cap.GL_POLYGON_STIPPLE ∈
      (draw shader_without_blend_modes kernel_new (item_1080 field_upper blend_mode.normal)
        buffer_1080 none none).commands ∧
    gl_command.stipple_pattern upper_pattern ∈
      (draw shader_without_blend_modes kernel_new (item_1080 field_upper blend_mode.normal)
        buffer_1080 none none).commands := by
  obtain ⟨a1, a2, a3⟩ := item_1080_drawn field_upper blend_mode.normal epsilon_le_one
  obtain ⟨h1, _, h3⟩ := (draw_stipple shader_without_blend_modes kernel_new
    (item_1080 field_upper blend_mode.normal) buffer_1080 none none a1 a2 a3).2.1 rfl
  exact ⟨h1, (h3 upper_pattern).mpr rfl⟩

set_option maxRecDepth 8192 in
/-- C12: `upper_pattern` and `lower_pattern` have 128 bytes each; at every index
i < 128 the byte of `upper_pattern` is 0xFF when i / 4 is even and 0x00 when it is
odd, and the byte of `lower_pattern` is its bitwise complement. -/
theorem stipple_patterns :
    upper_pattern.length = 128 ∧ lower_pattern.length = 128 ∧
    ∀ i, i < 128 →
      upper_pattern.getD i 0 = (if (i / 4) % 2 = 0 then 0xff else 0x00) ∧
      lower_pattern.getD i 0 = 0xff ^^^ upper_pattern.getD i 0 := by
  decide

section stage_executor_theorems

variable {L P Tw : Type}
variable (tween : ℚ → frame_transform → frame_transform → ℚ → Tw → frame_transform)
variable (get_tweener : String → Tw)
variable (receive : L → Nat → Option (basic_frame P × L))

/-- What stays true of a running stage: no more tickets released than bundles
sent, and at most one thing pending, a queued tick or a held ticket. -/
theorem stage_step_invariant (e : stage_event) (r r1 : stage_run L Tw)
    (hstep : stage_step tween get_tweener receive e r = some r1)
    (h1 : r.released ≤ r.emitted)
    (h2 : r.queued_ticks + (r.emitted - r.released) ≤ 1) :
    r1.released ≤ r1.emitted ∧ r1.queued_ticks + (r1.emitted - r1.released) ≤ 1 := by
  cases e with
  | run_tick =>
    simp only [stage_step, run_tick] at hstep
    split at hstep
    · exact absurd hstep (by simp)
    · rename_i hq
      simp only [Option.some.injEq] at hstep
      subst hstep
      simp only
      split <;> omega
  | release_ticket =>
    simp only [stage_step, release_ticket] at hstep
    split at hstep
    · simp only [Option.some.injEq] at hstep
      subst hstep
      simp only
      omega
    · exact absurd hstep (by simp)

theorem stage_steps_invariant (events : List stage_event) :
    ∀ (r r1 : stage_run L Tw),
      stage_steps tween get_tweener receive events r = some r1 →
      r.released ≤ r.emitted →
      r.queued_ticks + (r.emitted - r.released) ≤ 1 →
      r1.released ≤ r1.emitted ∧ r1.queued_ticks + (r1.emitted - r1.released) ≤ 1 := by
  induction events with
  | nil =>
    intro r r1 h h1 h2
    simp only [stage_steps, Option.some.injEq] at h
    subst h
    exact ⟨h1, h2⟩
  | cons e es ih =>
    intro r r1 h h1 h2
    simp only [stage_steps] at h
    cases hs : stage_step tween get_tweener receive e r with
    | none => rw [hs] at h; exact absurd h (by simp)
    | some r2 =>
      rw [hs] at h
      obtain ⟨g1, g2⟩ := stage_step_invariant tween get_tweener receive e r r2 hs h1 h2
      exact ih r2 r1 h g1 g2

/-- C14: on a stage on which `spawn_token` was called once, after any sequence of
events (the executor runs a queued tick, a ticket is released) the number of
bundles sent exceeds the number of tickets released by at most 1; a tick runs
only when no ticket is held, and only the release of a ticket puts a new tick on
the executor. -/
theorem ticket_back_pressure (s : stage_impl L Tw) (events : List stage_event)
    (r : stage_run L Tw)
    (h : stage_steps tween get_tweener receive events (spawn_token (stage_idle s)) = some r) :
    r.emitted ≤ r.released + 1 ∧ r.released ≤ r.emitted ∧
    r.queued_ticks + (r.emitted - r.released) ≤ 1 ∧
    (∀ r1, stage_step tween get_tweener receive stage_event.run_tick r = some r1 →
      r.emitted = r.released) ∧
    (∀ e r1, stage_step tween get_tweener receive e r = some r1 →
      r.queued_ticks < r1.queued_ticks → e = stage_event.release_ticket) := by
  obtain ⟨h1, h2⟩ := stage_steps_invariant tween get_tweener receive events _ r h
    (by simp [spawn_token, stage_idle]) (by simp [spawn_token, stage_idle])
  refine ⟨by omega, h1, h2, ?_, ?_⟩
  · intro r1 hr
    simp only [stage_step, run_tick] at hr
    split at hr
    · exact absurd hr (by simp)
    · omega
  · intro e r1 hr hlt
    cases e with
    | release_ticket => rfl
    | run_tick =>
      simp only [stage_step, run_tick] at hr
      split at hr
      · exact absurd hr (by simp)
      · simp only [Option.some.injEq] at hr
        subst hr
        simp only at hlt
        omega

end stage_executor_theorems

/-- The theorem `ticket_back_pressure` on the progressive stage with one layer,
after a tick, the release of its ticket and the next tick. -/
theorem ticket_back_pressure_witness :
    ∃ r, stage_steps tween_frame_transform get_tweener_double counting_receive
        [stage_event.run_tick, stage_event.release_ticket, stage_event.run_tick]
        (spawn_token (stage_idle stage_1080p25)) = some r ∧
      r.emitted = 2 ∧ r.released = 1 ∧ r.emitted ≤ r.released + 1 := by
  have h : ∃ r, stage_steps tween_frame_transform get_tweener_double counting_receive
        [stage_event.run_tick, stage_event.release_ticket, stage_event.run_tick]
        (spawn_token (stage_idle stage_1080p25)) = some r ∧
      r.emitted = 2 ∧ r.released = 1 := by
    simp [stage_steps, stage_step, run_tick, release_ticket, spawn_token, stage_idle,
      tick, tick_loop, tick_layer, stage_1080p25, counting_receive, format_1080p25]
  obtain ⟨r, hr, he, hl⟩ := h
  exact ⟨r, hr, he, hl,
    (ticket_back_pressure tween_frame_transform get_tweener_double counting_receive
      stage_1080p25 _ r hr).1⟩

/-- C13 fails on the code: on the stage with one layer whose `receive` raises,
the one queued tick catches the exception, clears the layers and sends nothing;
it has made no ticket, so no tick is queued, no ticket is held, and no further
event can happen: the stage does not tick again. -/
theorem tick_fault_stops_stage :
    ∃ r, stage_steps tween_frame_transform get_tweener_double raising_receive
        [stage_event.run_tick] (spawn_token (stage_idle stage_1080p25)) = some r ∧
      r.stage.layers_ = [] ∧ r.queued_ticks = 0 ∧ r.emitted = 0 ∧ r.released = 0 ∧
      ∀ e, stage_step tween_frame_transform get_tweener_double raising_receive e r
        = none := by
  refine ⟨_, rfl, ?_, ?_, ?_, ?_, ?_⟩
  · simp [stage_steps, stage_step, run_tick, spawn_token, stage_idle,
      tick, tick_loop, tick_layer, stage_1080p25, raising_receive]
  · simp [stage_steps, stage_step, run_tick, spawn_token, stage_idle]
  · simp [stage_steps, stage_step, run_tick, spawn_token, stage_idle,
      tick, tick_loop, tick_layer, stage_1080p25, raising_receive]
  · simp [stage_steps, stage_step, run_tick, spawn_token, stage_idle]
  · intro e
    cases e <;>
      simp [stage_steps, stage_step, run_tick, release_ticket, spawn_token, stage_idle,
        tick, tick_loop, tick_layer, stage_1080p25, raising_receive]

/-! ## Theorems: `swap_layers`, the channel, the ffmpeg producer -/

/-- C15: `s.swap_layers(s)` puts no command on the executor and leaves every stage
as it is; for two different stages the command swaps the two members `layers_`,
leaves their transforms and formats and every other stage as they are, and a
second `swap_layers` restores all stages. -/
theorem swap_layers_spec {L Tw : Type} (stages : Nat → stage_impl L Tw) (self other : Nat) :
    ((swap_layers stages self self).commands = 0 ∧
      (swap_layers stages self self).stages = stages) ∧
    (other ≠ self →
      ((swap_layers stages self other).stages self).layers_ = (stages other).layers_ ∧
      ((swap_layers stages self other).stages other).layers_ = (stages self).layers_ ∧
      ((swap_layers stages self other).stages self).transforms_ = (stages self).transforms_ ∧
      ((swap_layers stages self other).stages other).transforms_
        = (stages other).transforms_ ∧
      ((swap_layers stages self other).stages self).format_desc_
        = (stages self).format_desc_ ∧
      ((swap_layers stages self other).stages other).format_desc_
        = (stages other).format_desc_ ∧
      (∀ i, i ≠ self → i ≠ other → (swap_layers stages self other).stages i = stages i) ∧
      (swap_layers (swap_layers stages self other).stages self other).stages = stages) := by
  refine ⟨⟨by simp [swap_layers], by simp [swap_layers]⟩, ?_⟩
  intro hne
  have hne2 : self ≠ other := fun h => hne h.symm
  refine ⟨by simp [swap_layers, hne], by simp [swap_layers, hne], by simp [swap_layers, hne],
    by simp [swap_layers, hne], by simp [swap_layers, hne], by simp [swap_layers, hne],
    ?_, ?_⟩
  · intro i h1 h2
    simp [swap_layers, hne, h1, h2]
  · funext i
    simp only [swap_layers, hne, if_false, if_true]
    by_cases h1 : i = self
    · subst h1
      simp only [if_true]
    · by_cases h2 : i = other
      · subst h2
        simp only [h1, if_false, if_true]
      · simp only [h1, h2, if_false]

/-- The theorem `swap_layers_spec` on the server with two stages: stage 0 gets
the layers of stage 1. -/
theorem swap_layers_spec_witness :
    ((swap_layers two_stages 0 1).stages 0).layers_ = [(20, 7)] ∧
    ((swap_layers two_stages 0 1).stages 1).layers_ = [(10, 0)] := by
  obtain ⟨h1, h2, _⟩ := (swap_layers_spec two_stages 0 1).2 (by decide)
  exact ⟨h1, h2⟩

/-- C16: `draw` of a channel whose layers are in ascending order of index calls
`receive` once on every layer and returns the composite of the received frames
that are neither `eof` nor `empty`, in ascending order of the layer index. -/
theorem channel_draw_spec {L P : Type} [DecidableEq P] (receive : L → draw_frame P × L)
    (layers_ : List (Int × L)) (hsorted : (map_keys layers_).Sorted (fun a b => a < b)) :
    (channel_draw receive layers_).frames =
      ((layers_.map (fun entry => (entry.1, (receive entry.2).1))).filter
        (fun x => x.2 ≠ draw_frame.eof ∧ x.2 ≠ draw_frame.empty)).map Prod.snd ∧
    (((layers_.map (fun entry => (entry.1, (receive entry.2).1))).filter
        (fun x => x.2 ≠ draw_frame.eof ∧ x.2 ≠ draw_frame.empty)).map Prod.fst).Sorted
      (fun a b => a < b) ∧
    (channel_draw receive layers_).layers
      = layers_.map (fun entry => (entry.1, (receive entry.2).2)) ∧
    (∀ f ∈ (channel_draw receive layers_).frames,
      f ≠ draw_frame.eof ∧ f ≠ draw_frame.empty) := by
  have hframes : (channel_draw receive layers_).frames =
      ((layers_.map (fun entry => (entry.1, (receive entry.2).1))).filter
        (fun x => x.2 ≠ draw_frame.eof ∧ x.2 ≠ draw_frame.empty)).map Prod.snd := by
    simp only [channel_draw, List.filter_filter, List.filter_map, List.map_map]
    congr 1
    apply List.filter_congr
    intro x _
    simp [and_comm]
  refine ⟨hframes, ?_, rfl, ?_⟩
  · have hsub : (((layers_.map (fun entry => (entry.1, (receive entry.2).1))).filter
        (fun x => x.2 ≠ draw_frame.eof ∧ x.2 ≠ draw_frame.empty)).map Prod.fst).Sublist
        (map_keys layers_) := by
      have h0 : ((layers_.map (fun entry => (entry.1, (receive entry.2).1))).filter
          (fun x => x.2 ≠ draw_frame.eof ∧ x.2 ≠ draw_frame.empty)).Sublist
          (layers_.map (fun entry => (entry.1, (receive entry.2).1))) :=
        List.filter_sublist _
      have h1 := h0.map Prod.fst
      simpa [map_keys, List.map_map] using h1
    exact List.Pairwise.sublist hsub hsorted
  · intro f hf
    rw [hframes] at hf
    simp only [List.mem_map, List.mem_filter] at hf
    obtain ⟨x, ⟨_, hx⟩, rfl⟩ := hf
    simpa using hx

/-- The theorem `channel_draw_spec` on a channel with three layers, of which the
second is at its end and the third is past it. -/
theorem channel_draw_spec_witness :
    (channel_draw ending_receive [(1, 0), (2, 1), (3, 2)]).frames
      = [draw_frame.produced 0] := by
  rw [(channel_draw_spec ending_receive [(1, 0), (2, 1), (3, 2)]
    (by simp [map_keys])).1]
  simp [ending_receive]

/-- C17 fails on the code: on a producer that is not looping, at frame 10 of a
file of 100 frames, `nb_frames` returns 10, the member `info_.number`, and not
the length 100, the member `info_.count`. -/
theorem nb_frames_returns_number :
    producer_10_of_100.info_.loop = false ∧
    producer_10_of_100.info_.count = 100 ∧
    producer_10_of_100.info_.number = 10 ∧
    nb_frames producer_10_of_100 = 10 := by
  refine ⟨rfl, rfl, rfl, ?_⟩
  simp [nb_frames, producer_10_of_100]

/-- Rounding to the nearest there and back: rescaling by B/C and then by C/B, for
0 < C < B, gives back every n >= 0. -/
theorem rescale_there_and_back (n B C : Int) (hC : 0 < C) (hB : C < B) (_hn : 0 ≤ n) :
    ((n * B + C / 2) / C * C + B / 2) / B = n := by
  have h1 : (n * B + C / 2) / C * C ≤ n * B + C / 2 := Int.ediv_mul_le _ (by omega)
  have h2 : n * B + C / 2 < ((n * B + C / 2) / C + 1) * C :=
    Int.lt_ediv_add_one_mul_self _ hC
  rw [add_mul, one_mul] at h2
  generalize (n * B + C / 2) / C * C = p at h1 h2 ⊢
  have hr : p + B / 2 = (p + B / 2 - n * B) + B * n := by ring
  have hnb : n * B = B * n := mul_comm _ _
  rw [hr, Int.add_mul_ediv_left _ _ (by omega : B ≠ 0)]
  have h3 : (p + B / 2 - n * B) / B = 0 := by
    apply Int.ediv_eq_zero_of_lt
    · omega
    · omega
  rw [h3, zero_add]

theorem rescale_ge (n B C : Int) (hC : 0 < C) (hB : C < B) (hn : 0 ≤ n) :
    n ≤ (n * B + C / 2) / C := by
  apply Int.le_ediv_of_mul_le hC
  have h : n * C ≤ n * B := mul_le_mul_of_nonneg_left (le_of_lt hB) hn
  omega

/-- Frames to time stamp and back, when the time stamp is representable. -/
theorem to_frames_from_frames (format_desc : video_format_desc) (n : Int)
    (hT : 0 < format_desc.time_scale)
    (hq : (format_desc.time_scale : Int) < (format_desc.duration : Int) * AV_TIME_BASE)
    (hn : 0 ≤ n)
    (hfit : (n * ((format_desc.duration : Int) * AV_TIME_BASE)
        + (format_desc.time_scale : Int) / 2) / (format_desc.time_scale : Int) ≤ INT64_MAX) :
    from_frames format_desc n =
      (n * ((format_desc.duration : Int) * AV_TIME_BASE)
        + (format_desc.time_scale : Int) / 2) / (format_desc.time_scale : Int) ∧
    to_frames format_desc (from_frames format_desc n) = n := by
  have hC : (0 : Int) < (format_desc.time_scale : Int) := by exact_mod_cast hT
  have hD : (0 : Int) ≤ (format_desc.duration : Int) := Int.natCast_nonneg _
  have hB0 : (0 : Int) ≤ (format_desc.duration : Int) * AV_TIME_BASE :=
    mul_nonneg hD (by unfold AV_TIME_BASE; omega)
  have hge := rescale_ge n _ _ hC hq hn
  have hback := rescale_there_and_back n _ _ hC hq hn
  have hfrom : from_frames format_desc n =
      (n * ((format_desc.duration : Int) * AV_TIME_BASE)
        + (format_desc.time_scale : Int) / 2) / (format_desc.time_scale : Int) := by
    simp only [from_frames, av_rescale_q, av_rescale_rnd_near_inf, one_mul]
    rw [if_neg (not_or.mpr ⟨not_le.mpr hC, not_lt.mpr hB0⟩), if_pos hn, if_pos hfit]
  refine ⟨hfrom, ?_⟩
  rw [hfrom]
  simp only [to_frames, av_rescale_q, av_rescale_rnd_near_inf, one_mul]
  rw [if_neg (not_or.mpr ⟨not_le.mpr (lt_trans hC hq), not_lt.mpr (le_of_lt hC)⟩),
    if_pos (le_trans hn hge), hback, if_pos (le_trans hge hfit)]

/-- C19 (as amended): for a video format whose frame lasts longer than one
microsecond (time_scale < duration · 10^6) and a frame count n >= 0 whose time
stamp n · duration · 10^6 / time_scale, rounded to the nearest, does not exceed
INT64_MAX, `to_frames(from_frames(n)) = n`. -/
theorem frames_round_trip (format_desc : video_format_desc) (n : Int)
    (hT : 0 < format_desc.time_scale)
    (hq : (format_desc.time_scale : Int) < (format_desc.duration : Int) * AV_TIME_BASE)
    (hn : 0 ≤ n)
    (hfit : (n * ((format_desc.duration : Int) * AV_TIME_BASE)
        + (format_desc.time_scale : Int) / 2) / (format_desc.time_scale : Int) ≤ INT64_MAX) :
    to_frames format_desc (from_frames format_desc n) = n :=
  (to_frames_from_frames format_desc n hT hq hn hfit).2

/-- The theorem `frames_round_trip` at 25 frames a second and frame 250. -/
theorem frames_round_trip_witness :
    to_frames format_1080p25 (from_frames format_1080p25 250) = 250 :=
  frames_round_trip format_1080p25 250 (by decide) (by decide) (by decide) (by decide)

/-- C19 as stated fails for a frame count whose time stamp does not fit
`int64_t`: at 25 frames a second and n = 2^62, `from_frames` returns INT64_MIN and
`to_frames` of it is not n. -/
theorem frames_round_trip_counterexample :
    ((format_1080p25.time_scale : Int) < (format_1080p25.duration : Int) * AV_TIME_BASE ∧
      (0 : Int) ≤ 4611686018427387904 ∧ (4611686018427387904 : Int) ≤ INT64_MAX) ∧
    from_frames format_1080p25 4611686018427387904 = INT64_MIN ∧
    to_frames format_1080p25 (from_frames format_1080p25 4611686018427387904)
      = -230584300921369 ∧
    to_frames format_1080p25 (from_frames format_1080p25 4611686018427387904)
      ≠ 4611686018427387904 := by
  decide

/-- C20 (as amended): when the buffer of the producer is empty, `receive_impl`
tags `underflow` on the diagnostics graph, sends nothing to the monitor, leaves
the producer and its `info_` as they are, and returns the frame of a
default-constructed `Info`, which is `draw_frame::late()`. -/
theorem receive_impl_underflow {P : Type} (p : ffmpeg_producer P) (h : p.buffer_ = []) :
    (receive_impl p).frame = draw_frame.late ∧
    (receive_impl p).producer = p ∧
    (receive_impl p).producer.info_ = p.info_ ∧
    graph_call.set_tag_warning "underflow" ∈ (receive_impl p).graph ∧
    (receive_impl p).monitor = [] := by
  simp [receive_impl, h, Info.default]

/-- The theorem `receive_impl_underflow` on the producer at frame 10 of 100, whose
buffer is empty. -/
theorem receive_impl_underflow_witness :
    (receive_impl producer_10_of_100).frame = draw_frame.late ∧
    (receive_impl producer_10_of_100).producer.info_ = producer_10_of_100.info_ :=
  ⟨(receive_impl_underflow producer_10_of_100 rfl).1,
   (receive_impl_underflow producer_10_of_100 rfl).2.2.1⟩

/-- C20 as stated fails in what is returned: on the producer at frame 10 of 100,
whose buffer is empty, `receive_impl` returns `draw_frame::late()`, which is not
the empty frame. -/
theorem receive_impl_underflow_counterexample :
    producer_10_of_100.buffer_ = [] ∧
    (receive_impl producer_10_of_100).frame = draw_frame.late ∧
    (receive_impl producer_10_of_100).frame ≠ draw_frame.empty := by
  refine ⟨rfl, rfl, ?_⟩
  simp [receive_impl, producer_10_of_100, Info.default]

/-! ## Theorems: one tick, layer by layer -/

theorem map_keys_assign_mem {V : Type} (m : List (Int × V)) (k : Int) (v : V) (j : Int) :
    j ∈ map_keys (map_assign m k v) ↔ j = k ∨ j ∈ map_keys m := by
  induction m with
  | nil => simp [map_assign, map_keys]
  | cons e rest ih =>
    obtain ⟨k0, v0⟩ := e
    unfold map_assign
    by_cases h1 : k < k0
    · simp [h1, map_keys]
    · by_cases h2 : k = k0
      · subst h2
        simp [map_keys]
      · simp only [h1, h2, if_false]
        simp only [map_keys, List.map_cons, List.mem_cons] at ih ⊢
        rw [ih]
        tauto

theorem map_keys_assign_sorted {V : Type} (m : List (Int × V)) (k : Int) (v : V)
    (h : (map_keys m).Sorted (fun a b => a < b)) :
    (map_keys (map_assign m k v)).Sorted (fun a b => a < b) := by
  induction m with
  | nil => simp [map_assign, map_keys]
  | cons e rest ih =>
    obtain ⟨k0, v0⟩ := e
    have h0 : (∀ b ∈ map_keys rest, k0 < b) ∧ (map_keys rest).Sorted (fun a b => a < b) := by
      simpa [map_keys, List.Sorted] using h
    unfold map_assign
    by_cases h1 : k < k0
    · simp only [h1, if_true, map_keys, List.map_cons, List.Sorted, List.pairwise_cons]
      refine ⟨?_, ?_⟩
      · intro b hb
        rcases List.mem_cons.mp hb with hb | hb
        · rw [hb]; exact h1
        · exact lt_trans h1 (h0.1 b hb)
      · simpa [map_keys, List.Sorted] using h
    · by_cases h2 : k = k0
      · subst h2
        simpa [map_keys, List.Sorted] using h
      · simp only [h1, h2, if_false, map_keys, List.map_cons, List.Sorted,
          List.pairwise_cons]
        refine ⟨?_, ih h0.2⟩
        intro b hb
        rcases (map_keys_assign_mem rest k v b).mp hb with hb | hb
        · rw [hb]; omega
        · exact h0.1 b hb

theorem map_find_isSome_iff {V : Type} (m : List (Int × V)) (j : Int) :
    (map_find m j).isSome = true ↔ j ∈ map_keys m := by
  induction m with
  | nil => simp [map_find, map_keys]
  | cons e rest ih =>
    obtain ⟨k0, v0⟩ := e
    unfold map_find
    by_cases h : j = k0
    · simp [h, map_keys]
    · simp only [h, if_false, ih]
      simp [map_keys, h]

section tick_layers_theorems

variable {L P Tw : Type}
variable (tween : ℚ → frame_transform → frame_transform → ℚ → Tw → frame_transform)
variable (get_tweener : String → Tw)
variable (receive : L → Nat → Option (basic_frame P × L))

/-- The frame that the body of the loop stores for a layer: the received frame
wrapped with the transform of the first fetch, interlaced with the same frame
wrapped with the transform of the second fetch when the format is not
progressive. -/
theorem tick_layer_outcome (format_desc : video_format_desc) (transforms : transform_map Tw)
    (entry : Int × L) (f : basic_frame P) (layer1 : L)
    (h : (tick_layer tween get_tweener receive format_desc transforms entry).outcome
      = some (f, layer1)) :
    ∃ frame,
      receive entry.2 (derive_flags format_desc
        ((transforms.get get_tweener entry.1).fetch_and_tick tween 1).1)
        = some (frame, layer1) ∧
      f = (if format_desc.field_mode = field_mode.progressive then
             basic_frame.wrap frame
               ((transforms.get get_tweener entry.1).fetch_and_tick tween 1).1
           else basic_frame.interlace
             (basic_frame.wrap frame
               ((transforms.get get_tweener entry.1).fetch_and_tick tween 1).1)
             (basic_frame.wrap frame
               (((transforms.get get_tweener entry.1).fetch_and_tick tween 1).2.fetch_and_tick
                 tween 1).1)
             format_desc.field_mode) := by
  rw [tick_layer_eq] at h
  simp only at h
  cases hr : receive entry.2 (derive_flags format_desc
      ((transforms.get get_tweener entry.1).fetch_and_tick tween 1).1) with
  | none => rw [hr] at h; simp at h
  | some r =>
    obtain ⟨frame, l2⟩ := r
    rw [hr] at h
    simp only at h
    by_cases hp : format_desc.field_mode = field_mode.progressive
    · simp only [hp, ne_eq, not_true_eq_false, if_false, Option.some.injEq,
        Prod.mk.injEq] at h
      exact ⟨frame, by rw [← h.2], by simp [hp, h.1]⟩
    · simp only [hp, ne_eq, not_false_eq_true, if_true, Option.some.injEq,
        Prod.mk.injEq] at h
      exact ⟨frame, by rw [← h.2], by simp [hp, h.1]⟩

/-- The loop over layers with distinct keys, when no `receive` raised. -/
theorem tick_loop_success (format_desc : video_format_desc) (layers : List (Int × L)) :
    ∀ (transforms : transform_map Tw) (frames0 frames : List (Int × basic_frame P)),
      (map_keys layers).Nodup →
      (tick_loop tween get_tweener receive format_desc transforms frames0 layers).frames
        = some frames →
      ((tick_loop tween get_tweener receive format_desc transforms frames0
          layers).calls.map Prod.fst = map_keys layers) ∧
      (∀ j, j ∈ map_keys frames ↔ j ∈ map_keys frames0 ∨ j ∈ map_keys layers) ∧
      ((map_keys frames0).Sorted (fun a b => a < b) →
        (map_keys frames).Sorted (fun a b => a < b)) ∧
      (∀ j, j ∉ map_keys layers → map_find frames j = map_find frames0 j) ∧
      (∀ i l, (i, l) ∈ layers → ∃ frame layer1,
        (tick_layer tween get_tweener receive format_desc transforms (i, l)).outcome
          = some (frame, layer1) ∧
        map_find frames i = some frame) := by
  induction layers with
  | nil =>
    intro transforms frames0 frames _ h
    simp only [tick_loop, Option.some.injEq] at h
    subst h
    simp [tick_loop, map_keys]
  | cons entry rest ih =>
    intro transforms frames0 frames hnd h
    have hnd1 : entry.1 ∉ map_keys rest ∧ (map_keys rest).Nodup := by
      simpa [map_keys] using hnd
    cases ho : (tick_layer tween get_tweener receive format_desc transforms entry).outcome with
    | none =>
      rw [tick_loop_cons_none tween get_tweener receive format_desc transforms frames0 entry
        rest ho] at h
      simp at h
    | some r =>
      obtain ⟨frame, layer1⟩ := r
      rw [tick_loop_cons_some tween get_tweener receive format_desc transforms frames0 entry
        rest frame layer1 ho] at h ⊢
      simp only at h
      obtain ⟨hcalls, hkeys, hsorted, hother, hmem⟩ :=
        ih (tick_layer tween get_tweener receive format_desc transforms entry).transforms
          (map_assign frames0 entry.1 frame) frames hnd1.2 h
      refine ⟨?_, ?_, ?_, ?_, ?_⟩
      · simp only [List.map_cons, map_keys] at hcalls ⊢
        rw [hcalls]
      · intro j
        rw [hkeys j, map_keys_assign_mem]
        simp only [map_keys, List.map_cons, List.mem_cons]
        tauto
      · intro hs
        exact hsorted (map_keys_assign_sorted frames0 entry.1 frame hs)
      · intro j hj
        have hj1 : j ≠ entry.1 ∧ j ∉ map_keys rest := by
          simpa [map_keys, not_or] using hj
        rw [hother j hj1.2, map_find_assign, if_neg hj1.1]
      · intro i l hil
        rcases List.mem_cons.mp hil with heq | hin
        · subst heq
          refine ⟨frame, layer1, ho, ?_⟩
          rw [hother i hnd1.1, map_find_assign, if_pos rfl]
        · have hne : i ≠ entry.1 := by
            intro hEq
            apply hnd1.1
            rw [← hEq]
            exact List.mem_map.mpr ⟨(i, l), hin, rfl⟩
          obtain ⟨frame2, layer2, h1, h2⟩ := hmem i l hin
          have hc := tick_layer_congr tween get_tweener receive format_desc transforms
            (tick_layer tween get_tweener receive format_desc transforms entry).transforms
            (i, l)
            (tick_layer_other tween get_tweener receive format_desc transforms entry i hne)
          exact ⟨frame2, layer2, by rw [← hc.2.1]; exact h1, h2⟩

/-- The map `frames` before the loop: one `empty` frame for every layer. -/
theorem frames_start_keys (layers : List (Int × L)) :
    ∀ (frames0 : List (Int × basic_frame P)),
      (∀ j, j ∈ map_keys (layers.foldl
          (fun m entry => map_assign m entry.1 basic_frame.empty) frames0) ↔
        j ∈ map_keys frames0 ∨ j ∈ map_keys layers) ∧
      ((map_keys frames0).Sorted (fun a b => a < b) →
        (map_keys (layers.foldl
          (fun m entry => map_assign m entry.1 basic_frame.empty) frames0)).Sorted
          (fun a b => a < b)) := by
  induction layers with
  | nil =>
    intro frames0
    simp [map_keys]
  | cons entry rest ih =>
    intro frames0
    obtain ⟨h1, h2⟩ := ih (map_assign frames0 entry.1 basic_frame.empty)
    refine ⟨?_, ?_⟩
    · intro j
      simp only [List.foldl_cons]
      rw [h1 j, map_keys_assign_mem]
      simp only [map_keys, List.map_cons, List.mem_cons]
      tauto
    · intro hs
      simp only [List.foldl_cons]
      exact h2 (map_keys_assign_sorted frames0 entry.1 basic_frame.empty hs)

theorem sorted_keys_eq (a b : List Int) (ha : a.Sorted (fun x y => x < y))
    (hb : b.Sorted (fun x y => x < y)) (h : ∀ j, j ∈ a ↔ j ∈ b) : a = b := by
  have hp : a.Perm b := (List.perm_ext_iff_of_nodup ha.nodup hb.nodup).mpr h
  exact List.eq_of_perm_of_sorted hp ha hb

/-- C21: in a tick that does not raise, on a stage whose layer map is in
ascending order of index, `receive` is called once for every layer of the map, in
that order; the bundle has one frame for every layer index and no other; and the
frame of a layer is the one frame received from it, wrapped once for a
progressive format and twice, for the two fields of the interlaced frame,
otherwise. -/
theorem tick_receives_each_layer_once (s : stage_impl L Tw)
    (hsorted : (map_keys s.layers_).Sorted (fun a b => a < b))
    (frames : List (Int × basic_frame P))
    (hb : (tick tween get_tweener receive s).bundle = some frames) :
    (tick tween get_tweener receive s).calls.map Prod.fst = map_keys s.layers_ ∧
    map_keys frames = map_keys s.layers_ ∧
    (∀ i l, (i, l) ∈ s.layers_ → ∃ frame layer1 t1 t2,
      receive l (derive_flags s.format_desc_ t1) = some (frame, layer1) ∧
      map_find frames i =
        some (if s.format_desc_.field_mode = field_mode.progressive then
                basic_frame.wrap frame t1
              else basic_frame.interlace (basic_frame.wrap frame t1)
                (basic_frame.wrap frame t2) s.format_desc_.field_mode)) := by
  have hloop : (tick_loop tween get_tweener receive s.format_desc_ s.transforms_
      (s.layers_.foldl (fun m entry => map_assign m entry.1 basic_frame.empty) [])
      s.layers_).frames = some frames := by
    simp only [tick] at hb
    split at hb
    · rename_i fr hfr
      simp only [Option.some.injEq] at hb
      rw [hfr, hb]
    · simp at hb
  have hcalls : (tick tween get_tweener receive s).calls
      = (tick_loop tween get_tweener receive s.format_desc_ s.transforms_
          (s.layers_.foldl (fun m entry => map_assign m entry.1 basic_frame.empty) [])
          s.layers_).calls := by
    simp only [tick]
    split <;> rfl
  obtain ⟨h1, h2, h3, _, h5⟩ := tick_loop_success tween get_tweener receive s.format_desc_
    s.layers_ s.transforms_ _ frames hsorted.nodup hloop
  obtain ⟨g1, g2⟩ := frames_start_keys s.layers_ ([] : List (Int × basic_frame P))
  refine ⟨by rw [hcalls]; exact h1, ?_, ?_⟩
  · apply sorted_keys_eq _ _ (h3 (g2 (by simp [map_keys]))) hsorted
    intro j
    rw [h2 j, g1 j]
    simp [map_keys]
  · intro i l hil
    obtain ⟨f, layer1, ho, hfind⟩ := h5 i l hil
    obtain ⟨frame, hr, hf⟩ := tick_layer_outcome tween get_tweener receive s.format_desc_
      s.transforms_ (i, l) f layer1 ho
    exact ⟨frame, layer1, _, _, hr, by rw [hfind, hf]⟩

theorem tick_layer_keeps_entries (format_desc : video_format_desc)
    (transforms : transform_map Tw) (entry : Int × L) (j : Int)
    (h : (transforms j).isSome = true) :
    ((tick_layer tween get_tweener receive format_desc transforms entry).transforms
      j).isSome = true := by
  rw [tick_layer_eq]
  simp only
  split
  · simp only [transform_map.set]
    split <;> simp [h]
  · split
    · simp only [transform_map.set]
      split <;> simp [h]
    · simp only [transform_map.set]
      split <;> simp [h]

/-- The loop keeps the entries of `transforms_`, and ends without frames when the
`receive` of one of the layers raises. -/
theorem tick_loop_raise (format_desc : video_format_desc) (layers : List (Int × L)) :
    ∀ (transforms : transform_map Tw) (frames0 : List (Int × basic_frame P)),
      (∀ j, (transforms j).isSome = true →
        ((tick_loop tween get_tweener receive format_desc transforms frames0
          layers).transforms j).isSome = true) ∧
      (∀ i l, (i, l) ∈ layers → (∀ flags, receive l flags = none) →
        (tick_loop tween get_tweener receive format_desc transforms frames0 layers).frames
          = none) := by
  induction layers with
  | nil =>
    intro transforms frames0
    refine ⟨fun j h => by simpa [tick_loop] using h, ?_⟩
    intro i l hil
    simp at hil
  | cons entry rest ih =>
    intro transforms frames0
    cases ho : (tick_layer tween get_tweener receive format_desc transforms entry).outcome with
    | none =>
      rw [tick_loop_cons_none tween get_tweener receive format_desc transforms frames0 entry
        rest ho]
      refine ⟨?_, fun _ _ _ _ => rfl⟩
      intro j h
      exact tick_layer_keeps_entries tween get_tweener receive format_desc transforms entry
        j h
    | some r =>
      obtain ⟨frame, layer1⟩ := r
      rw [tick_loop_cons_some tween get_tweener receive format_desc transforms frames0 entry
        rest frame layer1 ho]
      obtain ⟨h1, h2⟩ :=
        ih (tick_layer tween get_tweener receive format_desc transforms entry).transforms
          (map_assign frames0 entry.1 frame)
      refine ⟨?_, ?_⟩
      · intro j h
        exact h1 j (tick_layer_keeps_entries tween get_tweener receive format_desc
          transforms entry j h)
      · intro i l hil hraise
        rcases List.mem_cons.mp hil with heq | hin
        · subst heq
          obtain ⟨fr, hr, _⟩ := tick_layer_outcome tween get_tweener receive format_desc
            transforms (i, l) frame layer1 ho
          rw [hraise] at hr
          simp at hr
        · exact h2 i l hin hraise

/-- C22: when the `receive` of a layer of the stage raises, the tick sends no
bundle and leaves the layer map empty, and every index that had an entry in the
transform map still has one. -/
theorem tick_raise_clears_layers (s : stage_impl L Tw) (i : Int) (l : L)
    (hmem : (i, l) ∈ s.layers_) (hraise : ∀ flags, receive l flags = none) :
    (tick tween get_tweener receive s).bundle = none ∧
    (tick tween get_tweener receive s).stage.layers_ = [] ∧
    (∀ j, (s.transforms_ j).isSome = true →
      ((tick tween get_tweener receive s).stage.transforms_ j).isSome = true) := by
  obtain ⟨h1, h2⟩ := tick_loop_raise tween get_tweener receive s.format_desc_ s.layers_
    s.transforms_
    (s.layers_.foldl (fun m entry => map_assign m entry.1 basic_frame.empty) [])
  have hnone := h2 i l hmem hraise
  refine ⟨by simp only [tick, hnone], by simp only [tick, hnone], ?_⟩
  intro j hj
  simp only [tick, hnone]
  exact h1 j hj

end tick_layers_theorems

/-- The theorem `tick_receives_each_layer_once` on the interlaced stage with one
layer. -/
theorem tick_receives_each_layer_once_witness :
    ∃ frames,
      (tick tween_frame_transform get_tweener_double counting_receive stage_1080i50).bundle
        = some frames ∧
      (tick tween_frame_transform get_tweener_double counting_receive
        stage_1080i50).calls.map Prod.fst = [10] ∧
      map_keys frames = [10] := by
  obtain ⟨frames, hb, _⟩ := tick_spec tween_frame_transform get_tweener_double
    counting_receive (fun _ _ => rfl) stage_1080i50 (by decide)
  obtain ⟨h1, h2, _⟩ := tick_receives_each_layer_once tween_frame_transform
    get_tweener_double counting_receive stage_1080i50 (by simp [stage_1080i50, map_keys])
    frames hb
  exact ⟨frames, hb, h1, h2⟩

/-- The theorem `tick_raise_clears_layers` on the progressive stage with one
layer, whose `receive` raises. -/
theorem tick_raise_clears_layers_witness :
    (tick tween_frame_transform get_tweener_double raising_receive stage_1080p25).bundle
      = none ∧
    (tick tween_frame_transform get_tweener_double raising_receive
      stage_1080p25).stage.layers_ = [] := by
  obtain ⟨h1, h2, _⟩ := tick_raise_clears_layers tween_frame_transform get_tweener_double
    raising_receive stage_1080p25 10 0 (by simp [stage_1080p25]) (fun _ => rfl)
  exact ⟨h1, h2⟩

/-! ## Theorems: `create_producer` -/

/-- What `create_producer` passes on for IN = i, LENGTH = L and, in the third
part, OUT = o with i <= o: the start exactly when i is not 0; without OUT the
duration of L frames exactly when L < 2^32 - 1 - i; with OUT the duration of
o - i frames. -/
theorem create_producer_in_range (format_desc : video_format_desc) (i L : Nat)
    (hi : i ≤ UINT32_MAX) (hL : L ≤ UINT32_MAX) :
    ((create_producer format_desc none (some i) (some L) none).start
      = if i ≠ 0 then some (from_frames format_desc (i : Int)) else none) ∧
    ((create_producer format_desc none (some i) (some L) none).duration
      = if L < UINT32_MAX - i then some (from_frames format_desc (L : Int)) else none) ∧
    (∀ o, o < UINT32_MAX → i ≤ o →
      (create_producer format_desc none (some i) (some L) (some o)).duration
        = some (from_frames format_desc ((o - i : Nat) : Int))) := by
  unfold UINT32_MAX at hi hL
  refine ⟨?_, ?_, ?_⟩
  · simp [create_producer, from_frames]
  · simp only [create_producer, from_frames, Option.getD_some, Option.getD_none, UINT32_MAX]
    by_cases h : L < 4294967295 - i
    · have h1 : (L + i) % 4294967296 = L + i := Nat.mod_eq_of_lt (by omega)
      have h2 : L + i ≠ 4294967295 := by omega
      have h3 : (L + i + 4294967296 - i) % 4294967296 = L := by
        have : L + i + 4294967296 - i = L + 4294967296 := by omega
        rw [this]
        omega
      simp only [h, if_true, h1, h2, ne_eq, not_false_eq_true, h3]
    · simp [h]
  · intro o ho hio
    unfold UINT32_MAX at ho
    simp only [create_producer, from_frames, Option.getD_some, UINT32_MAX]
    have h3 : (o + 4294967296 - i) % 4294967296 = o - i := by omega
    have h4 : o ≠ 4294967295 := by omega
    simp only [h4, ne_eq, not_false_eq_true, if_true, h3]

/-- C23 fails on the code when OUT is below IN: at 25 frames a second, IN = 10
and OUT = 5, the duration passed on is that of 2^32 - 5 = 4294967291 frames, the
`uint32_t` difference `out - in` having wrapped around; 5 frames, the largest
count that the claim allows, are 200000 microseconds. -/
theorem create_producer_out_below_in :
    create_producer format_1080p25 none (some 10) none (some 5)
      = { start := some 400000, duration := some 171798691640000 } ∧
    from_frames format_1080p25 4294967291 = 171798691640000 ∧
    from_frames format_1080p25 5 = 200000 := by
  decide

/-! ## Theorems: the commands of the stage on its layers -/

theorem map_keys_touch_mem {V : Type} (m : List (Int × V)) (k : Int) (dflt : V) (j : Int) :
    j ∈ map_keys (map_touch m k dflt) ↔ j = k ∨ j ∈ map_keys m := by
  unfold map_touch
  cases h : map_find m k with
  | none => exact map_keys_assign_mem m k dflt j
  | some v =>
    have hk : k ∈ map_keys m := (map_find_isSome_iff m k).mp (by simp [h])
    simp only
    constructor
    · exact fun hj => Or.inr hj
    · rintro (hj | hj)
      · rw [hj]; exact hk
      · exact hj

theorem map_keys_erase_mem {V : Type} (m : List (Int × V)) (k : Int) (j : Int) :
    j ∈ map_keys (map_erase m k) ↔ j ≠ k ∧ j ∈ map_keys m := by
  simp only [map_keys, map_erase, List.mem_map, List.mem_filter]
  constructor
  · rintro ⟨e, ⟨he, hne⟩, rfl⟩
    exact ⟨by simpa using hne, e, he, rfl⟩
  · rintro ⟨hne, e, he, rfl⟩
    exact ⟨e, ⟨he, by simpa using hne⟩, rfl⟩

theorem begin_invoke_layer_missing {L : Type} (layers_ : List (Int × L)) (index : Int)
    (func : L → L) (h : index ∉ map_keys layers_) :
    begin_invoke_layer layers_ index func = layers_ := by
  unfold begin_invoke_layer
  cases hf : map_find layers_ index with
  | none => rfl
  | some v =>
    exact absurd ((map_find_isSome_iff layers_ index).mp (by simp [hf])) h

section stage_command_theorems

variable {L P PR Tw : Type}
variable (tween : ℚ → frame_transform → frame_transform → ℚ → Tw → frame_transform)
variable (get_tweener : String → Tw)
variable (receive : L → Nat → Option (basic_frame P × L))

/-- The frame of a layer in the next bundle, from the entry of `transforms_` at
the index of the layer. -/
theorem tick_frame_of_layer (hrecv : ∀ l flags, (receive l flags).isSome = true)
    (s : stage_impl L Tw) (hnd : (map_keys s.layers_).Nodup) (i : Int) (l : L)
    (hmem : (i, l) ∈ s.layers_) :
    ∃ frames frame,
      (tick tween get_tweener receive s).bundle = some frames ∧
      map_find frames i =
        some (if s.format_desc_.field_mode = field_mode.progressive then
                basic_frame.wrap frame
                  ((s.transforms_.get get_tweener i).fetch_and_tick tween 1).1
              else basic_frame.interlace
                (basic_frame.wrap frame
                  ((s.transforms_.get get_tweener i).fetch_and_tick tween 1).1)
                (basic_frame.wrap frame
                  (((s.transforms_.get get_tweener i).fetch_and_tick tween 1).2.fetch_and_tick
                    tween 1).1)
                s.format_desc_.field_mode) := by
  obtain ⟨frames, hb, _, _, _, hl⟩ := tick_spec tween get_tweener receive hrecv s hnd
  obtain ⟨f, layer1, ho, hfind, _, _⟩ := hl i l hmem
  obtain ⟨frame, _, hf⟩ := tick_layer_outcome tween get_tweener receive s.format_desc_
    s.transforms_ (i, l) f layer1 ho
  exact ⟨frames, frame, hb, by rw [hfind, hf]⟩

/-- C24: the commands of `clear(index)`, `clear()`, `swap_layer(index,
other_index)` and `swap_layers(other)` leave the transform map (and the format)
of the stage as it is; in the next tick the frame of a layer at index i carries
the transform fetched from the entry that the transform map had for i before the
command, whichever layer is at i now. -/
theorem layer_commands_keep_transforms (m : layer_members L PR)
    (hrecv : ∀ l flags, (receive l flags).isSome = true)
    (stages : Nat → stage_impl L Tw) (self other : Nat) (index other_index : Int)
    (s1 : stage_impl L Tw)
    (hop : s1 = (stages self).clear index ∨ s1 = (stages self).clear_all ∨
      s1 = (stages self).swap_layer m index other_index ∨
      s1 = (swap_layers stages self other).stages self) :
    s1.transforms_ = (stages self).transforms_ ∧
    s1.format_desc_ = (stages self).format_desc_ ∧
    (∀ i l, (map_keys s1.layers_).Nodup → (i, l) ∈ s1.layers_ →
      ∃ frames frame,
        (tick tween get_tweener receive s1).bundle = some frames ∧
        map_find frames i =
          some (if (stages self).format_desc_.field_mode = field_mode.progressive then
                  basic_frame.wrap frame
                    (((stages self).transforms_.get get_tweener i).fetch_and_tick tween 1).1
                else basic_frame.interlace
                  (basic_frame.wrap frame
                    (((stages self).transforms_.get get_tweener i).fetch_and_tick tween 1).1)
                  (basic_frame.wrap frame
                    ((((stages self).transforms_.get get_tweener i).fetch_and_tick
                      tween 1).2.fetch_and_tick tween 1).1)
                  (stages self).format_desc_.field_mode)) := by
  have h1 : s1.transforms_ = (stages self).transforms_ ∧
      s1.format_desc_ = (stages self).format_desc_ := by
    rcases hop with h | h | h | h
    · rw [h]; exact ⟨rfl, rfl⟩
    · rw [h]; exact ⟨rfl, rfl⟩
    · rw [h]; exact ⟨rfl, rfl⟩
    · rw [h]
      unfold swap_layers
      by_cases hs : other = self
      · simp [hs]
      · simp [hs]
  refine ⟨h1.1, h1.2, ?_⟩
  intro i l hnd hmem
  have h := tick_frame_of_layer tween get_tweener receive hrecv s1 hnd i l hmem
  rw [h1.1, h1.2] at h
  exact h

/-- C25 (as amended): on an index that has no layer, the commands of `play`,
`pause`, `stop`, `foreground`, `background`, `info(index)` and `call` of the
stage add the index to the layer map and no other (the layer is
default-constructed by `layers_[index]`), and so does the command of `load`,
while `begin_invoke_layer` of the channel leaves its layer map as it is;
`clear(index)` removes the index. -/
theorem stage_commands_create_layer (m : layer_members L PR) (s : stage_impl L Tw)
    (index : Int) (hmiss : index ∉ map_keys s.layers_) (s1 : stage_impl L Tw)
    (hop : s1 = s.play m index ∨ s1 = s.pause m index ∨ s1 = s.stop m index ∨
      s1 = s.foreground m index ∨ s1 = s.background m index ∨ s1 = s.info m index ∨
      (∃ fg param, s1 = s.call m index fg param) ∨
      ∃ producer preview auto_play_delta,
        s1 = s.load m index producer preview auto_play_delta) :
    index ∈ map_keys s1.layers_ ∧
    (∀ j, j ∈ map_keys s1.layers_ ↔ j = index ∨ j ∈ map_keys s.layers_) ∧
    (∃ v, map_find s1.layers_ index = some v ∧
      (v = m.new_layer ∨ v = m.play m.new_layer ∨ v = m.pause m.new_layer ∨
       v = m.stop m.new_layer ∨ (∃ fg param, v = m.call m.new_layer fg param) ∨
       ∃ producer preview auto_play_delta,
         v = m.load m.new_layer producer preview auto_play_delta)) ∧
    (∀ func : L → L, begin_invoke_layer s.layers_ index func = s.layers_) ∧
    index ∉ map_keys (s1.clear index).layers_ := by
  have hnone : map_find s.layers_ index = none := by
    cases hf : map_find s.layers_ index with
    | none => rfl
    | some v => exact absurd ((map_find_isSome_iff s.layers_ index).mp (by simp [hf])) hmiss
  have hat : map_at s.layers_ index m.new_layer = m.new_layer := by
    simp [map_at, hnone]
  have htouch : map_find (map_touch s.layers_ index m.new_layer) index
      = some m.new_layer := by
    simp only [map_touch, hnone]
    rw [map_find_assign, if_pos rfl]
  have hvalue : ∃ v, map_find s1.layers_ index = some v ∧
      (v = m.new_layer ∨ v = m.play m.new_layer ∨ v = m.pause m.new_layer ∨
       v = m.stop m.new_layer ∨ (∃ fg param, v = m.call m.new_layer fg param) ∨
       ∃ producer preview auto_play_delta,
         v = m.load m.new_layer producer preview auto_play_delta) := by
    rcases hop with h | h | h | h | h | h | ⟨fg, param, h⟩ | ⟨producer, preview, delta, h⟩
    · exact ⟨m.play m.new_layer,
        by rw [h]; simp only [stage_impl.play, hat]; rw [map_find_assign, if_pos rfl],
        Or.inr (Or.inl rfl)⟩
    · exact ⟨m.pause m.new_layer,
        by rw [h]; simp only [stage_impl.pause, hat]; rw [map_find_assign, if_pos rfl],
        Or.inr (Or.inr (Or.inl rfl))⟩
    · exact ⟨m.stop m.new_layer,
        by rw [h]; simp only [stage_impl.stop, hat]; rw [map_find_assign, if_pos rfl],
        Or.inr (Or.inr (Or.inr (Or.inl rfl)))⟩
    · exact ⟨m.new_layer, by rw [h]; exact htouch, Or.inl rfl⟩
    · exact ⟨m.new_layer, by rw [h]; exact htouch, Or.inl rfl⟩
    · exact ⟨m.new_layer, by rw [h]; exact htouch, Or.inl rfl⟩
    · exact ⟨m.call m.new_layer fg param,
        by rw [h]; simp only [stage_impl.call, hat]; rw [map_find_assign, if_pos rfl],
        Or.inr (Or.inr (Or.inr (Or.inr (Or.inl ⟨fg, param, rfl⟩))))⟩
    · exact ⟨m.load m.new_layer producer preview delta,
        by rw [h]; simp only [stage_impl.load, hat]; rw [map_find_assign, if_pos rfl],
        Or.inr (Or.inr (Or.inr (Or.inr (Or.inr ⟨producer, preview, delta, rfl⟩))))⟩
  have hkeys : ∀ j, j ∈ map_keys s1.layers_ ↔ j = index ∨ j ∈ map_keys s.layers_ := by
    intro j
    rcases hop with h | h | h | h | h | h | ⟨fg, param, h⟩ | ⟨producer, preview, delta, h⟩ <;>
      rw [h] <;>
      simp only [stage_impl.play, stage_impl.pause, stage_impl.stop, stage_impl.foreground,
        stage_impl.background, stage_impl.info, stage_impl.call, stage_impl.load,
        map_keys_assign_mem, map_keys_touch_mem] <;> tauto
  refine ⟨(hkeys index).mpr (Or.inl rfl), hkeys, hvalue,
    fun func => begin_invoke_layer_missing s.layers_ index func hmiss, ?_⟩
  simp only [stage_impl.clear, map_keys_erase_mem]
  tauto

end stage_command_theorems

/-- The theorem `layer_commands_keep_transforms` on the server with two stages:
after `swap_layer(10, 20)` on stage 0 the transform map is as before. -/
theorem layer_commands_keep_transforms_witness :
    ((two_stages 0).swap_layer counter_members 10 20).transforms_
      = (two_stages 0).transforms_ :=
  (layer_commands_keep_transforms tween_frame_transform get_tweener_double
    counting_receive counter_members (fun _ _ => rfl) two_stages 0 1 10 20 _
    (Or.inr (Or.inr (Or.inl rfl)))).1

/-- The theorem `stage_commands_create_layer` on the progressive stage with one
layer, at index 10: `play(11)` and `load(11, ...)`. -/
theorem stage_commands_create_layer_witness :
    (11 : Int) ∈ map_keys (stage_1080p25.play counter_members 11).layers_ ∧
    (11 : Int) ∈ map_keys (stage_1080p25.load counter_members 11 () false 0).layers_ :=
  ⟨(stage_commands_create_layer counter_members stage_1080p25 11
      (by simp [stage_1080p25, map_keys]) _ (Or.inl rfl)).1,
   (stage_commands_create_layer counter_members stage_1080p25 11
      (by simp [stage_1080p25, map_keys]) _
      (Or.inr (Or.inr (Or.inr (Or.inr (Or.inr (Or.inr (Or.inr ⟨(), false, 0, rfl⟩)))))))).1⟩

/-- C25 as stated fails: on the progressive stage whose one layer is at index 10,
`play(11)` leaves layers at the indices 10 and 11, while `begin_invoke_layer` of
the channel on the same layer map leaves the index 10 alone. -/
theorem stage_play_creates_layer_counterexample :
    map_keys stage_1080p25.layers_ = [10] ∧
    map_keys (stage_1080p25.play counter_members 11).layers_ = [10, 11] ∧
    map_keys (begin_invoke_layer stage_1080p25.layers_ 11 counter_members.play) = [10] := by
  decide

/-! ## Theorems: the video decoder -/

section video_decoder_theorems

variable {D F AVF : Type}
variable (avcodec_decode_video2 : D → AVPacket → Int × Int × AVF × D)
variable (avcodec_flush_buffers : D → D)
variable (filter_execute : F → Option AVF → List AVF × F)

theorem decode_packet_size (d d1 : D) (pkt pkt1 : AVPacket) (frame : Option AVF)
    (h : decode avcodec_decode_video2 d pkt = some (frame, pkt1, d1)) : pkt1.size = 0 := by
  unfold decode at h
  simp only at h
  split at h
  · simp at h
  · split at h
    · simp only [Option.some.injEq, Prod.mk.injEq] at h
      rw [← h.2.1]
    · simp only [Option.some.injEq, Prod.mk.injEq] at h
      rw [← h.2.1]

theorem poll_result_no_eof (v : video_decoder D F) (frame : Option AVF) :
    none ∉ (poll_result filter_execute v frame false).1 := by
  simp [poll_result]

theorem poll_result_eof (v : video_decoder D F) :
    (poll_result filter_execute v none true).1.getLast? = some none ∧
    none ∉ (poll_result filter_execute v none true).1.dropLast := by
  simp [poll_result, List.dropLast_concat]

theorem poll_empty (blank : AVF) (v : video_decoder D F) (d : D)
    (hctx : v.codec_context_ = some d) (hbuf : v.packet_buffer_ = []) :
    poll avcodec_decode_video2 avcodec_flush_buffers filter_execute blank v
      = some ([], v) := by
  simp [poll, hctx, hbuf]

theorem poll_packet (blank : AVF) (v : video_decoder D F) (d d1 : D)
    (packet pkt1 : AVPacket) (rest : List (Option AVPacket)) (frame : Option AVF)
    (hctx : v.codec_context_ = some d) (hbuf : v.packet_buffer_ = some packet :: rest)
    (hd : decode avcodec_decode_video2 d packet = some (frame, pkt1, d1)) :
    poll avcodec_decode_video2 avcodec_flush_buffers filter_execute blank v
      = some ((poll_result filter_execute v frame false).1,
          { codec_context_ := some d1, cap_delay := v.cap_delay,
            packet_buffer_ := if pkt1.size = 0 then rest else some pkt1 :: rest,
            filter_ := (poll_result filter_execute v frame false).2 }) := by
  simp only [poll, hctx, hbuf, hd]

theorem poll_flush_frame (blank : AVF) (v : video_decoder D F) (d d1 : D)
    (pkt1 : AVPacket) (rest : List (Option AVPacket)) (fr : AVF)
    (hctx : v.codec_context_ = some d) (hbuf : v.packet_buffer_ = none :: rest)
    (hcap : v.cap_delay = true)
    (hd : decode avcodec_decode_video2 d { stream_index := 0, size := 0 }
      = some (some fr, pkt1, d1)) :
    poll avcodec_decode_video2 avcodec_flush_buffers filter_execute blank v
      = some ((poll_result filter_execute v (some fr) false).1,
          { codec_context_ := some d1, cap_delay := v.cap_delay,
            packet_buffer_ := none :: rest,
            filter_ := (poll_result filter_execute v (some fr) false).2 }) := by
  simp only [poll, hctx, hbuf, hcap, if_true, hd]

theorem poll_flush_end_delay (blank : AVF) (v : video_decoder D F) (d d1 : D)
    (pkt1 : AVPacket) (rest : List (Option AVPacket))
    (hctx : v.codec_context_ = some d) (hbuf : v.packet_buffer_ = none :: rest)
    (hcap : v.cap_delay = true)
    (hd : decode avcodec_decode_video2 d { stream_index := 0, size := 0 }
      = some (none, pkt1, d1)) :
    poll avcodec_decode_video2 avcodec_flush_buffers filter_execute blank v
      = some ((poll_result filter_execute v none true).1,
          { codec_context_ := some (avcodec_flush_buffers d1), cap_delay := v.cap_delay,
            packet_buffer_ := rest,
            filter_ := (poll_result filter_execute v none true).2 }) := by
  simp only [poll, hctx, hbuf, hcap, if_true, hd]

theorem poll_flush_end (blank : AVF) (v : video_decoder D F) (d : D)
    (rest : List (Option AVPacket))
    (hctx : v.codec_context_ = some d) (hbuf : v.packet_buffer_ = none :: rest)
    (hcap : ¬ v.cap_delay = true) :
    poll avcodec_decode_video2 avcodec_flush_buffers filter_execute blank v
      = some ((poll_result filter_execute v none true).1,
          { codec_context_ := some (avcodec_flush_buffers d), cap_delay := v.cap_delay,
            packet_buffer_ := rest,
            filter_ := (poll_result filter_execute v none true).2 }) := by
  simp only [poll, hctx, hbuf, hcap]
  rfl

/-- C26: a decoder with a codec context whose `decode` does not raise. `poll`
returns. With an empty buffer the result is empty and the decoder unchanged. With
a packet at the front, that packet and no other is removed and the result has no
null frame. With the flush packet at the front: when the codec has delayed frames
and delivers one, the flush packet stays queued and the result has no null frame;
otherwise the flush packet is removed and the result ends with a null frame, its
only one. -/
theorem poll_spec (blank : AVF) (v : video_decoder D F) (d : D)
    (hctx : v.codec_context_ = some d)
    (hdec : ∀ pkt, decode avcodec_decode_video2 d pkt ≠ none) :
    ∃ result v1,
      poll avcodec_decode_video2 avcodec_flush_buffers filter_execute blank v
        = some (result, v1) ∧
      (v.packet_buffer_ = [] → result = [] ∧ v1 = v) ∧
      (∀ packet rest, v.packet_buffer_ = some packet :: rest →
        v1.packet_buffer_ = rest ∧ none ∉ result) ∧
      (∀ rest, v.packet_buffer_ = none :: rest →
        ((v.cap_delay = true ∧ ∃ fr pkt1 d1,
            decode avcodec_decode_video2 d { stream_index := 0, size := 0 }
              = some (some fr, pkt1, d1)) →
          v1.packet_buffer_ = none :: rest ∧ none ∉ result) ∧
        (¬ (v.cap_delay = true ∧ ∃ fr pkt1 d1,
            decode avcodec_decode_video2 d { stream_index := 0, size := 0 }
              = some (some fr, pkt1, d1)) →
          v1.packet_buffer_ = rest ∧ result.getLast? = some none ∧
          none ∉ result.dropLast)) := by
  cases hbuf : v.packet_buffer_ with
  | nil =>
    refine ⟨[], v, poll_empty avcodec_decode_video2 avcodec_flush_buffers filter_execute
      blank v d hctx hbuf, ?_, ?_, ?_⟩
    · intro _; exact ⟨rfl, rfl⟩
    · intro packet rest h; simp at h
    · intro rest h; simp at h
  | cons front rest0 =>
    cases front with
    | some packet =>
      cases hd : decode avcodec_decode_video2 d packet with
      | none => exact absurd hd (hdec packet)
      | some r =>
        obtain ⟨frame, pkt1, d1⟩ := r
        have hsize := decode_packet_size avcodec_decode_video2 d d1 packet pkt1 frame hd
        refine ⟨_, _, poll_packet avcodec_decode_video2 avcodec_flush_buffers
          filter_execute blank v d d1 packet pkt1 rest0 frame hctx hbuf hd, ?_, ?_, ?_⟩
        · intro h; simp at h
        · intro packet2 rest h
          simp only [List.cons.injEq, Option.some.injEq] at h
          refine ⟨?_, poll_result_no_eof filter_execute v frame⟩
          simp [hsize, h.2]
        · intro rest h; simp at h
    | none =>
      by_cases hcap : v.cap_delay = true
      · cases hd : decode avcodec_decode_video2 d { stream_index := 0, size := 0 } with
        | none => exact absurd hd (hdec _)
        | some r =>
          obtain ⟨frame, pkt1, d1⟩ := r
          cases frame with
          | some fr =>
            refine ⟨_, _, poll_flush_frame avcodec_decode_video2 avcodec_flush_buffers
              filter_execute blank v d d1 pkt1 rest0 fr hctx hbuf hcap hd, ?_, ?_, ?_⟩
            · intro h; simp at h
            · intro packet rest h; simp at h
            · intro rest h
              simp only [List.cons.injEq, true_and] at h
              refine ⟨?_, ?_⟩
              · intro _
                exact ⟨by simp [h], poll_result_no_eof filter_execute v (some fr)⟩
              · intro hn
                exact absurd ⟨hcap, fr, pkt1, d1, rfl⟩ hn
          | none =>
            refine ⟨_, _, poll_flush_end_delay avcodec_decode_video2 avcodec_flush_buffers
              filter_execute blank v d d1 pkt1 rest0 hctx hbuf hcap hd, ?_, ?_, ?_⟩
            · intro h; simp at h
            · intro packet rest h; simp at h
            · intro rest h
              simp only [List.cons.injEq, true_and] at h
              refine ⟨?_, ?_⟩
              · rintro ⟨_, fr, pkt2, d2, hfr⟩
                simp at hfr
              · intro _
                exact ⟨by simp [h], (poll_result_eof filter_execute v).1,
                  (poll_result_eof filter_execute v).2⟩
      · refine ⟨_, _, poll_flush_end avcodec_decode_video2 avcodec_flush_buffers
          filter_execute blank v d rest0 hctx hbuf hcap, ?_, ?_, ?_⟩
        · intro h; simp at h
        · intro packet rest h; simp at h
        · intro rest h
          simp only [List.cons.injEq, true_and] at h
          refine ⟨?_, ?_⟩
          · rintro ⟨hc, _⟩
            exact absurd hc hcap
          · intro _
            exact ⟨by simp [h], (poll_result_eof filter_execute v).1,
              (poll_result_eof filter_execute v).2⟩

end video_decoder_theorems

/-- The theorem `poll_spec` on the decoder with a packet of 100 bytes and the
flush packet: the packet is removed, the flush packet stays, and the result has no
null frame. -/
theorem poll_spec_witness :
    ∃ result v1,
      poll sized_decode (fun d => d) passing_filter 0 decoder_two_packets
        = some (result, v1) ∧
      v1.packet_buffer_ = [none] ∧ none ∉ result := by
  obtain ⟨result, v1, hp, _, h2, _⟩ := poll_spec sized_decode (fun d => d) passing_filter
    0 decoder_two_packets 0 rfl
    (by
      intro pkt
      by_cases hz : pkt.size = 0 <;> simp [decode, sized_decode, hz])
  exact ⟨result, v1, hp, h2 _ _ rfl⟩

/-- The fix-up of the numerator for a denominator of one digit: 10 to the power
-1, without its fractional part, is 0. -/
theorem time_base_num_fixup_one_digit (den : Nat) (h : den < 10) :
    time_base_num_fixup den = 0 := by
  have hlog : Nat.log 10 den = 0 := Nat.log_of_lt h
  unfold time_base_num_fixup
  rw [hlog]
  have hp : (10 : ℚ) ^ (((0 : Nat) : Int) - 1) = 1 / 10 := by norm_num
  rw [hp, to_size_t_of_nonneg _ (by norm_num), Int.floor_eq_iff]
  norm_num

/-- C27 fails on the code for denominators below 10: for the time base 1/5 the
fix-up leaves the numerator 0, and `fps_` is 5 / 0, not a finite number; so it is
for the time base 1/1. For the time base 1/25 the numerator is 1. -/
theorem time_base_fixup_zero_numerator :
    time_base_num_fixup 5 = 0 ∧
    decoder_fps 5 (time_base_num_fixup 5) = none ∧
    time_base_num_fixup 1 = 0 ∧
    time_base_num_fixup 25 = 1 := by
  have h5 := time_base_num_fixup_one_digit 5 (by decide)
  have h1 := time_base_num_fixup_one_digit 1 (by decide)
  refine ⟨h5, by rw [h5]; rfl, h1, ?_⟩
  have hlog : Nat.log 10 25 = 1 := by
    rw [Nat.log_eq_iff (by decide)]
    decide
  unfold time_base_num_fixup
  rw [hlog]
  have hp : (10 : ℚ) ^ (((1 : Nat) : Int) - 1) = 1 := by norm_num
  rw [hp, to_size_t_of_nonneg _ (by norm_num), Int.floor_eq_iff]
  norm_num

end caspar.core
